import Mathlib

/-!
RS41SimTx: a shallow embedding of the transmitter firmware

Source files embedded here:

* `Core/Inc/SX127x.h`  : register addresses, masks, constants, `MetaDataStruct`
* `Core/Src/SX127x.c`  : the SX127x driver (register writes over the SPI bus)
* `Core/Src/main.c`    : the main loop (USB message reception, transmission)

Conventions.

* `unsigned char`, `uint16_t`, `uint32_t`, `unsigned int` values are `Nat`; every
  C conversion that can truncate is written as an explicit `% 2 ^ w`.
* `int8_t` and `int` values are `Int`.
* Undefined behaviour of the C program (division by zero, access outside an
  array) is the result `none`.
* The transceiver is a register file plus the list of bus operations that
  changed it (register writes, FIFO bursts, hardware resets), oldest first.
  Register reads are not logged.
-/

namespace RS41SimTx

/-! ## SX127x.h -/

def REG_FS_OPMODE : Nat := 0x01
def REG_FS_BRMSB : Nat := 0x02
def REG_FS_BRLSB : Nat := 0x03
def REG_FS_FDEVMSB : Nat := 0x04
def REG_FS_FDEVLSB : Nat := 0x05
def REG_FS_FRFMSB : Nat := 0x06
def REG_FS_FRFMID : Nat := 0x07
def REG_FS_FRFLSB : Nat := 0x08
def REG_FS_PACONFIG : Nat := 0x09
def REG_FS_PARAMP : Nat := 0x0A
def REG_FS_OCP : Nat := 0x0B
def REG_FS_PREAMBLEMSB : Nat := 0x25
def REG_FS_PREAMBLELSB : Nat := 0x26
def REG_FS_SYNCCONFIG : Nat := 0x27
def REG_FS_PACKETCONFIG1 : Nat := 0x30
def REG_FS_PACKETCONFIG2 : Nat := 0x31
def REG_FS_PALOADLENGTHLSB : Nat := 0x32
def REG_FS_FIFOTHRESH : Nat := 0x35
def REG_FS_IRQFLAGS2 : Nat := 0x3F
def REG_FS_DIOMAPPING1 : Nat := 0x40
def REG_FS_DIOMAPPING2 : Nat := 0x41
def REG_FS_PADAC : Nat := 0x4D
def REG_FS_BITRATEFRAC : Nat := 0x5D

def FIFO_THRESHOLD : Nat := 32
def FIFO_DATA_CHUNKS : Nat := 32

def GPIO_VARE_1 : Nat := 0x00
def GPIO_VARE_2 : Nat := 0x00

def RFFS_SYNCCONFIG_SYNC_ON_MASK : Nat := 0x10
def RFFS_PACKETCONFIG1_PACKET_FORMAT_MASK : Nat := 0x80
def RFFS_PACKETCONFIG1_CRC_ON_MASK : Nat := 0x10
def RFFS_FIFO_THRESHOLD_MASK : Nat := 0x1F
def RFFS_PACKETCONFIG2_PAYLOAD_LENGTH_MASK : Nat := 0x07
def RFFS_PARAMP_DATA_SHAPING_MASK : Nat := 0x60

def FS_IRQN_TXD_Value : Nat := 0x08
def FS_IRQN_FIFO_LEVEL_Value : Nat := 0x20

/-- Crystal oscillator frequency, `#define FXOSC 32000000`. -/
def FXOSC : Nat := 32000000

/-- The integer constant `#define FSTEP 61`. -/
def FSTEP : Nat := 61

/-- The C struct `MetaDataStruct`: the metadata of a message from the PC. -/
structure MetaDataStruct where
  /-- Field `uint16_t NumOfBytes`. -/
  NumOfBytes : Nat
  /-- Field `uint32_t FrequencyStart`, in Hz. -/
  FrequencyStart : Nat
  /-- Field `uint32_t DataRate`, in baud. -/
  DataRate : Nat
  /-- Field `uint32_t FrequencyDeviation`, in Hz. -/
  FrequencyDeviation : Nat
  /-- Field `uint8_t GaussianMode`. -/
  GaussianMode : Nat
  /-- Field `int8_t Power`, in dBm. -/
  Power : Int
  deriving DecidableEq, Repr

/-- The C enum `RFMode_SET`. -/
inductive RFMode_SET
  | Sleep_mode
  | Stdby_mode
  | TX_mode
  | Transmitter_mode
  | RF_mode
  | Receiver_mode
  | receive_single
  | CAD_mode
  deriving DecidableEq, Repr

/-- Numeric value of an `RFMode_SET` enumerator. -/
def RFMode_SET.val : RFMode_SET → Nat
  | .Sleep_mode => 0x00
  | .Stdby_mode => 0x01
  | .TX_mode => 0x02
  | .Transmitter_mode => 0x03
  | .RF_mode => 0x04
  | .Receiver_mode => 0x05
  | .receive_single => 0x06
  | .CAD_mode => 0x07

/-- The C enum `Debugging_fsk_ook`. -/
inductive Debugging_fsk_ook
  | FSK_mode
  | LORA_mode
  deriving DecidableEq, Repr

/-- Numeric value of a `Debugging_fsk_ook` enumerator. -/
def Debugging_fsk_ook.val : Debugging_fsk_ook → Nat
  | .FSK_mode => 0x00
  | .LORA_mode => 0x80

/-! ## Machine integers -/

/-- Conversion to `unsigned char`. -/
def toUInt8 (z : Int) : Nat := (z % 256).toNat

/-- Conversion to `int8_t` (two's complement wrap). -/
def toInt8 (n : Nat) : Int := if n % 256 < 128 then (n % 256 : Nat) else (n % 256 : Nat) - 256

/-- Conversion to `unsigned int` / `uint32_t`. -/
def toUInt32 (z : Int) : Nat := (z % 4294967296).toNat

/-- Conversion of an `unsigned int` to `int` (two's complement wrap). -/
def toInt32 (n : Nat) : Int :=
  if n % 4294967296 < 2147483648 then (n % 4294967296 : Nat) else (n % 4294967296 : Nat) - 4294967296

/-- The 8-bit complement `~m` of a mask, as used in `x & ~m` on an `unsigned char`. -/
def compl8 (m : Nat) : Nat := 0xFF ^^^ m

/-! ## The transceiver seen from the SPI bus -/

/-- One state-changing operation on the transceiver. -/
inductive BusOp
  /-- A register write: `SX127xWriteBuffer(addr, val)`. -/
  | write (addr val : Nat)
  /-- A burst write of payload bytes to the FIFO (address 0). -/
  | fifo (bytes : List Nat)
  /-- The reset line pulsed by `SX127xReset`. -/
  | reset
  deriving DecidableEq, Repr

/-- The transceiver: its register file and the bus operations performed so far (oldest first). -/
structure Chip where
  /-- Register contents by 7-bit address. -/
  regs : Nat → Nat
  /-- Bus operations performed so far, oldest first. -/
  bus : List BusOp

/-- The addresses of the register writes in a list of bus operations, in order. -/
def writtenAddrs : List BusOp → List Nat
  | [] => []
  | .write a _ :: t => a :: writtenAddrs t
  | _ :: t => writtenAddrs t

/-- The register writes (address, value) in a list of bus operations, in order. -/
def writes : List BusOp → List (Nat × Nat)
  | [] => []
  | .write a v :: t => (a, v) :: writes t
  | _ :: t => writes t

/-! ## SX127x.c -/

/-- `SX127xWriteBuffer(addr, buffer)`: sends `addr|0x80` then `buffer`; the chip stores the
byte at the 7-bit address. -/
def SX127xWriteBuffer (addr buffer : Nat) (c : Chip) : Chip :=
  { regs := fun a => if a = addr % 128 then buffer % 256 else c.regs a
    bus := c.bus ++ [.write (addr % 128) (buffer % 256)] }

/-- `SX127xReadBuffer(addr)`: sends `addr & 0x7f` and returns the byte the chip answers. -/
def SX127xReadBuffer (addr : Nat) (c : Chip) : Nat :=
  c.regs (addr &&& 0x7f) % 256

/-- `SX127xReset()`: pulses the reset line (the settle delays are not modelled). -/
def SX127xReset (c : Chip) : Chip :=
  { c with bus := c.bus ++ [.reset] }

/-- `SX127xFSKSetOpMode(opMode)`. -/
def SX127xFSKSetOpMode (opMode : RFMode_SET) (c : Chip) : Chip :=
  let opModePrev := SX127xReadBuffer REG_FS_OPMODE c
  let opModePrev := opModePrev &&& 0xf8
  let opModePrev := opModePrev ||| opMode.val
  SX127xWriteBuffer REG_FS_OPMODE opModePrev c

/-- `SX127xFSKLoRa(opMode)`. -/
def SX127xFSKLoRa (opMode : Debugging_fsk_ook) (c : Chip) : Chip :=
  let opModePrev := SX127xReadBuffer REG_FS_OPMODE c
  let opModePrev := opModePrev &&& 0x7F
  let opModePrev := opModePrev ||| opMode.val
  SX127xWriteBuffer REG_FS_OPMODE opModePrev c

/-! ### Double-precision arithmetic used by `SX127xFSKSetRFFrequency`

`int n = TxFrequency/61.035;` converts `TxFrequency` to `double` (exact, it is below `2^53`),
divides by the `double` nearest to the literal `61.035` (IEEE-754 binary64, round to nearest,
ties to even) and truncates the quotient toward zero. -/

/-- Nearest integer to `a / b`, ties to the even integer (`b > 0`). -/
def roundHalfEven (a b : Nat) : Nat :=
  let q := a / b
  let r := a % b
  if 2 * r < b then q else if b < 2 * r then q + 1 else if q % 2 = 0 then q else q + 1

/-- Search for the least `s ≥ s0` with `2^52 ≤ (a / b) * 2^s`; gives up after `fuel` tries. -/
def binary64ScaleFrom : Nat → Nat → Nat → Nat → Nat
  | 0, _, _, s => s
  | fuel + 1, a, b, s => if 2 ^ 52 * b ≤ a * 2 ^ s then s else binary64ScaleFrom fuel a b (s + 1)

/-- A positive finite binary64 number `mant / 2^scale` with a 53-bit significand `mant`. -/
structure Binary64 where
  /-- The significand, an integer in `[2^52, 2^53]`. -/
  mant : Nat
  /-- The (negated) binary exponent of the last place. -/
  scale : Nat
  deriving DecidableEq, Repr

/-- The binary64 number nearest to `a / b` (ties to even), for `1 / 2^1000 < a / b < 2^53`. -/
def binary64OfRat (a b : Nat) : Binary64 :=
  let s := binary64ScaleFrom 1100 a b 0
  { mant := roundHalfEven (a * 2 ^ s) b, scale := s }

/-- The `double` constant denoted by the literal `61.035`. -/
def lit_61_035 : Binary64 := binary64OfRat 61035 1000

/-- The `double` quotient `(double)x / d`, correctly rounded. -/
def binary64Div (x : Nat) (d : Binary64) : Binary64 :=
  binary64OfRat (x * 2 ^ d.scale) d.mant

/-- Conversion of a non-negative `double` to `int`: truncation toward zero. -/
def Binary64.toInt (v : Binary64) : Nat := v.mant / 2 ^ v.scale

/-- The value `n` of `int n = TxFrequency/61.035;`. -/
def frequencyRegValue (TxFrequency : Nat) : Nat :=
  (binary64Div TxFrequency lit_61_035).toInt

/-- `SX127xFSKSetRFFrequency(TxFrequency)`. -/
def SX127xFSKSetRFFrequency (TxFrequency : Nat) (c : Chip) : Chip :=
  let n := frequencyRegValue TxFrequency
  let Frequency0 := (n >>> 16) % 256
  let Frequency1 := (n >>> 8) % 256
  let Frequency2 := (n >>> 0) % 256
  let c := SX127xWriteBuffer REG_FS_FRFMSB Frequency0 c
  let c := SX127xWriteBuffer REG_FS_FRFMID Frequency1 c
  SX127xWriteBuffer REG_FS_FRFLSB Frequency2 c

/-- The value `n` of `int n=FXOSC/BitRate - BitRateFrac/16;` for `BitRate ≠ 0`: the quotient
and the difference are computed in `unsigned int`, the result is converted to `int`. -/
def bitRateRegValue (BitRate BitRateFrac : Nat) : Int :=
  toInt32 (toUInt32 ((FXOSC / BitRate : Nat) - ((BitRateFrac % 256 / 16 : Nat) : Int)))

/-- `SX127xFSKSetBitRate(BitRate, BitRateFrac)`; `none` when the division is by zero. -/
def SX127xFSKSetBitRate (BitRate BitRateFrac : Nat) (c : Chip) : Option Chip :=
  if BitRate = 0 then none
  else
    let n := bitRateRegValue BitRate BitRateFrac
    let BitRateBytes0 := toUInt8 (n >>> (8 : Nat))
    let BitRateBytes1 := toUInt8 (n >>> (0 : Nat))
    let c := SX127xWriteBuffer REG_FS_BRMSB BitRateBytes0 c
    let c := SX127xWriteBuffer REG_FS_BRLSB BitRateBytes1 c
    some (SX127xWriteBuffer REG_FS_BITRATEFRAC (BitRateFrac % 256 &&& 0x0F) c)

/-- `SX127xFSKSetFreqDev(FreqDev)`: `int n=FreqDev/FSTEP;` is an unsigned integer division. -/
def SX127xFSKSetFreqDev (FreqDev : Nat) (c : Chip) : Chip :=
  let n := FreqDev / FSTEP
  let FreqDevBytes0 := (n >>> 8) % 256
  let FreqDevBytes1 := (n >>> 0) % 256
  let c := SX127xWriteBuffer REG_FS_FDEVMSB (FreqDevBytes0 &&& 0x1F) c
  SX127xWriteBuffer REG_FS_FDEVLSB FreqDevBytes1 c

/-- `SX127xFSKSetRFPower(power)`. -/
def SX127xFSKSetRFPower (power : Int) (c : Chip) : Chip :=
  let c := SX127xWriteBuffer REG_FS_OCP 0x3f c
  if power > 11 then
    let c := SX127xWriteBuffer REG_FS_PADAC 0x87 c
    let PACONFIG := toUInt8 power
    let PACONFIG := if PACONFIG > 17 then 17 else PACONFIG
    let PACONFIG := toUInt8 ((PACONFIG : Int) - 0x02) ||| 0x80
    SX127xWriteBuffer REG_FS_PACONFIG PACONFIG c
  else
    let c := SX127xWriteBuffer REG_FS_PADAC 0x84 c
    let LocalPower : Int := power
    let LocalPower : Int := if LocalPower < -3 then 0 else toInt8 (toUInt8 (LocalPower + 3))
    let PACONFIG := toUInt8 LocalPower
    let PACONFIG := PACONFIG ||| 0x20
    SX127xWriteBuffer REG_FS_PACONFIG PACONFIG c

/-- `SX127xFSKSetGaussianMode(GaussianMode)`. -/
def SX127xFSKSetGaussianMode (GaussianMode : Nat) (c : Chip) : Chip :=
  let RECVER_DAT := SX127xReadBuffer REG_FS_PARAMP c
  let RECVER_DAT := RECVER_DAT &&& compl8 RFFS_PARAMP_DATA_SHAPING_MASK
  let RECVER_DAT := RECVER_DAT ||| (((GaussianMode % 256 &&& 0x03) <<< 5) % 256)
  SX127xWriteBuffer REG_FS_PARAMP RECVER_DAT c

/-- `SX127xFSKSetFIFOThreshold(FIFOThreshold)`. -/
def SX127xFSKSetFIFOThreshold (FIFOThreshold : Nat) (c : Chip) : Chip :=
  let RECVER_DAT := SX127xReadBuffer REG_FS_FIFOTHRESH c
  let RECVER_DAT := RECVER_DAT &&& compl8 RFFS_FIFO_THRESHOLD_MASK
  let RECVER_DAT := RECVER_DAT ||| (FIFOThreshold % 256 &&& RFFS_FIFO_THRESHOLD_MASK)
  SX127xWriteBuffer REG_FS_FIFOTHRESH RECVER_DAT c

/-- `SX127xFSKSetPacketFormat(enable)`. -/
def SX127xFSKSetPacketFormat (enable : Bool) (c : Chip) : Chip :=
  let RECVER_DAT := SX127xReadBuffer REG_FS_PACKETCONFIG1 c
  let RECVER_DAT := RECVER_DAT &&& compl8 RFFS_PACKETCONFIG1_PACKET_FORMAT_MASK
  let RECVER_DAT := if enable then RECVER_DAT ||| RFFS_PACKETCONFIG1_PACKET_FORMAT_MASK else RECVER_DAT
  SX127xWriteBuffer REG_FS_PACKETCONFIG1 RECVER_DAT c

/-- `SX127xFSKSetSyncOn(enable)`. -/
def SX127xFSKSetSyncOn (enable : Bool) (c : Chip) : Chip :=
  let RECVER_DAT := SX127xReadBuffer REG_FS_SYNCCONFIG c
  let RECVER_DAT := RECVER_DAT &&& compl8 RFFS_SYNCCONFIG_SYNC_ON_MASK
  let RECVER_DAT := if enable then RECVER_DAT ||| RFFS_SYNCCONFIG_SYNC_ON_MASK else RECVER_DAT
  SX127xWriteBuffer REG_FS_SYNCCONFIG RECVER_DAT c

/-- `SX127xFSKSetCrcOn(enable)`. -/
def SX127xFSKSetCrcOn (enable : Bool) (c : Chip) : Chip :=
  let RECVER_DAT := SX127xReadBuffer REG_FS_PACKETCONFIG1 c
  let RECVER_DAT := RECVER_DAT &&& compl8 RFFS_PACKETCONFIG1_CRC_ON_MASK
  let RECVER_DAT := if enable then RECVER_DAT ||| RFFS_PACKETCONFIG1_CRC_ON_MASK else RECVER_DAT
  SX127xWriteBuffer REG_FS_PACKETCONFIG1 RECVER_DAT c

/-- `SX127xFSKSetPreambleSize(PreambleSize)`. -/
def SX127xFSKSetPreambleSize (PreambleSize : Nat) (c : Chip) : Chip :=
  let PreambleSizeBytes0 := (PreambleSize >>> 8) % 256
  let PreambleSizeBytes1 := (PreambleSize >>> 0) % 256
  let c := SX127xWriteBuffer REG_FS_PREAMBLEMSB PreambleSizeBytes0 c
  SX127xWriteBuffer REG_FS_PREAMBLELSB PreambleSizeBytes1 c

/-- The global `unsigned int BitRateFrac = 0;` of SX127x.c, never assigned. -/
def BitRateFrac : Nat := 0

/-- `SX127xFSK_INT(SetupData)`; `none` when `SX127xFSKSetBitRate` divides by zero. -/
def SX127xFSK_INT (SetupData : MetaDataStruct) (c : Chip) : Option Chip :=
  let c := SX127xFSKSetOpMode .Sleep_mode c
  let c := SX127xFSKLoRa .FSK_mode c
  let c := SX127xFSKSetOpMode .Stdby_mode c
  let c := SX127xWriteBuffer REG_FS_DIOMAPPING1 GPIO_VARE_1 c
  let c := SX127xWriteBuffer REG_FS_DIOMAPPING2 GPIO_VARE_2 c
  let c := SX127xFSKSetRFFrequency SetupData.FrequencyStart c
  match SX127xFSKSetBitRate SetupData.DataRate BitRateFrac c with
  | none => none
  | some c =>
    let c := SX127xFSKSetFreqDev SetupData.FrequencyDeviation c
    let c := SX127xFSKSetGaussianMode SetupData.GaussianMode c
    let c := SX127xFSKSetRFPower SetupData.Power c
    let c := SX127xFSKSetSyncOn false c
    let c := SX127xFSKSetPacketFormat false c
    let c := SX127xFSKSetCrcOn false c
    let c := SX127xFSKSetPreambleSize 0 c
    some (SX127xFSKSetFIFOThreshold FIFO_THRESHOLD c)

/-- `SX127xFSKSetPayloadLength(PayloadLength)`. -/
def SX127xFSKSetPayloadLength (PayloadLength : Nat) (c : Chip) : Chip :=
  let c := SX127xFSKSetOpMode .Stdby_mode c
  let PayloadLengthBytes0 := ((PayloadLength >>> 8) &&& RFFS_PACKETCONFIG2_PAYLOAD_LENGTH_MASK) % 256
  let PayloadLengthBytes1 := (PayloadLength >>> 0) % 256
  let RECVER_DAT := SX127xReadBuffer REG_FS_PACKETCONFIG2 c
  let RECVER_DAT := (RECVER_DAT &&& compl8 RFFS_PACKETCONFIG2_PAYLOAD_LENGTH_MASK) ||| PayloadLengthBytes0
  let c := SX127xWriteBuffer REG_FS_PACKETCONFIG2 RECVER_DAT c
  SX127xWriteBuffer REG_FS_PALOADLENGTHLSB PayloadLengthBytes1 c

/-- `FUN_RF_SENDPACKET(RF_TRAN_P, LEN)`, given the `LEN` bytes that `RF_TRAN_P` points to. -/
def FUN_RF_SENDPACKET (bytes : List Nat) (c : Chip) : Chip :=
  let c := { c with bus := c.bus ++ [.fifo bytes] }
  let c := SX127xWriteBuffer REG_FS_DIOMAPPING1 0x40 c
  let c := SX127xWriteBuffer REG_FS_DIOMAPPING2 0x00 c
  SX127xFSKSetOpMode .Transmitter_mode c

/-! ## main.c

The main loop is embedded as a step function on `MainState`. A step at location `loopTop`
runs the loop body of lines 77-181 (USB message reception, then transmission management);
a step at location `txWait` runs one iteration of the inner loop `while(TxDataSize > 0)` of
lines 183-212. The value of `HAL_GetTick()` and the byte read from `REG_FS_IRQFLAGS2` (a
status register driven by the hardware) are inputs of a step. Bytes arriving over USB change
`USBBuffer` and `USBBufferPointer` between steps. The LED pin is not modelled. -/

/-- What `usb_printf` sends to the PC. -/
inductive UsbMessage
  /-- The text of `usb_printf("%d",USBBufferPointer)`. -/
  | count (n : Nat)
  /-- The text `"Message reception OK"`. -/
  | receptionOK
  /-- The text `"Message reception failed"`. -/
  | receptionFailed
  deriving DecidableEq, Repr

/-- Program location of the main loop. -/
inductive Loc
  /-- At `while (1)`, line 75. -/
  | loopTop
  /-- At `while(TxDataSize > 0)`, line 183. -/
  | txWait
  deriving DecidableEq, Repr

/-- The global `uint8_t PcReceptionStructSize = 16;`. -/
def PcReceptionStructSize : Nat := 16

/-- The local `uint32_t MaximumTicksPerMessage = 1000;`. -/
def MaximumTicksPerMessage : Nat := 1000

/-- Size of the arrays `USBBuffer` and `TxBuffer`. -/
def BufferSize : Nat := 1024

/-- The variables of main.c, the transceiver, and the text sent to the PC so far. -/
structure MainState where
  /-- The array `uint8_t USBBuffer[1024]`. -/
  USBBuffer : Nat → Nat
  /-- The global `uint16_t USBBufferPointer`. -/
  USBBufferPointer : Nat
  /-- The array `uint8_t TxBuffer[1024]`. -/
  TxBuffer : Nat → Nat
  /-- The global `unsigned int TxDataSize`. -/
  TxDataSize : Nat
  /-- The global `unsigned int TxBufferPointer`. -/
  TxBufferPointer : Nat
  /-- The global `MetaDataStruct SetupData`, the active configuration. -/
  SetupData : MetaDataStruct
  /-- The global `MetaDataStruct PcReceptionData`. -/
  PcReceptionData : MetaDataStruct
  /-- The local `uint32_t StartTime`. -/
  StartTime : Nat
  /-- The local `int NumOfBytes`; 1023 means that the declared length is not known. -/
  NumOfBytes : Int
  /-- The local `int AckNumber`. -/
  AckNumber : Int
  /-- The transceiver. -/
  chip : Chip
  /-- Messages sent to the PC so far, oldest first. -/
  usbOut : List UsbMessage
  /-- Program location. -/
  loc : Loc

/-- A big-endian 32-bit field of the header, as lines 103-108 read it. -/
def readU32 (buf : Nat → Nat) (i : Nat) : Nat :=
  (((buf i % 256) <<< 24) % 4294967296) ||| ((buf (i + 1) % 256) <<< 16) |||
    ((buf (i + 2) % 256) <<< 8) ||| (buf (i + 3) % 256)

/-- The big-endian 16-bit field at offset 0, as lines 91 and 102 read it. -/
def readU16 (buf : Nat → Nat) : Nat :=
  ((buf 0 % 256) <<< 8) ||| (buf 1 % 256)

/-- The `len` array elements starting at index `start`. -/
def readBytes (buf : Nat → Nat) (start len : Nat) : List Nat :=
  (List.range len).map fun i => buf (start + i)

/-- Lines 101-124: header parsing, payload copy, success notification, reset of the
reception variables. `none` when `memcpy` reads outside `USBBuffer` or writes outside
`TxBuffer`. -/
def messageReceived (s : MainState) : Option MainState :=
  let rx : MetaDataStruct :=
    { NumOfBytes := readU16 s.USBBuffer % 65536
      FrequencyStart := readU32 s.USBBuffer 2
      DataRate := readU32 s.USBBuffer 6
      FrequencyDeviation := readU32 s.USBBuffer 10
      GaussianMode := s.USBBuffer 14 % 256
      Power := toInt8 (s.USBBuffer 15) }
  let n := toUInt32 s.NumOfBytes
  if BufferSize < PcReceptionStructSize + n ∨ BufferSize < n then none
  else
    some { s with
      PcReceptionData := rx
      TxBuffer := fun i => if i < n then s.USBBuffer (PcReceptionStructSize + i) else s.TxBuffer i
      TxDataSize := toUInt32 (s.NumOfBytes - PcReceptionStructSize)
      usbOut := s.usbOut ++ [.count s.USBBufferPointer, .receptionOK]
      NumOfBytes := 1023
      USBBufferPointer := 0
      AckNumber := 0
      StartTime := 0 }

/-- The condition of lines 127-131: some field of the received metadata differs from the
active configuration. -/
def updateRequired (s : MainState) : Prop :=
  s.SetupData.FrequencyStart ≠ s.PcReceptionData.FrequencyStart ∨
  s.SetupData.DataRate ≠ s.PcReceptionData.DataRate ∨
  s.SetupData.FrequencyDeviation ≠ s.PcReceptionData.FrequencyDeviation ∨
  s.SetupData.GaussianMode ≠ s.PcReceptionData.GaussianMode ∨
  s.SetupData.Power ≠ s.PcReceptionData.Power

instance (s : MainState) : Decidable (updateRequired s) := by
  unfold updateRequired
  infer_instance

/-- Lines 126-136: re-initialisation of the transceiver when the metadata changed. -/
def updateInitialization (s : MainState) : Option MainState :=
  if updateRequired s then
    match SX127xFSK_INT s.PcReceptionData (SX127xReset s.chip) with
    | none => none
    | some c => some { s with chip := c, SetupData := s.PcReceptionData }
  else some s

/-- Lines 141-147: failure notification and reset of the reception variables. -/
def receptionFailed (s : MainState) : MainState :=
  { s with
    usbOut := s.usbOut ++ [.receptionFailed]
    NumOfBytes := 1023
    USBBufferPointer := 0
    AckNumber := 0
    StartTime := 0
    TxDataSize := 0 }

/-- Lines 79-149: USB message reception, with `now` the value of `HAL_GetTick()`. -/
def usbReception (now : Nat) (s : MainState) : Option MainState :=
  if s.USBBufferPointer > 0 then
    if s.StartTime = 0 then
      some { s with StartTime := now % 4294967296 }
    else if s.NumOfBytes = 1023 ∧ s.USBBufferPointer ≥ 2 then
      some { s with NumOfBytes := (readU16 s.USBBuffer : Nat) }
    else if s.USBBufferPointer % 64 = 0 ∧ s.AckNumber ≠ (s.USBBufferPointer : Int) then
      some { s with
        usbOut := s.usbOut ++ [.count s.USBBufferPointer]
        AckNumber := (s.USBBufferPointer : Int) }
    else if (s.USBBufferPointer : Int) ≥ s.NumOfBytes then
      (messageReceived s).bind updateInitialization
    else if toUInt32 ((now % 4294967296 : Nat) - (s.StartTime : Int)) > MaximumTicksPerMessage then
      some (receptionFailed s)
    else some s
  else some s

/-- Lines 153-181: transmission management. `none` when a chunk is read outside `TxBuffer`. -/
def transmission (s : MainState) : Option MainState :=
  let s :=
    if s.TxBufferPointer = 0 ∧ s.TxDataSize > 0 then
      { s with chip := SX127xFSKSetPayloadLength s.TxDataSize s.chip }
    else s
  if s.TxBufferPointer < s.TxDataSize then
    if s.TxDataSize - s.TxBufferPointer > FIFO_DATA_CHUNKS then
      if BufferSize < s.TxBufferPointer + FIFO_DATA_CHUNKS then none
      else
        some { s with
          chip := FUN_RF_SENDPACKET (readBytes s.TxBuffer s.TxBufferPointer FIFO_DATA_CHUNKS) s.chip
          TxBufferPointer := (s.TxBufferPointer + FIFO_DATA_CHUNKS) % 4294967296 }
    else
      let Remaining_Data := s.TxDataSize - s.TxBufferPointer
      let LEN := (Remaining_Data >>> 0) % 256
      if BufferSize < s.TxBufferPointer + LEN then none
      else
        some { s with
          chip := FUN_RF_SENDPACKET (readBytes s.TxBuffer s.TxBufferPointer LEN) s.chip
          TxBufferPointer := s.TxDataSize }
  else some s

/-- Lines 183-212: one evaluation of the loop condition and, when it holds, one iteration of
the body, with `irq` the byte read from `REG_FS_IRQFLAGS2`. -/
def waitStep (irq : Nat) (s : MainState) : MainState :=
  if s.TxDataSize > 0 then
    let Irq_flag_RX := irq % 256
    if Irq_flag_RX &&& FS_IRQN_TXD_Value = FS_IRQN_TXD_Value then
      let c := SX127xFSKSetOpMode .Stdby_mode s.chip
      let c := SX127xWriteBuffer REG_FS_DIOMAPPING1 0x00 c
      let c := SX127xWriteBuffer REG_FS_DIOMAPPING2 0x00 c
      { s with chip := c, TxBufferPointer := 0, TxDataSize := 0, loc := .loopTop }
    else if Irq_flag_RX &&& FS_IRQN_FIFO_LEVEL_Value = 0 ∧ s.TxBufferPointer < s.TxDataSize then
      { s with loc := .loopTop }
    else s
  else { s with loc := .loopTop }

/-- One step of the main loop. -/
def mainStep (now irq : Nat) (s : MainState) : Option MainState :=
  match s.loc with
  | .loopTop =>
    (usbReception now s).bind fun s =>
      (transmission s).map fun s => { s with loc := .txWait }
  | .txWait => some (waitStep irq s)

/-- Lines 51-73: the state in which the main loop is entered, for a transceiver whose
registers hold `regs` at power-up (`Board_Init` and the delays are not modelled). -/
def startup (regs : Nat → Nat) : Option MainState :=
  let SetupData : MetaDataStruct :=
    { NumOfBytes := 0
      FrequencyStart := 404000000
      DataRate := 4800
      FrequencyDeviation := 2400
      GaussianMode := 2
      Power := 19 }
  match SX127xFSK_INT SetupData (SX127xReset { regs := regs, bus := [] }) with
  | none => none
  | some c =>
    some
      { USBBuffer := fun _ => 0
        USBBufferPointer := 0
        TxBuffer := fun _ => 0
        TxDataSize := 0
        TxBufferPointer := 0
        SetupData := SetupData
        PcReceptionData := ⟨0, 0, 0, 0, 0, 0⟩
        StartTime := 0
        NumOfBytes := 1023
        AckNumber := 0
        chip := c
        usbOut := []
        loc := .loopTop }

/-- Modelled from the spec: the byte transport (the USB CDC receive callback, which is not
among the source files) delivers newly arrived bytes by storing them in `USBBuffer` from
index `USBBufferPointer` on and advancing `USBBufferPointer` by their number. -/
def usbArrival (bytes : List Nat) (s : MainState) : MainState :=
  { s with
    USBBuffer := fun i =>
      if s.USBBufferPointer ≤ i ∧ i < s.USBBufferPointer + bytes.length then
        bytes.getD (i - s.USBBufferPointer) 0 % 256
      else s.USBBuffer i
    USBBufferPointer := (s.USBBufferPointer + bytes.length) % 65536 }

/-- What happens between two observations of the system. -/
inductive Event
  /-- Bytes arrive over USB. -/
  | arrival (bytes : List Nat)
  /-- The main loop makes one step; `now` is the tick counter, `irq` the status byte. -/
  | step (now irq : Nat)
  deriving DecidableEq, Repr

/-- The state after a sequence of events. -/
def run : List Event → MainState → Option MainState
  | [], s => some s
  | .arrival bytes :: es, s => run es (usbArrival bytes s)
  | .step now irq :: es, s => (mainStep now irq s).bind (run es)

/-! ## The message format of the specification -/

/-- The 16-byte header of the host-to-device message format, big-endian: total length (2),
frequency (4), data rate (4), deviation (4), shaping mode (1), power (1, two's complement). -/
def encodeHeader (length frequency dataRate deviation mode : Nat) (power : Int) : List Nat :=
  [ length / 256 % 256, length % 256,
    frequency / 16777216 % 256, frequency / 65536 % 256, frequency / 256 % 256, frequency % 256,
    dataRate / 16777216 % 256, dataRate / 65536 % 256, dataRate / 256 % 256, dataRate % 256,
    deviation / 16777216 % 256, deviation / 65536 % 256, deviation / 256 % 256, deviation % 256,
    mode % 256, (power % 256).toNat ]

/-- A host-to-device message: header, then payload; the declared length counts both. -/
def encodeMessage (frequency dataRate deviation mode : Nat) (power : Int) (payload : List Nat) :
    List Nat :=
  encodeHeader (16 + payload.length) frequency dataRate deviation mode power ++ payload

/-- The receive buffer holds the bytes `msg` from index 0 on. -/
def bufferHolds (buf : Nat → Nat) (msg : List Nat) : Prop :=
  ∀ i, i < msg.length → buf i = msg.getD i 0

/-! ## Definitions used to state the properties -/

/-- The state holds the received command: the five parameters in `PcReceptionData`, the
payload length in `TxDataSize`, the payload at the start of `TxBuffer`. -/
def holdsCommand (t : MainState) (frequency dataRate deviation mode : Nat) (power : Int)
    (payload : List Nat) : Prop :=
  t.PcReceptionData.FrequencyStart = frequency ∧
  t.PcReceptionData.DataRate = dataRate ∧
  t.PcReceptionData.FrequencyDeviation = deviation ∧
  t.PcReceptionData.GaussianMode = mode ∧
  t.PcReceptionData.Power = power ∧
  t.TxDataSize = payload.length ∧
  ∀ i, i < payload.length → t.TxBuffer i = payload.getD i 0

/-- Two metadata records carry the same parameter set (the five fields compared in
lines 127-131). -/
def sameParameters (a b : MetaDataStruct) : Prop :=
  a.FrequencyStart = b.FrequencyStart ∧ a.DataRate = b.DataRate ∧
  a.FrequencyDeviation = b.FrequencyDeviation ∧ a.GaussianMode = b.GaussianMode ∧
  a.Power = b.Power

/-- Register value of the specification for a frequency or a deviation:
`round(hz / stepHz)` with `stepHz = oscillatorHz / 2^19`, that is the integer nearest to
`hz * 2^19 / 32000000`. -/
def specStepValue (hz : Nat) : Nat :=
  (2 * (hz * 2 ^ 19) + FXOSC) / (2 * FXOSC)

/-- Register value of the specification for a data rate with fractional part 0:
`round(oscillatorHz / dataRateBaud)`. -/
def specBitRateValue (baud : Nat) : Nat :=
  (2 * FXOSC + baud) / (2 * baud)

/-- The register addresses of the configuration sequence, in the order of the specification. -/
def configurationAddrs : List Nat :=
  [0x01, 0x01, 0x01, 0x40, 0x41, 0x06, 0x07, 0x08, 0x02, 0x03, 0x5D, 0x04, 0x05, 0x0A,
    0x0B, 0x4D, 0x09, 0x27, 0x30, 0x30, 0x25, 0x26, 0x35]

/-- A transceiver whose registers all hold 0 and that has seen no bus operation. -/
def blankChip : Chip := { regs := fun _ => 0, bus := [] }

/-- The parameter set that `main` installs at startup (lines 58-64). -/
def startupParameters : MetaDataStruct :=
  { NumOfBytes := 0
    FrequencyStart := 404000000
    DataRate := 4800
    FrequencyDeviation := 2400
    GaussianMode := 2
    Power := 19 }

/-- A state of the main loop in the middle of a reception: the receive buffer holds `buf`,
`count` bytes have arrived, the reception started at tick `start`, the local `NumOfBytes`
holds `declared`; the transmitter is idle and the active configuration is the startup one. -/
def receivingState (buf : List Nat) (count start : Nat) (declared : Int) : MainState :=
  { USBBuffer := fun i => buf.getD i 0
    USBBufferPointer := count
    TxBuffer := fun _ => 0
    TxDataSize := 0
    TxBufferPointer := 0
    SetupData := startupParameters
    PcReceptionData := ⟨0, 0, 0, 0, 0, 0⟩
    StartTime := start
    NumOfBytes := declared
    AckNumber := 0
    chip := blankChip
    usbOut := []
    loc := .loopTop }

/-- The message of the end-to-end scenario of the specification: declared length 20,
frequency 404000000, data rate 4800, deviation 2400, shaping 2, power 19, payload 1 2 3 4. -/
def scenarioMessage : List Nat :=
  encodeMessage 404000000 4800 2400 2 19 [0x01, 0x02, 0x03, 0x04]

/-- First half of the scenario: the first 10 bytes arrive, then the main loop runs three
times (each pass is a step at `loopTop` and a step at `txWait`) at ticks 5, 6, 7. -/
def scenarioFirstHalf : List Event :=
  [.arrival (scenarioMessage.take 10), .step 5 0, .step 5 0, .step 6 0, .step 6 0,
    .step 7 0, .step 7 0]

/-- Second half of the scenario: the last 10 bytes arrive, then the main loop body runs once
at tick 8. -/
def scenarioSecondHalf : List Event :=
  [.arrival (scenarioMessage.drop 10), .step 8 0]

/-- A message whose declared total length, 5, is shorter than the 16-byte header: a complete
header with the startup parameters and no payload. -/
def shortLengthMessage : List Nat :=
  encodeHeader 5 404000000 4800 2400 2 19

/-- The short-length message arrives in one piece, then the main loop runs three times. -/
def shortLengthEvents : List Event :=
  [.arrival shortLengthMessage, .step 5 0, .step 5 0, .step 6 0, .step 6 0, .step 7 0]

/-- The payload bursts written to the FIFO, in order. -/
def fifoBursts : List BusOp → List (List Nat)
  | [] => []
  | .fifo b :: t => b :: fifoBursts t
  | _ :: t => fifoBursts t

/-- The chunks of the specification for a payload of `L` bytes in `buf`: `⌈L/32⌉` chunks, the
chunk with index `k` (counted from 0) holding the `min 32 (L - 32 k)` bytes from offset
`32 k` on. -/
def specChunks (buf : Nat → Nat) (L : Nat) : List (List Nat) :=
  (List.range ((L + 31) / 32)).map fun k => readBytes buf (32 * k) (min 32 (L - 32 * k))

/-- A step of the main loop at which the device does not report TX-done; an arrival of bytes
is not such a step. -/
def isQuietStep : Event → Bool
  | .step _ irq => decide (irq % 256 &&& FS_IRQN_TXD_Value ≠ FS_IRQN_TXD_Value)
  | .arrival _ => false

/-- A state inside a transmit session of the `L` bytes of `buf`, with the frame assembler at
rest, in which the chunks with index below `j` have been written since the FIFO bursts
`base`, and the cursor stands behind them. -/
def sessionAfter (buf : Nat → Nat) (L : Nat) (base : List (List Nat)) (j : Nat)
    (s : MainState) : Prop :=
  s.USBBufferPointer = 0 ∧ s.TxBuffer = buf ∧ s.TxDataSize = L ∧
    s.TxBufferPointer = min (32 * j) L ∧ j ≤ (L + 31) / 32 ∧
    fifoBursts s.chip.bus = base ++ (specChunks buf L).take j

/-- A state of the main loop with a payload handed to the transmitter: the transmit buffer
holds `payload`, `TxDataSize` is its length and the cursor stands at `cursor`; the frame
assembler is at rest and the active configuration is the startup one. -/
def sendingState (payload : List Nat) (cursor : Nat) (loc : Loc) : MainState :=
  { USBBuffer := fun _ => 0
    USBBufferPointer := 0
    TxBuffer := fun i => payload.getD i 0
    TxDataSize := payload.length
    TxBufferPointer := cursor
    SetupData := startupParameters
    PcReceptionData := ⟨0, 0, 0, 0, 0, 0⟩
    StartTime := 0
    NumOfBytes := 1023
    AckNumber := 0
    chip := blankChip
    usbOut := []
    loc := loc }

/-- A transceiver whose registers all hold 0xFF and that has seen no bus operation. -/
def onesChip : Chip := { regs := fun _ => 0xFF, bus := [] }

/-- A message with the startup parameters and a payload of 128 bytes, 0 to 127: four chunks. -/
def sessionMessage : List Nat :=
  encodeMessage 404000000 4800 2400 2 19 (List.range 128)

/-- The 144 bytes of `sessionMessage` arrive in one piece; three passes of the main loop
(ticks 5, 6, 7) record the start time, read the declared length and complete the frame, the
third pass writing the first chunk; the device, asked at once, reports neither TX-done nor a
FIFO level above the threshold, so the inner loop is left for the next pass. -/
def sessionStartEvents : List Event :=
  [.arrival sessionMessage, .step 5 0, .step 5 0, .step 6 0, .step 6 0, .step 7 0, .step 7 0]

/-- After `sessionStartEvents`, one byte of a next message arrives and nothing follows it:
the pass at tick 8 records the start time and writes the second chunk, the pass at tick 1009
finds the reception timed out. -/
def timeoutInSessionEvents : List Event :=
  sessionStartEvents ++ [.arrival [0], .step 8 0, .step 8 0, .step 1009 0, .step 1009 0]

/-- After `sessionStartEvents`, the 20 bytes of `scenarioMessage` arrive in one piece: the
passes at ticks 8 and 9 record the start time and read the declared length, writing the
second and third chunk, and the pass at tick 10 completes the frame. -/
def overlapEvents : List Event :=
  sessionStartEvents ++ [.arrival scenarioMessage, .step 8 0, .step 8 0, .step 9 0, .step 9 0,
    .step 10 0]

/-- A complete message of 64 bytes with the startup parameters: 16 header bytes and a payload
of 48 bytes, 0 to 47. -/
def boundaryMessage : List Nat :=
  encodeMessage 404000000 4800 2400 2 19 (List.range 48)

/-- The 64 bytes of `boundaryMessage` arrive in one piece, then the loop body runs three
times (ticks 5, 6, 7). -/
def boundaryEvents : List Event :=
  [.arrival boundaryMessage, .step 5 0, .step 5 0, .step 6 0, .step 6 0, .step 7 0]

/-- The indices of `USBBuffer` that `memcpy(TxBuffer, USBBuffer + PcReceptionStructSize, N)`
of line 113 reads. -/
def copyReadIndices (N : Nat) : List Nat :=
  (List.range N).map fun i => PcReceptionStructSize + i

/-- The indices of `TxBuffer` that `memcpy(TxBuffer, USBBuffer + PcReceptionStructSize, N)`
of line 113 writes. -/
def copyWriteIndices (N : Nat) : List Nat :=
  List.range N

/-- The indices of `TxBuffer` that `FUN_RF_SENDPACKET(&(TxBuffer[start]), len)` reads. -/
def chunkReadIndices (start len : Nat) : List Nat :=
  (List.range len).map fun i => start + i

/-- A message with a data-rate field of 0: frequency 404000000, deviation 2400, shaping 2,
power 19, payload 1 2 3 4. -/
def zeroRateMessage : List Nat :=
  encodeMessage 404000000 0 2400 2 19 [0x01, 0x02, 0x03, 0x04]

/-- The 20 bytes of `zeroRateMessage` arrive in one piece, then the loop body runs three
times (ticks 5, 6, 7). -/
def zeroRateEvents : List Event :=
  [.arrival zeroRateMessage, .step 5 0, .step 5 0, .step 6 0, .step 6 0, .step 7 0]

/-! # Theorems -/

/-! ## Auxiliary facts: machine integers and the message header -/

/-- Two bytes combined with a shift and `|` are the big-endian number they spell. -/
theorem be16_eq (b0 b1 : Nat) (h1 : b1 < 256) :
    (b0 <<< 8) ||| b1 = b0 * 256 + b1 := by
  have e : b0 <<< 8 = 2 ^ 8 * b0 := by rw [Nat.shiftLeft_eq]; ring
  rw [e, ← Nat.mul_add_lt_is_or (by norm_num; exact h1)]
  norm_num; ring

/-- Four bytes combined with shifts and `|` are the big-endian number they spell. -/
theorem be32_eq (b0 b1 b2 b3 : Nat) (h0 : b0 < 256) (h1 : b1 < 256) (h2 : b2 < 256)
    (h3 : b3 < 256) :
    ((b0 <<< 24) % 4294967296) ||| (b1 <<< 16) ||| (b2 <<< 8) ||| b3
      = b0 * 16777216 + b1 * 65536 + b2 * 256 + b3 := by
  have e0 : (b0 <<< 24) % 4294967296 = 2 ^ 24 * b0 := by
    rw [Nat.shiftLeft_eq]; norm_num; omega
  have e1 : b1 <<< 16 = b1 * 65536 := by rw [Nat.shiftLeft_eq]
  have e2 : b2 <<< 8 = b2 * 256 := by rw [Nat.shiftLeft_eq]
  rw [e0, e1, e2]
  rw [← Nat.mul_add_lt_is_or (by norm_num; omega)]
  have f1 : 2 ^ 24 * b0 + b1 * 65536 = 2 ^ 16 * (b0 * 256 + b1) := by norm_num; ring
  rw [f1, ← Nat.mul_add_lt_is_or (by norm_num; omega)]
  have f2 : 2 ^ 16 * (b0 * 256 + b1) + b2 * 256 = 2 ^ 8 * (b0 * 65536 + b1 * 256 + b2) := by
    norm_num; ring
  rw [f2, ← Nat.mul_add_lt_is_or (by norm_num; omega)]
  norm_num; ring

/-- Reading back the four big-endian bytes of a 32-bit value gives the value. -/
theorem readU32_eq (buf : Nat → Nat) (i f : Nat) (hf : f < 4294967296)
    (h0 : buf i = f / 16777216 % 256) (h1 : buf (i + 1) = f / 65536 % 256)
    (h2 : buf (i + 2) = f / 256 % 256) (h3 : buf (i + 3) = f % 256) :
    readU32 buf i = f := by
  unfold readU32
  rw [be32_eq _ _ _ _ (Nat.mod_lt _ (by norm_num)) (Nat.mod_lt _ (by norm_num))
    (Nat.mod_lt _ (by norm_num)) (Nat.mod_lt _ (by norm_num)), h0, h1, h2, h3]
  omega

/-- Conversion to `int8_t` undoes the two's complement byte of a signed 8-bit value. -/
theorem toInt8_eq (power : Int) (h : -128 ≤ power ∧ power ≤ 127) (b : Nat)
    (hb : b = (power % 256).toNat) : toInt8 b = power := by
  unfold toInt8
  subst hb
  split <;> omega

/-- Bytes of the header part of a buffer that holds a message. -/
theorem bufferHolds_header (buf : Nat → Nat) (frequency dataRate deviation mode : Nat)
    (power : Int) (p : List Nat)
    (h : bufferHolds buf (encodeMessage frequency dataRate deviation mode power p)) (i : Nat)
    (hi : i < 16) :
    buf i = (encodeHeader (16 + p.length) frequency dataRate deviation mode power).getD i 0 := by
  have := h i (by simp [encodeMessage, encodeHeader]; omega)
  rw [this, encodeMessage, List.getD_append]
  simpa [encodeHeader] using hi

/-- Bytes of the payload part of a buffer that holds a message. -/
theorem bufferHolds_payload (buf : Nat → Nat) (frequency dataRate deviation mode : Nat)
    (power : Int) (p : List Nat)
    (h : bufferHolds buf (encodeMessage frequency dataRate deviation mode power p)) (i : Nat)
    (hi : i < p.length) :
    buf (16 + i) = p.getD i 0 := by
  have := h (16 + i) (by simp [encodeMessage, encodeHeader]; omega)
  rw [this, encodeMessage, List.getD_append_right _ _ _ _ (by simp [encodeHeader])]
  simp [encodeHeader]

/-- Lines 101-124 decode the header and copy the payload of a message held in the buffer. -/
theorem messageReceived_holdsCommand (s : MainState)
    (frequency dataRate deviation mode : Nat) (power : Int) (p : List Nat)
    (hf : frequency < 4294967296) (hr : dataRate < 4294967296) (hd : deviation < 4294967296)
    (hm : mode < 256) (hp : -128 ≤ power ∧ power ≤ 127)
    (hN : 16 + p.length ≤ 1008)
    (hbuf : bufferHolds s.USBBuffer (encodeMessage frequency dataRate deviation mode power p))
    (hlen : s.NumOfBytes = ((16 + p.length : Nat) : Int)) :
    ∃ s1, messageReceived s = some s1 ∧
      holdsCommand s1 frequency dataRate deviation mode power p ∧
      s1.SetupData = s.SetupData ∧ s1.chip = s.chip := by
  have hb := bufferHolds_header s.USBBuffer frequency dataRate deviation mode power p hbuf
  have hpl := bufferHolds_payload s.USBBuffer frequency dataRate deviation mode power p hbuf
  have hn : toUInt32 s.NumOfBytes = 16 + p.length := by
    rw [hlen]; unfold toUInt32; omega
  have hsz : toUInt32 (s.NumOfBytes - PcReceptionStructSize) = p.length := by
    rw [hlen]; unfold toUInt32 PcReceptionStructSize; omega
  have hguard : ¬ (BufferSize < PcReceptionStructSize + toUInt32 s.NumOfBytes ∨
      BufferSize < toUInt32 s.NumOfBytes) := by
    rw [hn]; unfold BufferSize PcReceptionStructSize; omega
  rw [messageReceived, if_neg hguard]
  refine ⟨_, rfl, ?_, rfl, rfl⟩
  refine ⟨?_, ?_, ?_, ?_, ?_, ?_, ?_⟩
  · exact readU32_eq _ _ _ hf (hb 2 (by norm_num)) (hb 3 (by norm_num)) (hb 4 (by norm_num))
      (hb 5 (by norm_num))
  · exact readU32_eq _ _ _ hr (hb 6 (by norm_num)) (hb 7 (by norm_num)) (hb 8 (by norm_num))
      (hb 9 (by norm_num))
  · exact readU32_eq _ _ _ hd (hb 10 (by norm_num)) (hb 11 (by norm_num))
      (hb 12 (by norm_num)) (hb 13 (by norm_num))
  · show s.USBBuffer 14 % 256 = mode
    rw [hb 14 (by norm_num)]
    simp [encodeHeader]; omega
  · show toInt8 (s.USBBuffer 15) = power
    exact toInt8_eq power hp _ (by rw [hb 15 (by norm_num)]; simp [encodeHeader])
  · exact hsz
  · intro i hi
    show (if i < toUInt32 s.NumOfBytes then s.USBBuffer (PcReceptionStructSize + i)
      else s.TxBuffer i) = p.getD i 0
    rw [if_pos (by rw [hn]; omega)]
    exact hpl i hi

/-- The conditions under which a tick of the reception code runs the completion branch. -/
theorem usbReception_complete (now : Nat) (s : MainState)
    (hcount : (s.USBBufferPointer : Int) ≥ s.NumOfBytes) (hpos : 0 < s.USBBufferPointer)
    (hstart : s.StartTime ≠ 0) (hread : ¬ (s.NumOfBytes = 1023 ∧ s.USBBufferPointer ≥ 2))
    (hack : ¬ (s.USBBufferPointer % 64 = 0 ∧ s.AckNumber ≠ (s.USBBufferPointer : Int))) :
    usbReception now s = (messageReceived s).bind updateInitialization := by
  unfold usbReception
  rw [if_pos hpos, if_neg hstart, if_neg hread, if_neg hack, if_pos hcount]

/-! ## Auxiliary facts: bus operations of the driver functions -/

/-- A register read returns a byte. -/
theorem SX127xReadBuffer_lt (a : Nat) (c : Chip) : SX127xReadBuffer a c < 256 :=
  Nat.mod_lt _ (by norm_num)

/-- A register write appends one write operation to the bus history. -/
theorem bus_SX127xWriteBuffer (a v : Nat) (c : Chip) :
    (SX127xWriteBuffer a v c).bus = c.bus ++ [.write (a % 128) (v % 256)] := rfl

/-- Bus operation of `SX127xFSKSetOpMode`. -/
theorem bus_SX127xFSKSetOpMode (mode : RFMode_SET) (c : Chip) :
    (SX127xFSKSetOpMode mode c).bus =
      c.bus ++ [.write 0x01 ((SX127xReadBuffer REG_FS_OPMODE c &&& 0xf8 ||| mode.val) % 256)] := rfl

/-- Bus operation of `SX127xFSKLoRa`. -/
theorem bus_SX127xFSKLoRa (mode : Debugging_fsk_ook) (c : Chip) :
    (SX127xFSKLoRa mode c).bus =
      c.bus ++ [.write 0x01 ((SX127xReadBuffer REG_FS_OPMODE c &&& 0x7F ||| mode.val) % 256)] := rfl

/-- Bus operations of `SX127xFSKSetRFFrequency`. -/
theorem bus_SX127xFSKSetRFFrequency (f : Nat) (c : Chip) :
    (SX127xFSKSetRFFrequency f c).bus =
      c.bus ++ [.write 0x06 ((frequencyRegValue f >>> 16) % 256 % 256),
        .write 0x07 ((frequencyRegValue f >>> 8) % 256 % 256),
        .write 0x08 ((frequencyRegValue f >>> 0) % 256 % 256)] := by
  simp [SX127xFSKSetRFFrequency, bus_SX127xWriteBuffer, REG_FS_FRFMSB, REG_FS_FRFMID,
    REG_FS_FRFLSB]

/-- Bus operations of `SX127xFSKSetBitRate` for a divisor other than 0. -/
theorem bus_SX127xFSKSetBitRate (r f : Nat) (c : Chip) (h : r ≠ 0) :
    ∃ c', SX127xFSKSetBitRate r f c = some c' ∧
      c'.bus = c.bus ++ [.write 0x02 (toUInt8 (bitRateRegValue r f >>> (8 : Nat)) % 256),
        .write 0x03 (toUInt8 (bitRateRegValue r f >>> (0 : Nat)) % 256),
        .write 0x5D ((f % 256 &&& 0x0F) % 256)] := by
  refine ⟨_, by rw [SX127xFSKSetBitRate, if_neg h], ?_⟩
  simp [bus_SX127xWriteBuffer, REG_FS_BRMSB, REG_FS_BRLSB, REG_FS_BITRATEFRAC]

/-- Bus operations of `SX127xFSKSetFreqDev`. -/
theorem bus_SX127xFSKSetFreqDev (d : Nat) (c : Chip) :
    (SX127xFSKSetFreqDev d c).bus =
      c.bus ++ [.write 0x04 ((((d / FSTEP) >>> 8) % 256 &&& 0x1F) % 256),
        .write 0x05 (((d / FSTEP) >>> 0) % 256 % 256)] := by
  simp [SX127xFSKSetFreqDev, bus_SX127xWriteBuffer, REG_FS_FDEVMSB, REG_FS_FDEVLSB]

/-- Bus operation of `SX127xFSKSetGaussianMode`. -/
theorem bus_SX127xFSKSetGaussianMode (g : Nat) (c : Chip) :
    ∃ v, (SX127xFSKSetGaussianMode g c).bus = c.bus ++ [.write 0x0A v] :=
  ⟨_, rfl⟩

/-- Bus operations of `SX127xFSKSetRFPower`: overload protection, boost register, PA config. -/
theorem bus_SX127xFSKSetRFPower (p : Int) (c : Chip) :
    ∃ v1 v2, (SX127xFSKSetRFPower p c).bus =
      c.bus ++ [.write 0x0B 0x3F, .write 0x4D v1, .write 0x09 v2] := by
  unfold SX127xFSKSetRFPower
  split
  · exact ⟨0x87, (toUInt8 (((if toUInt8 p > 17 then 17 else toUInt8 p : Nat) : Int) - 0x02)
      ||| 0x80) % 256, by
        simp [bus_SX127xWriteBuffer, REG_FS_OCP, REG_FS_PADAC, REG_FS_PACONFIG]⟩
  · exact ⟨0x84, (toUInt8 (if p < -3 then 0 else toInt8 (toUInt8 (p + 3))) ||| 0x20) % 256, by
        simp [bus_SX127xWriteBuffer, REG_FS_OCP, REG_FS_PADAC, REG_FS_PACONFIG]⟩

/-- Clearing the bits of a mask leaves no bit of the mask set. -/
theorem and_compl8_and (m x : Nat) :
    ((x &&& compl8 m) % 256) &&& m = 0 := by
  unfold compl8
  apply Nat.eq_of_testBit_eq
  intro i
  have h256 : (256 : Nat) = 2 ^ 8 := by norm_num
  rw [h256, Nat.testBit_and, Nat.testBit_mod_two_pow, Nat.testBit_and, Nat.testBit_xor,
    Nat.zero_testBit]
  by_cases hi : i < 8
  · have : Nat.testBit 255 i = true := by
      have : (255 : Nat) = 2 ^ 8 - 1 := by norm_num
      rw [this, Nat.testBit_two_pow_sub_one]; simpa using hi
    rw [this]
    cases Nat.testBit m i <;> simp
  · simp [hi]

/-- Bus operation of `SX127xFSKSetSyncOn(false)`: the sync bit is written as 0. -/
theorem bus_SX127xFSKSetSyncOn_false (c : Chip) :
    ∃ v, (SX127xFSKSetSyncOn false c).bus = c.bus ++ [.write 0x27 v] ∧ v &&& 0x10 = 0 :=
  ⟨_, rfl, and_compl8_and 0x10 _⟩

/-- Bus operation of `SX127xFSKSetPacketFormat(false)`: the format bit is written as 0. -/
theorem bus_SX127xFSKSetPacketFormat_false (c : Chip) :
    ∃ v, (SX127xFSKSetPacketFormat false c).bus = c.bus ++ [.write 0x30 v] ∧ v &&& 0x80 = 0 :=
  ⟨_, rfl, and_compl8_and 0x80 _⟩

/-- Bus operation of `SX127xFSKSetCrcOn(false)`: the CRC bit is written as 0. -/
theorem bus_SX127xFSKSetCrcOn_false (c : Chip) :
    ∃ v, (SX127xFSKSetCrcOn false c).bus = c.bus ++ [.write 0x30 v] ∧ v &&& 0x10 = 0 :=
  ⟨_, rfl, and_compl8_and 0x10 _⟩

/-- Bus operations of `SX127xFSKSetPreambleSize(0)`. -/
theorem bus_SX127xFSKSetPreambleSize_zero (c : Chip) :
    (SX127xFSKSetPreambleSize 0 c).bus = c.bus ++ [.write 0x25 0, .write 0x26 0] := by
  simp [SX127xFSKSetPreambleSize, bus_SX127xWriteBuffer, REG_FS_PREAMBLEMSB, REG_FS_PREAMBLELSB]

/-- Bus operation of `SX127xFSKSetFIFOThreshold`. -/
theorem bus_SX127xFSKSetFIFOThreshold (t : Nat) (c : Chip) :
    ∃ v, (SX127xFSKSetFIFOThreshold t c).bus = c.bus ++ [.write 0x35 v] :=
  ⟨_, rfl⟩


set_option maxRecDepth 100000 in
/-- Exhaustive check over all bytes and modes. -/
theorem opmode_low_bits_all :
    ∀ x, x < 256 → ∀ mode, mode < 8 → ((x &&& 0xf8 ||| mode) % 256) % 8 = mode := by
  decide

/-- The op-mode byte written by `SX127xFSKSetOpMode` has the mode in its low three bits. -/
theorem opmode_low_bits (x mode : Nat) (hx : x < 256) (hm : mode < 8) :
    ((x &&& 0xf8 ||| mode) % 256) % 8 = mode :=
  opmode_low_bits_all x hx mode hm

set_option maxRecDepth 100000 in
/-- Exhaustive check over all bytes. -/
theorem opmode_family_bit_all : ∀ x, x < 256 → (x &&& 0x7F ||| 0) % 256 < 128 := by
  decide

/-- The op-mode byte written by `SX127xFSKLoRa(FSK_mode)` has bit 7 clear. -/
theorem opmode_family_bit (x : Nat) (hx : x < 256) : (x &&& 0x7F ||| 0) % 256 < 128 :=
  opmode_family_bit_all x hx

/-- `SX127xFSKSetOpMode` writes one byte to 0x01 whose low three bits are the mode. -/
theorem busx_SX127xFSKSetOpMode (mode : RFMode_SET) (c : Chip) :
    ∃ v, (SX127xFSKSetOpMode mode c).bus = c.bus ++ [.write 0x01 v] ∧ v % 8 = mode.val :=
  ⟨_, rfl, opmode_low_bits _ _ (SX127xReadBuffer_lt _ _) (by cases mode <;> decide)⟩

/-- `SX127xFSKLoRa(FSK_mode)` writes one byte to 0x01 with bit 7 clear. -/
theorem busx_SX127xFSKLoRa_FSK (c : Chip) :
    ∃ v, (SX127xFSKLoRa .FSK_mode c).bus = c.bus ++ [.write 0x01 v] ∧ v < 128 :=
  ⟨_, rfl, opmode_family_bit _ (SX127xReadBuffer_lt _ _)⟩

/-- The register writes of `SX127xFSK_INT`, in order, for a data rate other than 0. -/
theorem configuration_order_aux (m : MetaDataStruct) (c : Chip) (h : m.DataRate ≠ 0) :
    ∃ (c' : Chip) (ws : List (Nat × Nat)), SX127xFSK_INT m c = some c' ∧
      c'.bus = c.bus ++ ws.map (fun w => BusOp.write w.1 w.2) ∧
      ws.map Prod.fst = configurationAddrs ∧
      (ws.getD 0 (0, 0)).2 % 8 = 0 ∧
      (ws.getD 1 (0, 0)).2 < 128 ∧
      (ws.getD 2 (0, 0)).2 % 8 = 1 ∧
      (ws.getD 3 (0, 0)).2 = 0 ∧
      (ws.getD 4 (0, 0)).2 = 0 ∧
      (ws.getD 14 (0, 0)).2 = 0x3F ∧
      (ws.getD 17 (0, 0)).2 &&& 0x10 = 0 ∧
      (ws.getD 18 (0, 0)).2 &&& 0x80 = 0 ∧
      (ws.getD 19 (0, 0)).2 &&& 0x10 = 0 ∧
      (ws.getD 20 (0, 0)).2 = 0 ∧
      (ws.getD 21 (0, 0)).2 = 0 := by
  unfold SX127xFSK_INT
  simp only []
  obtain ⟨v1, h1, k1⟩ := busx_SX127xFSKSetOpMode .Sleep_mode c
  generalize SX127xFSKSetOpMode .Sleep_mode c = c1 at *
  obtain ⟨v2, h2, k2⟩ := busx_SX127xFSKLoRa_FSK c1
  generalize SX127xFSKLoRa .FSK_mode c1 = c2 at *
  obtain ⟨v3, h3, k3⟩ := busx_SX127xFSKSetOpMode .Stdby_mode c2
  generalize SX127xFSKSetOpMode .Stdby_mode c2 = c3 at *
  have h4 := bus_SX127xWriteBuffer REG_FS_DIOMAPPING1 GPIO_VARE_1 c3
  generalize SX127xWriteBuffer REG_FS_DIOMAPPING1 GPIO_VARE_1 c3 = c4 at *
  have h5 := bus_SX127xWriteBuffer REG_FS_DIOMAPPING2 GPIO_VARE_2 c4
  generalize SX127xWriteBuffer REG_FS_DIOMAPPING2 GPIO_VARE_2 c4 = c5 at *
  have h6 := bus_SX127xFSKSetRFFrequency m.FrequencyStart c5
  generalize SX127xFSKSetRFFrequency m.FrequencyStart c5 = c6 at *
  obtain ⟨c7, hc7, h7⟩ := bus_SX127xFSKSetBitRate m.DataRate BitRateFrac c6 h
  rw [hc7]
  simp only []
  have h8 := bus_SX127xFSKSetFreqDev m.FrequencyDeviation c7
  generalize SX127xFSKSetFreqDev m.FrequencyDeviation c7 = c8 at *
  obtain ⟨v9, h9⟩ := bus_SX127xFSKSetGaussianMode m.GaussianMode c8
  generalize SX127xFSKSetGaussianMode m.GaussianMode c8 = c9 at *
  obtain ⟨v10a, v10b, h10⟩ := bus_SX127xFSKSetRFPower m.Power c9
  generalize SX127xFSKSetRFPower m.Power c9 = c10 at *
  obtain ⟨v11, h11, k11⟩ := bus_SX127xFSKSetSyncOn_false c10
  generalize SX127xFSKSetSyncOn false c10 = c11 at *
  obtain ⟨v12, h12, k12⟩ := bus_SX127xFSKSetPacketFormat_false c11
  generalize SX127xFSKSetPacketFormat false c11 = c12 at *
  obtain ⟨v13, h13, k13⟩ := bus_SX127xFSKSetCrcOn_false c12
  generalize SX127xFSKSetCrcOn false c12 = c13 at *
  have h14 := bus_SX127xFSKSetPreambleSize_zero c13
  generalize SX127xFSKSetPreambleSize 0 c13 = c14 at *
  obtain ⟨v15, h15⟩ := bus_SX127xFSKSetFIFOThreshold FIFO_THRESHOLD c14
  generalize SX127xFSKSetFIFOThreshold FIFO_THRESHOLD c14 = c15 at *
  refine ⟨c15, [(0x01, v1), (0x01, v2), (0x01, v3), (0x40, 0), (0x41, 0),
    (0x06, (frequencyRegValue m.FrequencyStart >>> 16) % 256 % 256),
    (0x07, (frequencyRegValue m.FrequencyStart >>> 8) % 256 % 256),
    (0x08, (frequencyRegValue m.FrequencyStart >>> 0) % 256 % 256),
    (0x02, toUInt8 (bitRateRegValue m.DataRate BitRateFrac >>> (8 : Nat)) % 256),
    (0x03, toUInt8 (bitRateRegValue m.DataRate BitRateFrac >>> (0 : Nat)) % 256),
    (0x5D, (BitRateFrac % 256 &&& 0x0F) % 256),
    (0x04, (((m.FrequencyDeviation / FSTEP) >>> 8) % 256 &&& 0x1F) % 256),
    (0x05, ((m.FrequencyDeviation / FSTEP) >>> 0) % 256 % 256),
    (0x0A, v9), (0x0B, 0x3F), (0x4D, v10a), (0x09, v10b), (0x27, v11), (0x30, v12), (0x30, v13), (0x25, 0),
    (0x26, 0), (0x35, v15)], rfl, ?_, rfl, k1, k2, k3, rfl, rfl, rfl, k11, k12, k13, rfl, rfl⟩
  rw [h15, h14, h13, h12, h11, h10, h9, h8, h7, h6, h5, h4, h3, h2, h1]
  simp only [List.append_assoc, List.map, List.cons_append, List.nil_append]
  rfl

/-- The written addresses of a list of register writes. -/
theorem writtenAddrs_map_write (ws : List (Nat × Nat)) :
    writtenAddrs (ws.map (fun w => BusOp.write w.1 w.2)) = ws.map Prod.fst := by
  induction ws with
  | nil => rfl
  | cons w t ih => simp [writtenAddrs, ih]

/-- The states that `updateInitialization` can return. -/
theorem updateInitialization_cases (s s' : MainState) (h : updateInitialization s = some s') :
    (¬ updateRequired s ∧ s' = s) ∨
    (updateRequired s ∧ ∃ c, SX127xFSK_INT s.PcReceptionData (SX127xReset s.chip) = some c ∧
      s' = { s with chip := c, SetupData := s.PcReceptionData }) := by
  unfold updateInitialization at h
  split at h
  · rename_i hreq
    right
    refine ⟨hreq, ?_⟩
    split at h
    · cases h
    · rename_i c hc
      cases h
      exact ⟨c, hc, rfl⟩
  · rename_i hreq
    cases h
    exact Or.inl ⟨hreq, rfl⟩

/-- Whenever `SX127xFSK_INT` returns, it has appended the configuration writes. -/
theorem SX127xFSK_INT_bus (m : MetaDataStruct) (c c' : Chip) (h : SX127xFSK_INT m c = some c') :
    ∃ ws : List (Nat × Nat), c'.bus = c.bus ++ ws.map (fun w => BusOp.write w.1 w.2) ∧
      ws.map Prod.fst = configurationAddrs := by
  have hne : m.DataRate ≠ 0 := by
    intro h0
    unfold SX127xFSK_INT SX127xFSKSetBitRate at h
    simp [h0] at h
  obtain ⟨c'', ws, hc, hb, ha, -⟩ := configuration_order_aux m c hne
  rw [h] at hc
  cases hc
  exact ⟨ws, hb, ha⟩

/-- Lines 126-136 keep the received command. -/
theorem updateInitialization_holdsCommand (s s' : MainState)
    (frequency dataRate deviation mode : Nat) (power : Int) (p : List Nat)
    (h : updateInitialization s = some s')
    (hc : holdsCommand s frequency dataRate deviation mode power p) :
    holdsCommand s' frequency dataRate deviation mode power p := by
  rcases updateInitialization_cases s s' h with ⟨_, rfl⟩ | ⟨_, c, _, rfl⟩
  · exact hc
  · exact hc

/-- Lines 126-136 return unless they must configure a data rate of 0. -/
theorem updateInitialization_isSome (s : MainState)
    (h : updateRequired s → s.PcReceptionData.DataRate ≠ 0) :
    ∃ s', updateInitialization s = some s' := by
  unfold updateInitialization
  split
  · rename_i hreq
    obtain ⟨c, ws, hc, -⟩ := configuration_order_aux s.PcReceptionData (SX127xReset s.chip) (h hreq)
    rw [hc]
    exact ⟨_, rfl⟩
  · exact ⟨_, rfl⟩

/-! ## Auxiliary facts: register encodings -/

set_option maxRecDepth 1000000 in
/-- The PA-config byte of the boost path, for every signed 8-bit power above 11. -/
theorem paConfig_high_all : ∀ n : Nat, n < 256 → (n : Int) - 128 > 11 →
    (toUInt8 (((if toUInt8 ((n : Int) - 128) > 17 then 17 else toUInt8 ((n : Int) - 128) : Nat)
      : Int) - 0x02) ||| 0x80) % 256 = (min ((n : Int) - 128) 17 - 2).toNat ||| 0x80 ∧
    ((min ((n : Int) - 128) 17 - 2).toNat ||| 0x80) % 16 = (min ((n : Int) - 128) 17 - 2).toNat := by
  decide

set_option maxRecDepth 1000000 in
/-- The PA-config byte of the low-power path, for every signed 8-bit power up to 11. -/
theorem paConfig_low_all : ∀ n : Nat, n < 256 → (n : Int) - 128 ≤ 11 →
    (toUInt8 (if (n : Int) - 128 < -3 then 0 else toInt8 (toUInt8 ((n : Int) - 128 + 3)))
      ||| 0x20) % 256 = (max ((n : Int) - 128) (-3) + 3).toNat ||| 0x20 ∧
    ((max ((n : Int) - 128) (-3) + 3).toNat ||| 0x20) % 16 =
      (max ((n : Int) - 128) (-3) + 3).toNat := by
  decide

/-- Bus operations of `SX127xFSKSetRFPower` on the boost path. -/
theorem bus_SX127xFSKSetRFPower_high (power : Int) (hlo : -128 ≤ power) (hhi : power ≤ 127)
    (h : power > 11) (c : Chip) :
    (SX127xFSKSetRFPower power c).bus = c.bus ++
      [.write 0x0B 0x3F, .write 0x4D 0x87, .write 0x09 ((min power 17 - 2).toNat ||| 0x80)] := by
  obtain ⟨n, hn, rfl⟩ : ∃ n : Nat, n < 256 ∧ power = (n : Int) - 128 :=
    ⟨(power + 128).toNat, by omega, by omega⟩
  have key := (paConfig_high_all n hn h).1
  unfold SX127xFSKSetRFPower
  rw [if_pos h]
  simp only [bus_SX127xWriteBuffer, REG_FS_OCP, REG_FS_PADAC, REG_FS_PACONFIG, key,
    List.append_assoc, List.cons_append, List.nil_append]

/-- Bus operations of `SX127xFSKSetRFPower` on the low-power path. -/
theorem bus_SX127xFSKSetRFPower_low (power : Int) (hlo : -128 ≤ power) (hhi : power ≤ 127)
    (h : power ≤ 11) (c : Chip) :
    (SX127xFSKSetRFPower power c).bus = c.bus ++
      [.write 0x0B 0x3F, .write 0x4D 0x84, .write 0x09 ((max power (-3) + 3).toNat ||| 0x20)] := by
  obtain ⟨n, hn, rfl⟩ : ∃ n : Nat, n < 256 ∧ power = (n : Int) - 128 :=
    ⟨(power + 128).toNat, by omega, by omega⟩
  have key := (paConfig_low_all n hn h).1
  unfold SX127xFSKSetRFPower
  rw [if_neg (not_lt.mpr h)]
  simp only [bus_SX127xWriteBuffer, REG_FS_OCP, REG_FS_PADAC, REG_FS_PACONFIG, key,
    List.append_assoc, List.cons_append, List.nil_append]

/-- Rounding to nearest never goes below the integer part. -/
theorem roundHalfEven_ge (a b : Nat) : a / b ≤ roundHalfEven a b := by
  unfold roundHalfEven
  simp only []
  split
  · exact le_rfl
  · split
    · exact Nat.le_succ _
    · split
      · exact le_rfl
      · exact Nat.le_succ _

/-- Rounding to nearest stays below the quotient plus one. -/
theorem roundHalfEven_mul_lt (a b : Nat) (hb : 0 < b) : roundHalfEven a b * b < a + b := by
  have hdm := Nat.div_add_mod a b
  have hml := Nat.mod_lt a hb
  have e : b * (a / b) = a / b * b := Nat.mul_comm _ _
  unfold roundHalfEven
  simp only []
  split
  · omega
  · rename_i h1
    have hr : 0 < a % b := by omega
    have e2 : (a / b + 1) * b = a / b * b + b := by ring
    split
    · omega
    · split
      · omega
      · omega

/-- The scale search stops at a scale that normalises the significand, or at its limit. -/
theorem binary64ScaleFrom_spec (fuel a b s0 : Nat) :
    2 ^ 52 * b ≤ a * 2 ^ binary64ScaleFrom fuel a b s0 ∨
      binary64ScaleFrom fuel a b s0 = s0 + fuel := by
  induction fuel generalizing s0 with
  | zero => right; rfl
  | succ n ih =>
    unfold binary64ScaleFrom
    split
    · left; assumption
    · rcases ih (s0 + 1) with h | h
      · left; exact h
      · right; rw [h]; ring

/-- The `double` denoted by `61.035` is `8589912601767444 / 2^47`. -/
theorem lit_61_035_eq : lit_61_035 = ⟨8589912601767444, 47⟩ := by decide

/-- The significand of that `double` has 53 bits, and the `double` lies below `61.035` by
less than half a unit in the last place (`2^-48`). -/
theorem lit_61_035_nearest :
    2 ^ 52 ≤ lit_61_035.mant ∧ lit_61_035.mant < 2 ^ 53 ∧
    lit_61_035.mant * 1000 ≤ 61035 * 2 ^ lit_61_035.scale ∧
    2 * (61035 * 2 ^ lit_61_035.scale - lit_61_035.mant * 1000) < 1000 := by
  decide

/-- For every 32-bit frequency the truncated double-precision quotient by `61.035` is the
integer part of the exact quotient `x * 1000 / 61035`. -/
theorem frequencyRegValue_eq (x : Nat) (hx : x < 4294967296) :
    frequencyRegValue x = x * 1000 / 61035 := by
  unfold frequencyRegValue binary64Div Binary64.toInt binary64OfRat
  rw [lit_61_035_eq]
  simp only []
  generalize hs : binary64ScaleFrom 1100 (x * 2 ^ 47) 8589912601767444 0 = s
  -- the scale is at least 26
  have hs26 : 2 ^ 26 ≤ 2 ^ s := by
    apply Nat.pow_le_pow_right (by norm_num)
    rcases binary64ScaleFrom_spec 1100 (x * 2 ^ 47) 8589912601767444 0 with h | h
    · rw [hs] at h
      by_contra hlt
      have hlt' : s ≤ 25 := by omega
      have hp : 2 ^ s ≤ 2 ^ 25 := Nat.pow_le_pow_right (by norm_num) hlt'
      have : x * 2 ^ 47 * 2 ^ s ≤ 4294967295 * 2 ^ 47 * 2 ^ 25 :=
        Nat.mul_le_mul (Nat.mul_le_mul_right _ (by omega)) hp
      norm_num at this h
      omega
    · rw [hs] at h; omega
  generalize 2 ^ s = P at hs26 ⊢
  set F := x * 1000 / 61035 with hF
  have hF1 : F * 61035 ≤ x * 1000 := Nat.div_mul_le_self _ _
  have hF2 : x * 1000 < (F + 1) * 61035 := by
    have := Nat.lt_succ_self (x * 1000 / 61035)
    rw [Nat.div_lt_iff_lt_mul (by norm_num)] at this
    exact this
  have hFb : F < 134217728 := by
    rw [hF, Nat.div_lt_iff_lt_mul (by norm_num)]; omega
  have hPpos : 0 < P := by omega
  set m := roundHalfEven (x * 2 ^ 47 * P) 8589912601767444 with hm
  have hlo : x * 2 ^ 47 * P / 8589912601767444 ≤ m := roundHalfEven_ge _ _
  have hhi : m * 8589912601767444 < x * 2 ^ 47 * P + 8589912601767444 :=
    roundHalfEven_mul_lt _ _ (by norm_num)
  apply Nat.div_eq_of_lt_le
  · -- F * P ≤ m
    refine le_trans ?_ hlo
    rw [Nat.le_div_iff_mul_le (by norm_num)]
    have h1 : F * 8589912601767444 ≤ x * 2 ^ 47 := by norm_num; omega
    calc F * P * 8589912601767444 = F * 8589912601767444 * P := by ring
      _ ≤ x * 2 ^ 47 * P := Nat.mul_le_mul_right _ h1
  · -- m < (F + 1) * P
    have h2 : x * 2 ^ 47 + 2 ^ 36 ≤ (F + 1) * 8589912601767444 := by norm_num; omega
    have h3 : (x * 2 ^ 47 + 2 ^ 36) * P ≤ (F + 1) * 8589912601767444 * P :=
      Nat.mul_le_mul_right _ h2
    have h4 : 2 ^ 36 * 2 ^ 26 ≤ 2 ^ 36 * P := Nat.mul_le_mul_left _ hs26
    have h5 : m * 8589912601767444 < (F + 1) * P * 8589912601767444 := by
      have e1 : (x * 2 ^ 47 + 2 ^ 36) * P = x * 2 ^ 47 * P + 2 ^ 36 * P := by ring
      have e2 : (F + 1) * 8589912601767444 * P = (F + 1) * P * 8589912601767444 := by ring
      rw [e1, e2] at h3
      norm_num at h4
      omega
    exact Nat.lt_of_mul_lt_mul_right h5

/-- The value `n` of `SX127xFSKSetBitRate` as an integer difference (no wrap-around remains
after the conversion to `int`). -/
theorem bitRateRegValue_eq (BitRate f : Nat) (hf : f < 256) :
    bitRateRegValue BitRate f = ((32000000 / BitRate : Nat) : Int) - ((f / 16 : Nat) : Int) := by
  unfold bitRateRegValue toInt32 toUInt32 FXOSC
  have hq : 32000000 / BitRate ≤ 32000000 := Nat.div_le_self _ _
  have hfm : f % 256 = f := Nat.mod_eq_of_lt hf
  rw [hfm]
  generalize 32000000 / BitRate = q at hq ⊢
  split <;> omega


/-! ## Auxiliary facts: steps of the main loop -/

/-- First tick after the first byte: the start time is recorded. -/
theorem usbReception_start (now : Nat) (s : MainState) (hpos : 0 < s.USBBufferPointer)
    (hstart : s.StartTime = 0) :
    usbReception now s = some { s with StartTime := now % 4294967296 } := by
  unfold usbReception
  rw [if_pos hpos, if_pos hstart]

/-- Tick that reads the declared length from bytes 0 and 1. -/
theorem usbReception_length (now : Nat) (s : MainState) (hstart : s.StartTime ≠ 0)
    (hlen : s.NumOfBytes = 1023) (hpos : 2 ≤ s.USBBufferPointer) :
    usbReception now s = some { s with NumOfBytes := (readU16 s.USBBuffer : Nat) } := by
  unfold usbReception
  rw [if_pos (by omega), if_neg hstart, if_pos ⟨hlen, hpos⟩]

/-- Tick of an in-progress frame within the deadline: nothing changes. -/
theorem usbReception_pending (now : Nat) (s : MainState) (hstart : s.StartTime ≠ 0)
    (hread : s.NumOfBytes ≠ 1023)
    (hack : ¬ (s.USBBufferPointer % 64 = 0 ∧ s.AckNumber ≠ (s.USBBufferPointer : Int)))
    (hlt : (s.USBBufferPointer : Int) < s.NumOfBytes)
    (hel : (now % 4294967296 + 4294967296 - s.StartTime % 4294967296) % 4294967296 ≤ 1000) :
    usbReception now s = some s := by
  have hel' : toUInt32 ((now % 4294967296 : Nat) - (s.StartTime : Int)) =
      (now % 4294967296 + 4294967296 - s.StartTime % 4294967296) % 4294967296 := by
    unfold toUInt32; omega
  unfold usbReception
  split
  · simp only [if_neg hstart, if_neg (fun h : s.NumOfBytes = 1023 ∧ s.USBBufferPointer ≥ 2 =>
      hread h.1), if_neg hack, if_neg (not_le.mpr hlt), hel']
    rw [if_neg (by unfold MaximumTicksPerMessage; omega)]
  · rfl

/-- With no payload pending, transmission management does nothing. -/
theorem transmission_idle (s : MainState) (h : s.TxDataSize = 0) : transmission s = some s := by
  unfold transmission
  simp [h]

/-- With no payload pending, the inner loop is not entered. -/
theorem waitStep_idle (irq : Nat) (s : MainState) (h : s.TxDataSize = 0) :
    waitStep irq s = { s with loc := .loopTop } := by
  unfold waitStep
  simp [h]

/-- A pass of the main loop while the transmitter is idle: the body changes the state as
`usbReception` does, the inner loop is not entered. -/
theorem run_idle_pass (now irq now' irq' : Nat) (s s1 : MainState) (es : List Event)
    (hloc : s.loc = .loopTop) (h : usbReception now s = some s1) (h0 : s1.TxDataSize = 0)
    (hloc1 : s1.loc = .loopTop) :
    run (.step now irq :: .step now' irq' :: es) s = run es s1 := by
  have e1 : mainStep now irq s = some { s1 with loc := .txWait } := by
    unfold mainStep
    rw [hloc]
    simp [h, transmission_idle s1 h0]
  have e2 : mainStep now' irq' { s1 with loc := .txWait } = some s1 := by
    unfold mainStep
    simp only []
    rw [waitStep_idle _ _ (show ({ s1 with loc := .txWait } : MainState).TxDataSize = 0 from h0)]
    cases s1
    simp only [] at hloc1
    subst hloc1
    rfl
  simp [run, e1, e2]

/-- Bus operations of `SX127xFSKSetPayloadLength`. -/
theorem busx_SX127xFSKSetPayloadLength (n : Nat) (c : Chip) :
    ∃ v1 v2, (SX127xFSKSetPayloadLength n c).bus =
      c.bus ++ [.write 0x01 v1, .write 0x31 v2, .write 0x32 (n % 256)] ∧ v1 % 8 = 1 := by
  obtain ⟨v1, h1, k1⟩ := busx_SX127xFSKSetOpMode .Stdby_mode c
  refine ⟨v1, ((SX127xReadBuffer REG_FS_PACKETCONFIG2 (SX127xFSKSetOpMode .Stdby_mode c) &&&
    compl8 RFFS_PACKETCONFIG2_PAYLOAD_LENGTH_MASK) |||
      ((n >>> 8) &&& RFFS_PACKETCONFIG2_PAYLOAD_LENGTH_MASK) % 256) % 256, ?_, k1⟩
  unfold SX127xFSKSetPayloadLength
  simp only [bus_SX127xWriteBuffer, h1, List.append_assoc, List.cons_append, List.nil_append,
    REG_FS_PACKETCONFIG2, REG_FS_PALOADLENGTHLSB, Nat.shiftRight_zero]
  simp

/-- Bus operations of `FUN_RF_SENDPACKET`. -/
theorem busx_FUN_RF_SENDPACKET (bytes : List Nat) (c : Chip) :
    ∃ v, (FUN_RF_SENDPACKET bytes c).bus =
      c.bus ++ [.fifo bytes, .write 0x40 0x40, .write 0x41 0x00, .write 0x01 v] ∧ v % 8 = 3 := by
  unfold FUN_RF_SENDPACKET
  simp only []
  obtain ⟨v, h, k⟩ := busx_SX127xFSKSetOpMode .Transmitter_mode
    (SX127xWriteBuffer REG_FS_DIOMAPPING2 0x00 (SX127xWriteBuffer REG_FS_DIOMAPPING1 0x40
      { regs := c.regs, bus := c.bus ++ [.fifo bytes] }))
  refine ⟨v, ?_, k⟩
  rw [h]
  simp [bus_SX127xWriteBuffer, REG_FS_DIOMAPPING1, REG_FS_DIOMAPPING2]


/-- The state in which the main loop is entered, for any register content at power-up. -/
theorem startup_eq (regs : Nat → Nat) :
    ∃ s0 cfg, startup regs = some s0 ∧
      s0.USBBufferPointer = 0 ∧ s0.StartTime = 0 ∧ s0.NumOfBytes = 1023 ∧ s0.AckNumber = 0 ∧
      s0.TxDataSize = 0 ∧ s0.TxBufferPointer = 0 ∧ s0.loc = .loopTop ∧
      s0.SetupData = startupParameters ∧ s0.usbOut = [] ∧
      s0.chip.bus = BusOp.reset :: cfg ∧ writtenAddrs cfg = configurationAddrs ∧
      cfg.length = 23 := by
  obtain ⟨c0, ws, hc0, hbus, haddr, -⟩ := configuration_order_aux startupParameters
    (SX127xReset { regs := regs, bus := [] }) (by decide)
  have hst : startup regs = some
      { USBBuffer := fun _ => 0
        USBBufferPointer := 0
        TxBuffer := fun _ => 0
        TxDataSize := 0
        TxBufferPointer := 0
        SetupData := startupParameters
        PcReceptionData := ⟨0, 0, 0, 0, 0, 0⟩
        StartTime := 0
        NumOfBytes := 1023
        AckNumber := 0
        chip := c0
        usbOut := []
        loc := .loopTop } := by
    unfold startup
    simp only []
    have : SX127xFSK_INT ⟨0, 404000000, 4800, 2400, 2, 19⟩
        (SX127xReset { regs := regs, bus := [] }) = some c0 := hc0
    rw [this]
    rfl
  refine ⟨_, ws.map (fun w => BusOp.write w.1 w.2), hst, rfl, rfl, rfl, rfl, rfl, rfl, rfl, rfl,
    rfl, ?_, by rw [writtenAddrs_map_write, haddr], by
      have := congrArg List.length haddr
      simpa [configurationAddrs] using this⟩
  show c0.bus = _
  rw [hbus]
  simp [SX127xReset]

/-- The first half of the scenario from any idle state with an empty receive buffer. -/
theorem scenario_first_half (sI : MainState) (hptr : sI.USBBufferPointer = 0)
    (hstart : sI.StartTime = 0) (hnum : sI.NumOfBytes = 1023) (hack : sI.AckNumber = 0)
    (htx : sI.TxDataSize = 0) (hloc : sI.loc = .loopTop) :
    run scenarioFirstHalf sI =
      some { usbArrival (scenarioMessage.take 10) sI with StartTime := 5, NumOfBytes := 20 } := by
  have hA : run scenarioFirstHalf sI = run [.step 5 0, .step 5 0, .step 6 0, .step 6 0,
      .step 7 0, .step 7 0] (usbArrival (scenarioMessage.take 10) sI) := rfl
  have hp : (usbArrival (scenarioMessage.take 10) sI).USBBufferPointer = 10 := by
    simp [usbArrival, hptr, scenarioMessage, encodeMessage, encodeHeader]
  have h16 : readU16 (usbArrival (scenarioMessage.take 10) sI).USBBuffer = 20 := by
    simp [usbArrival, hptr, scenarioMessage, encodeMessage, encodeHeader, readU16]
  rw [hA]
  generalize hsA : usbArrival (scenarioMessage.take 10) sI = sA at hp h16 ⊢
  have hstartA : sA.StartTime = 0 := by rw [← hsA]; exact hstart
  have hnumA : sA.NumOfBytes = 1023 := by rw [← hsA]; exact hnum
  have hackA : sA.AckNumber = 0 := by rw [← hsA]; exact hack
  have htxA : sA.TxDataSize = 0 := by rw [← hsA]; exact htx
  have hlocA : sA.loc = .loopTop := by rw [← hsA]; exact hloc
  have e1 := usbReception_start 5 sA (by rw [hp]; decide) hstartA
  have r1 := run_idle_pass 5 0 5 0 sA { sA with StartTime := 5 % 4294967296 }
    [.step 6 0, .step 6 0, .step 7 0, .step 7 0] hlocA e1 htxA hlocA
  rw [r1]
  have e2 : usbReception 6 { sA with StartTime := 5 % 4294967296 } =
      some { sA with StartTime := 5 % 4294967296, NumOfBytes := (readU16 sA.USBBuffer : Nat) } :=
    usbReception_length 6 { sA with StartTime := 5 % 4294967296 } (by simp) hnumA
      (by show 2 ≤ sA.USBBufferPointer; rw [hp]; decide)
  have r2 := run_idle_pass 6 0 6 0 { sA with StartTime := 5 % 4294967296 }
    { sA with StartTime := 5 % 4294967296, NumOfBytes := (readU16 sA.USBBuffer : Nat) }
    [.step 7 0, .step 7 0] hlocA e2 htxA hlocA
  rw [r2]
  have hread : (readU16 sA.USBBuffer : Int) ≠ 1023 := by rw [h16]; decide
  have hnoack : ¬ (sA.USBBufferPointer % 64 = 0 ∧ sA.AckNumber ≠ (sA.USBBufferPointer : Int)) := by
    rw [hp]; exact fun h => absurd h.1 (by decide)
  have hlt : (sA.USBBufferPointer : Int) < (readU16 sA.USBBuffer : Nat) := by
    rw [hp, h16]; decide
  have e3 : usbReception 7
      { sA with StartTime := 5 % 4294967296, NumOfBytes := (readU16 sA.USBBuffer : Nat) } =
      some { sA with StartTime := 5 % 4294967296, NumOfBytes := (readU16 sA.USBBuffer : Nat) } :=
    usbReception_pending 7 _ (show 5 % 4294967296 ≠ 0 by decide) hread hnoack hlt
      (show (7 % 4294967296 + 4294967296 - 5 % 4294967296 % 4294967296) % 4294967296 ≤ 1000
        by decide)
  have r3 := run_idle_pass 7 0 7 0
    { sA with StartTime := 5 % 4294967296, NumOfBytes := (readU16 sA.USBBuffer : Nat) }
    { sA with StartTime := 5 % 4294967296, NumOfBytes := (readU16 sA.USBBuffer : Nat) }
    [] hlocA e3 htxA hlocA
  rw [r3, h16]
  rfl


/-- The state that lines 101-124 return when the copy is within the buffers. -/
theorem messageReceived_eq (s : MainState) (h : toUInt32 s.NumOfBytes ≤ 1008) :
    messageReceived s = some { s with
      PcReceptionData :=
        { NumOfBytes := readU16 s.USBBuffer % 65536
          FrequencyStart := readU32 s.USBBuffer 2
          DataRate := readU32 s.USBBuffer 6
          FrequencyDeviation := readU32 s.USBBuffer 10
          GaussianMode := s.USBBuffer 14 % 256
          Power := toInt8 (s.USBBuffer 15) }
      TxBuffer := fun i =>
        if i < toUInt32 s.NumOfBytes then s.USBBuffer (PcReceptionStructSize + i)
        else s.TxBuffer i
      TxDataSize := toUInt32 (s.NumOfBytes - PcReceptionStructSize)
      usbOut := s.usbOut ++ [.count s.USBBufferPointer, .receptionOK]
      NumOfBytes := 1023
      USBBufferPointer := 0
      AckNumber := 0
      StartTime := 0 } := by
  unfold messageReceived
  simp only []
  rw [if_neg (by unfold BufferSize PcReceptionStructSize; omega)]

/-- Transmission management for a new payload of at most 32 bytes: payload length, then
one chunk with the whole payload. -/
theorem transmission_single_chunk (s : MainState) (hp : s.TxBufferPointer = 0)
    (hsz : 0 < s.TxDataSize) (hle : s.TxDataSize ≤ 32) :
    transmission s = some { s with
      chip := FUN_RF_SENDPACKET (readBytes s.TxBuffer 0 s.TxDataSize)
        (SX127xFSKSetPayloadLength s.TxDataSize s.chip)
      TxBufferPointer := s.TxDataSize } := by
  unfold transmission
  simp only [hp, hsz, true_and, if_true, Nat.sub_zero, FIFO_DATA_CHUNKS, BufferSize,
    Nat.shiftRight_zero, Nat.zero_add]
  have h1 : ¬ (s.TxDataSize > 32) := by omega
  have h2 : s.TxDataSize % 256 = s.TxDataSize := Nat.mod_eq_of_lt (by omega)
  have h3 : ¬ (1024 < s.TxDataSize) := by omega
  simp only [h1, h2, h3, if_false, if_true, hsz]

/-- The second half of the scenario from a state that holds the first 10 bytes. -/
theorem scenario_second_half (sM : MainState) (hptr : sM.USBBufferPointer = 10)
    (hbuf : ∀ i, i < 10 → sM.USBBuffer i = scenarioMessage.getD i 0)
    (hstart : sM.StartTime = 5) (hnum : sM.NumOfBytes = 20) (hack : sM.AckNumber = 0)
    (htxp : sM.TxBufferPointer = 0) (hloc : sM.loc = .loopTop)
    (hsetup : sM.SetupData = startupParameters) :
    ∃ sE, run scenarioSecondHalf sM = some sE ∧
      sE.usbOut = sM.usbOut ++ [.count 20, .receptionOK] ∧
      sE.PcReceptionData = ⟨20, 404000000, 4800, 2400, 2, 19⟩ ∧
      sE.TxDataSize = 4 ∧ readBytes sE.TxBuffer 0 4 = [0x01, 0x02, 0x03, 0x04] ∧
      sE.SetupData = startupParameters ∧
      sE.chip = FUN_RF_SENDPACKET [0x01, 0x02, 0x03, 0x04]
        (SX127xFSKSetPayloadLength 4 sM.chip) := by
  have hA : run scenarioSecondHalf sM =
      (mainStep 8 0 (usbArrival (scenarioMessage.drop 10) sM)).bind (run []) := rfl
  have hp : (usbArrival (scenarioMessage.drop 10) sM).USBBufferPointer = 20 := by
    simp [usbArrival, hptr, scenarioMessage, encodeMessage, encodeHeader]
  have hb : ∀ i, i < 20 →
      (usbArrival (scenarioMessage.drop 10) sM).USBBuffer i = scenarioMessage.getD i 0 := by
    intro i hi
    by_cases h10 : i < 10
    · have : ¬ (sM.USBBufferPointer ≤ i ∧
          i < sM.USBBufferPointer + (scenarioMessage.drop 10).length) := by rw [hptr]; omega
      show (if _ then _ else _) = _
      rw [if_neg this]
      exact hbuf i h10
    · have : sM.USBBufferPointer ≤ i ∧
          i < sM.USBBufferPointer + (scenarioMessage.drop 10).length := by
        rw [hptr]; simp [scenarioMessage, encodeMessage, encodeHeader]; omega
      show (if _ then _ else _) = _
      rw [if_pos this, hptr]
      have hi' : i = 10 ∨ i = 11 ∨ i = 12 ∨ i = 13 ∨ i = 14 ∨ i = 15 ∨ i = 16 ∨ i = 17 ∨
          i = 18 ∨ i = 19 := by omega
      rcases hi' with h | h | h | h | h | h | h | h | h | h <;> subst h <;> decide
  generalize hsB : usbArrival (scenarioMessage.drop 10) sM = sB at hA hp hb
  have hstartB : sB.StartTime = 5 := by rw [← hsB]; exact hstart
  have hnumB : sB.NumOfBytes = 20 := by rw [← hsB]; exact hnum
  have hackB : sB.AckNumber = 0 := by rw [← hsB]; exact hack
  have htxpB : sB.TxBufferPointer = 0 := by rw [← hsB]; exact htxp
  have hlocB : sB.loc = .loopTop := by rw [← hsB]; exact hloc
  have hsetupB : sB.SetupData = startupParameters := by rw [← hsB]; exact hsetup
  have hchipB : sB.chip = sM.chip := by rw [← hsB]; rfl
  have houtB : sB.usbOut = sM.usbOut := by rw [← hsB]; rfl
  have hholds : bufferHolds sB.USBBuffer (encodeMessage 404000000 4800 2400 2 19
      [0x01, 0x02, 0x03, 0x04]) := fun i hi => hb i (by simpa [encodeMessage, encodeHeader] using hi)
  obtain ⟨s1, hs1, hcmd, -, -⟩ := messageReceived_holdsCommand sB 404000000 4800 2400 2 19
    [0x01, 0x02, 0x03, 0x04] (by norm_num) (by norm_num) (by norm_num) (by norm_num)
    (by norm_num) (by simp) hholds (by rw [hnumB]; rfl)
  have hs1' := messageReceived_eq sB (by rw [hnumB]; decide)
  rw [hs1] at hs1'
  have hs1e := Option.some.inj hs1'
  obtain ⟨c1, c2, c3, c4, c5, c6, c7⟩ := hcmd
  have hnb : s1.PcReceptionData.NumOfBytes = 20 := by
    rw [hs1e]
    show readU16 sB.USBBuffer % 65536 = 20
    unfold readU16
    rw [hb 0 (by norm_num), hb 1 (by norm_num)]
    decide
  have hpc : s1.PcReceptionData = ⟨20, 404000000, 4800, 2400, 2, 19⟩ := by
    cases hpcd : s1.PcReceptionData
    rw [hpcd] at c1 c2 c3 c4 c5 hnb
    simp only [] at c1 c2 c3 c4 c5 hnb
    subst c1 c2 c3 c4 c5 hnb
    rfl
  have hsetup1 : s1.SetupData = startupParameters := by rw [hs1e]; exact hsetupB
  have hnoupd : ¬ updateRequired s1 := by
    unfold updateRequired
    rw [hsetup1, hpc]
    decide
  have hupd : updateInitialization s1 = some s1 := by
    unfold updateInitialization
    rw [if_neg hnoupd]
  have hrec : usbReception 8 sB = some s1 := by
    rw [usbReception_complete 8 sB (by rw [hp, hnumB]; decide) (by rw [hp]; decide)
      (by rw [hstartB]; decide) (by rw [hnumB]; exact fun h => absurd h.1 (by decide))
      (by rw [hp]; exact fun h => absurd h.1 (by decide)), hs1]
    exact hupd
  have htxp1 : s1.TxBufferPointer = 0 := by rw [hs1e]; exact htxpB
  have htr := transmission_single_chunk s1 htxp1 (by rw [c6]; decide) (by rw [c6]; decide)
  have hbytes : readBytes s1.TxBuffer 0 4 = [0x01, 0x02, 0x03, 0x04] := by
    simp only [readBytes, List.range, List.range.loop, List.map, Nat.zero_add]
    rw [c7 0 (by decide), c7 1 (by decide), c7 2 (by decide), c7 3 (by decide)]
    rfl
  have hstep : mainStep 8 0 sB = some { s1 with
      chip := FUN_RF_SENDPACKET (readBytes s1.TxBuffer 0 s1.TxDataSize)
        (SX127xFSKSetPayloadLength s1.TxDataSize s1.chip)
      TxBufferPointer := s1.TxDataSize
      loc := .txWait } := by
    unfold mainStep
    rw [hlocB]
    simp only [hrec, Option.bind, htr, Option.map]
  rw [hA, hstep]
  refine ⟨_, rfl, ?_, hpc, c6, ?_, hsetup1, ?_⟩
  · show s1.usbOut = _
    rw [hs1e]
    show sB.usbOut ++ _ = _
    rw [houtB, hp]
  · exact hbytes
  · show FUN_RF_SENDPACKET (readBytes s1.TxBuffer 0 s1.TxDataSize)
      (SX127xFSKSetPayloadLength s1.TxDataSize s1.chip) = _
    have hchip1 : s1.chip = sM.chip := by rw [hs1e]; exact hchipB
    rw [hchip1, c6]
    show FUN_RF_SENDPACKET (readBytes s1.TxBuffer 0 4) _ = _
    rw [hbytes]
    rfl

/-- Three bytes taken from a number spell its low 24 bits. -/
theorem bytes24 (n : Nat) :
    n / 65536 % 256 * 65536 + n / 256 % 256 * 256 + n % 256 = n % 16777216 := by
  omega

/-! ## Auxiliary facts: transmit session and acknowledgements -/

/-- A register write leaves every other register as it was. -/
theorem regs_SX127xWriteBuffer_ne (addr buffer b : Nat) (c : Chip) (h : b ≠ addr % 128) :
    (SX127xWriteBuffer addr buffer c).regs b = c.regs b := by
  unfold SX127xWriteBuffer
  simp only [if_neg h]

/-- The mode function writes register 0x01 only. -/
theorem regs_SX127xFSKSetOpMode (m : RFMode_SET) (c : Chip) (b : Nat) (h : b ≠ 1) :
    (SX127xFSKSetOpMode m c).regs b = c.regs b := by
  unfold SX127xFSKSetOpMode
  exact regs_SX127xWriteBuffer_ne _ _ _ _ h

/-- Register 0x35 is not written by the family selection. -/
theorem kept35_SX127xFSKLoRa (m : Debugging_fsk_ook) (c : Chip) :
    (SX127xFSKLoRa m c).regs 0x35 = c.regs 0x35 := by
  unfold SX127xFSKLoRa
  exact regs_SX127xWriteBuffer_ne _ _ _ _ (by decide)

/-- Register 0x35 is not written by the carrier step. -/
theorem kept35_SX127xFSKSetRFFrequency (f : Nat) (c : Chip) :
    (SX127xFSKSetRFFrequency f c).regs 0x35 = c.regs 0x35 := by
  unfold SX127xFSKSetRFFrequency
  simp only []
  rw [regs_SX127xWriteBuffer_ne _ _ _ _ (by decide), regs_SX127xWriteBuffer_ne _ _ _ _ (by decide),
    regs_SX127xWriteBuffer_ne _ _ _ _ (by decide)]

/-- Register 0x35 is not written by the bit-rate step. -/
theorem kept35_SX127xFSKSetBitRate (r f : Nat) (c c' : Chip)
    (h : SX127xFSKSetBitRate r f c = some c') : c'.regs 0x35 = c.regs 0x35 := by
  unfold SX127xFSKSetBitRate at h
  split at h
  · exact absurd h (by simp)
  · injection h with h
    subst h
    rw [regs_SX127xWriteBuffer_ne _ _ _ _ (by decide), regs_SX127xWriteBuffer_ne _ _ _ _ (by decide),
      regs_SX127xWriteBuffer_ne _ _ _ _ (by decide)]

/-- Register 0x35 is not written by the deviation step. -/
theorem kept35_SX127xFSKSetFreqDev (d : Nat) (c : Chip) :
    (SX127xFSKSetFreqDev d c).regs 0x35 = c.regs 0x35 := by
  unfold SX127xFSKSetFreqDev
  simp only []
  rw [regs_SX127xWriteBuffer_ne _ _ _ _ (by decide), regs_SX127xWriteBuffer_ne _ _ _ _ (by decide)]

/-- Register 0x35 is not written by the shaping step. -/
theorem kept35_SX127xFSKSetGaussianMode (g : Nat) (c : Chip) :
    (SX127xFSKSetGaussianMode g c).regs 0x35 = c.regs 0x35 := by
  unfold SX127xFSKSetGaussianMode
  exact regs_SX127xWriteBuffer_ne _ _ _ _ (by decide)

/-- Register 0x35 is not written by the power step. -/
theorem kept35_SX127xFSKSetRFPower (p : Int) (c : Chip) :
    (SX127xFSKSetRFPower p c).regs 0x35 = c.regs 0x35 := by
  unfold SX127xFSKSetRFPower
  simp only []
  split <;>
    rw [regs_SX127xWriteBuffer_ne _ _ _ _ (by decide), regs_SX127xWriteBuffer_ne _ _ _ _ (by decide),
      regs_SX127xWriteBuffer_ne _ _ _ _ (by decide)]

/-- Register 0x35 is not written by the sync step. -/
theorem kept35_SX127xFSKSetSyncOn (e : Bool) (c : Chip) :
    (SX127xFSKSetSyncOn e c).regs 0x35 = c.regs 0x35 := by
  unfold SX127xFSKSetSyncOn
  exact regs_SX127xWriteBuffer_ne _ _ _ _ (by decide)

/-- Register 0x35 is not written by the packet-format step. -/
theorem kept35_SX127xFSKSetPacketFormat (e : Bool) (c : Chip) :
    (SX127xFSKSetPacketFormat e c).regs 0x35 = c.regs 0x35 := by
  unfold SX127xFSKSetPacketFormat
  exact regs_SX127xWriteBuffer_ne _ _ _ _ (by decide)

/-- Register 0x35 is not written by the CRC step. -/
theorem kept35_SX127xFSKSetCrcOn (e : Bool) (c : Chip) :
    (SX127xFSKSetCrcOn e c).regs 0x35 = c.regs 0x35 := by
  unfold SX127xFSKSetCrcOn
  exact regs_SX127xWriteBuffer_ne _ _ _ _ (by decide)

/-- Register 0x35 is not written by the preamble step. -/
theorem kept35_SX127xFSKSetPreambleSize (n : Nat) (c : Chip) :
    (SX127xFSKSetPreambleSize n c).regs 0x35 = c.regs 0x35 := by
  unfold SX127xFSKSetPreambleSize
  simp only []
  rw [regs_SX127xWriteBuffer_ne _ _ _ _ (by decide), regs_SX127xWriteBuffer_ne _ _ _ _ (by decide)]

/-- The configuration is the threshold step applied to a transceiver whose register 0x35 still
holds its content from before the configuration. -/
theorem SX127xFSK_INT_threshold (m : MetaDataStruct) (c c' : Chip)
    (h : SX127xFSK_INT m c = some c') :
    ∃ c1, c' = SX127xFSKSetFIFOThreshold FIFO_THRESHOLD c1 ∧ c1.regs 0x35 = c.regs 0x35 := by
  unfold SX127xFSK_INT at h
  simp only [] at h
  split at h
  · exact absurd h (by simp)
  · rename_i c2 h2
    injection h with h
    refine ⟨_, h.symm, ?_⟩
    rw [kept35_SX127xFSKSetPreambleSize, kept35_SX127xFSKSetCrcOn, kept35_SX127xFSKSetPacketFormat,
      kept35_SX127xFSKSetSyncOn, kept35_SX127xFSKSetRFPower, kept35_SX127xFSKSetGaussianMode,
      kept35_SX127xFSKSetFreqDev, kept35_SX127xFSKSetBitRate _ _ _ _ h2,
      kept35_SX127xFSKSetRFFrequency, regs_SX127xWriteBuffer_ne _ _ _ _ (by decide),
      regs_SX127xWriteBuffer_ne _ _ _ _ (by decide), regs_SX127xFSKSetOpMode _ _ _ (by decide),
      kept35_SX127xFSKLoRa, regs_SX127xFSKSetOpMode _ _ _ (by decide)]

/-- The byte that the threshold step computes for the argument 32 is the prior content with its
low five bits cleared. -/
theorem threshold_value_all : ∀ r : Nat, r < 256 →
    ((r &&& compl8 RFFS_FIFO_THRESHOLD_MASK) |||
      (FIFO_THRESHOLD % 256 &&& RFFS_FIFO_THRESHOLD_MASK)) % 256 = r &&& 0xE0 := by
  set_option maxRecDepth 100000 in decide

/-- A byte with its low five bits cleared has an empty threshold field and keeps the bits
outside the threshold mask. -/
theorem threshold_bits_all : ∀ r : Nat, r < 256 →
    (r &&& 0xE0) &&& RFFS_FIFO_THRESHOLD_MASK = 0 ∧
    (r &&& 0xE0) &&& compl8 RFFS_FIFO_THRESHOLD_MASK = r &&& compl8 RFFS_FIFO_THRESHOLD_MASK := by
  set_option maxRecDepth 100000 in decide

/-- The bursts of a concatenation. -/
theorem fifoBursts_append (a b : List BusOp) :
    fifoBursts (a ++ b) = fifoBursts a ++ fifoBursts b := by
  induction a with
  | nil => rfl
  | cons x t ih =>
    cases x <;> simp [fifoBursts, ih]

/-- One pass of transmission management inside a session: it writes the chunk with index `j`
and advances the cursor. -/
theorem transmission_chunk (s : MainState) (j : Nat) (hp : s.TxBufferPointer = 32 * j)
    (hj : 32 * j < s.TxDataSize) (hL : s.TxDataSize ≤ 1024) :
    ∃ c', transmission s =
        some { s with chip := c', TxBufferPointer := min (32 * (j + 1)) s.TxDataSize } ∧
      fifoBursts c'.bus = fifoBursts s.chip.bus ++
        [readBytes s.TxBuffer (32 * j) (min 32 (s.TxDataSize - 32 * j))] := by
  have key : ∀ c0 : Chip, fifoBursts c0.bus = fifoBursts s.chip.bus →
      ∃ c', (if s.TxBufferPointer < s.TxDataSize then
          if s.TxDataSize - s.TxBufferPointer > FIFO_DATA_CHUNKS then
            if BufferSize < s.TxBufferPointer + FIFO_DATA_CHUNKS then none
            else some { s with
              chip := FUN_RF_SENDPACKET (readBytes s.TxBuffer s.TxBufferPointer FIFO_DATA_CHUNKS) c0
              TxBufferPointer := (s.TxBufferPointer + FIFO_DATA_CHUNKS) % 4294967296 }
          else
            if BufferSize < s.TxBufferPointer + ((s.TxDataSize - s.TxBufferPointer) >>> 0) % 256 then none
            else some { s with
              chip := FUN_RF_SENDPACKET (readBytes s.TxBuffer s.TxBufferPointer
                (((s.TxDataSize - s.TxBufferPointer) >>> 0) % 256)) c0
              TxBufferPointer := s.TxDataSize }
        else some { s with chip := c0 }) =
        some { s with chip := c', TxBufferPointer := min (32 * (j + 1)) s.TxDataSize } ∧
      fifoBursts c'.bus = fifoBursts s.chip.bus ++
        [readBytes s.TxBuffer (32 * j) (min 32 (s.TxDataSize - 32 * j))] := by
    intro c0 h0
    rw [if_pos (by omega)]
    simp only [FIFO_DATA_CHUNKS, BufferSize, Nat.shiftRight_zero]
    by_cases hbig : s.TxDataSize - s.TxBufferPointer > 32
    · rw [if_pos hbig, if_neg (by omega)]
      obtain ⟨v, hb, -⟩ := busx_FUN_RF_SENDPACKET (readBytes s.TxBuffer s.TxBufferPointer 32) c0
      refine ⟨FUN_RF_SENDPACKET (readBytes s.TxBuffer s.TxBufferPointer 32) c0, ?_, ?_⟩
      · have e1 : (s.TxBufferPointer + 32) % 4294967296 = min (32 * (j + 1)) s.TxDataSize := by
          omega
        rw [e1]
      · rw [hb, fifoBursts_append, h0, hp]
        have e2 : min 32 (s.TxDataSize - 32 * j) = 32 := by omega
        rw [e2]
        rfl
    · rw [if_neg hbig]
      have e3 : (s.TxDataSize - s.TxBufferPointer) % 256 = min 32 (s.TxDataSize - 32 * j) := by
        omega
      rw [e3, if_neg (by omega)]
      obtain ⟨v, hb, -⟩ := busx_FUN_RF_SENDPACKET
        (readBytes s.TxBuffer s.TxBufferPointer (min 32 (s.TxDataSize - 32 * j))) c0
      refine ⟨FUN_RF_SENDPACKET
        (readBytes s.TxBuffer s.TxBufferPointer (min 32 (s.TxDataSize - 32 * j))) c0, ?_, ?_⟩
      · have e1 : s.TxDataSize = min (32 * (j + 1)) s.TxDataSize := by omega
        rw [← e1]
      · rw [hb, fifoBursts_append, h0, hp]
        rfl
  unfold transmission
  by_cases h0 : s.TxBufferPointer = 0 ∧ s.TxDataSize > 0
  · obtain ⟨v1, v2, hb, -⟩ := busx_SX127xFSKSetPayloadLength s.TxDataSize s.chip
    have := key (SX127xFSKSetPayloadLength s.TxDataSize s.chip) (by
      rw [hb, fifoBursts_append]; simp [fifoBursts])
    simp only [if_pos h0]
    exact this
  · have := key s.chip rfl
    simp only [if_neg h0]
    exact this

/-- The chunk with index `j` of the specification. -/
theorem specChunks_take_succ (buf : Nat → Nat) (L j : Nat) (hj : j < (L + 31) / 32) :
    (specChunks buf L).take (j + 1) =
      (specChunks buf L).take j ++ [readBytes buf (32 * j) (min 32 (L - 32 * j))] := by
  unfold specChunks
  rw [List.take_succ, List.getElem?_map, List.getElem?_range hj]
  rfl

/-- No further chunk once all are written. -/
theorem transmission_done (s : MainState) (hp : s.TxBufferPointer = s.TxDataSize)
    (hpos : 0 < s.TxDataSize) : transmission s = some s := by
  unfold transmission
  have h0 : ¬ (s.TxBufferPointer = 0 ∧ s.TxDataSize > 0) := by omega
  simp only [if_neg h0]
  rw [if_neg (by omega)]

/-- With no byte received, the frame assembler does nothing. -/
theorem usbReception_quiet (now : Nat) (s : MainState) (h : s.USBBufferPointer = 0) :
    usbReception now s = some s := by
  unfold usbReception
  rw [if_neg (by omega)]

/-- A pass of the loop body inside a session writes the next chunk, if one is left. -/
theorem sessionAfter_body (buf : Nat → Nat) (L : Nat) (base : List (List Nat)) (j now irq : Nat)
    (s : MainState) (h1 : 1 ≤ L) (h2 : L ≤ 1024) (hs : sessionAfter buf L base j s)
    (hloc : s.loc = .loopTop) :
    ∃ s', mainStep now irq s = some s' ∧ s'.loc = .txWait ∧
      sessionAfter buf L base (if 32 * j < L then j + 1 else j) s' := by
  obtain ⟨hu, hb, hsz, hp, hj, hf⟩ := hs
  unfold mainStep
  rw [hloc]
  simp only [usbReception_quiet now s hu, Option.some_bind]
  by_cases hlt : 32 * j < L
  · rw [if_pos hlt]
    have hp' : s.TxBufferPointer = 32 * j := by omega
    obtain ⟨c', ht, hc⟩ := transmission_chunk s j hp' (by omega) (by omega)
    rw [ht]
    refine ⟨_, rfl, rfl, hu, hb, hsz, ?_, by omega, ?_⟩
    · show min (32 * (j + 1)) s.TxDataSize = min (32 * (j + 1)) L
      rw [hsz]
    · show fifoBursts c'.bus = _
      rw [hc, hf, specChunks_take_succ buf L j (by omega), hb, hsz, List.append_assoc]
  · rw [if_neg hlt]
    rw [transmission_done s (by omega) (by omega)]
    exact ⟨_, rfl, rfl, hu, hb, hsz, hp, hj, hf⟩

/-- A pass of the inner loop without TX-done changes nothing but the place in the program. -/
theorem waitStep_quiet (irq : Nat) (s : MainState)
    (h : irq % 256 &&& FS_IRQN_TXD_Value ≠ FS_IRQN_TXD_Value) :
    waitStep irq s = s ∨ waitStep irq s = { s with loc := .loopTop } := by
  unfold waitStep
  simp only [if_neg h]
  split
  · split
    · exact Or.inr rfl
    · exact Or.inl rfl
  · exact Or.inr rfl

/-- A pass of the inner loop with the FIFO-level flag clear, no TX-done and bytes left to
write goes back to the loop body. -/
theorem waitStep_refill (irq : Nat) (s : MainState) (hlt : s.TxBufferPointer < s.TxDataSize)
    (h : irq % 256 &&& FS_IRQN_TXD_Value ≠ FS_IRQN_TXD_Value)
    (hf : irq % 256 &&& FS_IRQN_FIFO_LEVEL_Value = 0) :
    waitStep irq s = { s with loc := .loopTop } := by
  unfold waitStep
  simp only [if_neg h]
  rw [if_pos (by omega), if_pos ⟨hf, hlt⟩]

/-- The session invariant does not depend on the place in the program. -/
theorem sessionAfter_loc (buf : Nat → Nat) (L : Nat) (base : List (List Nat)) (j : Nat)
    (s : MainState) (l : Loc) (hs : sessionAfter buf L base j s) :
    sessionAfter buf L base j { s with loc := l } := hs

/-- Steps without TX-done and without arrivals keep the session invariant; the number of
chunks written does not decrease. -/
theorem session_run (buf : Nat → Nat) (L : Nat) (base : List (List Nat)) (h1 : 1 ≤ L)
    (h2 : L ≤ 1024) : ∀ (evs : List Event) (j : Nat) (s : MainState),
      evs.all isQuietStep = true → sessionAfter buf L base j s →
      ∃ s' j', run evs s = some s' ∧ j ≤ j' ∧ sessionAfter buf L base j' s' := by
  intro evs
  induction evs with
  | nil => intro j s _ hs; exact ⟨s, j, rfl, le_refl _, hs⟩
  | cons e es ih =>
    intro j s hq hs
    rw [List.all_cons, Bool.and_eq_true] at hq
    cases e with
    | arrival bytes => exact absurd hq.1 (by simp [isQuietStep])
    | step now irq =>
      have hirq : irq % 256 &&& FS_IRQN_TXD_Value ≠ FS_IRQN_TXD_Value := by
        have := hq.1
        unfold isQuietStep at this
        exact of_decide_eq_true this
      cases hl : s.loc with
      | loopTop =>
        obtain ⟨s1, e1, -, hs1⟩ := sessionAfter_body buf L base j now irq s h1 h2 hs hl
        obtain ⟨s', j', hr, hjj, hs'⟩ := ih _ s1 hq.2 hs1
        refine ⟨s', j', ?_, ?_, hs'⟩
        · show (mainStep now irq s).bind (run es) = some s'
          rw [e1]; exact hr
        · split at hjj <;> omega
      | txWait =>
        have e1 : mainStep now irq s = some (waitStep irq s) := by
          unfold mainStep; rw [hl]
        have hs1 : sessionAfter buf L base j (waitStep irq s) := by
          rcases waitStep_quiet irq s hirq with h | h <;> rw [h]
          · exact hs
          · exact sessionAfter_loc buf L base j s _ hs
        obtain ⟨s', j', hr, hjj, hs'⟩ := ih _ _ hq.2 hs1
        refine ⟨s', j', ?_, hjj, hs'⟩
        show (mainStep now irq s).bind (run es) = some s'
        rw [e1]; exact hr

/-- When the device asks for a refill at once each time, all chunks are written after as many
passes as there are chunks. -/
theorem session_complete (buf : Nat → Nat) (L : Nat) (base : List (List Nat)) (h1 : 1 ≤ L)
    (h2 : L ≤ 1024) : ∀ (n j : Nat) (s : MainState), j + n = (L + 31) / 32 →
      sessionAfter buf L base j s → (1 ≤ n → s.loc = .loopTop) →
      ∃ s', run (List.replicate (2 * n) (.step 0 0)) s = some s' ∧
        sessionAfter buf L base ((L + 31) / 32) s' := by
  intro n
  induction n with
  | zero =>
    intro j s hj hs _
    have : j = (L + 31) / 32 := by omega
    subst this
    exact ⟨s, rfl, hs⟩
  | succ n ih =>
    intro j s hj hs hl
    have hlt : 32 * j < L := by omega
    obtain ⟨s1, e1, l1, hs1⟩ := sessionAfter_body buf L base j 0 0 s h1 h2 hs (hl (by omega))
    rw [if_pos hlt] at hs1
    have e2 : mainStep 0 0 s1 = some (waitStep 0 s1) := by
      unfold mainStep; rw [l1]
    have hs2 : sessionAfter buf L base (j + 1) (waitStep 0 s1) := by
      rcases waitStep_quiet 0 s1 (by decide) with h | h <;> rw [h]
      · exact hs1
      · exact sessionAfter_loc buf L base (j + 1) s1 _ hs1
    have hl2 : 1 ≤ n → (waitStep 0 s1).loc = .loopTop := by
      intro hn
      obtain ⟨-, -, hsz, hp, -, -⟩ := hs1
      rw [waitStep_refill 0 s1 (by omega) (by decide) (by decide)]
    obtain ⟨s', hr, hs'⟩ := ih (j + 1) _ (by omega) hs2 hl2
    refine ⟨s', ?_, hs'⟩
    have er : List.replicate (2 * (n + 1)) (Event.step 0 0) =
        .step 0 0 :: .step 0 0 :: List.replicate (2 * n) (.step 0 0) := by
      rw [show 2 * (n + 1) = 2 * n + 1 + 1 by omega, List.replicate_succ, List.replicate_succ]
    rw [er]
    show (mainStep 0 0 s).bind (run (.step 0 0 :: List.replicate (2 * n) (.step 0 0))) = some s'
    rw [e1]
    show (mainStep 0 0 s1).bind (run (List.replicate (2 * n) (.step 0 0))) = some s'
    rw [e2]
    exact hr

/-- Consecutive ranges of array elements join. -/
theorem readBytes_append (buf : Nat → Nat) (a b : Nat) :
    readBytes buf 0 (a + b) = readBytes buf 0 a ++ readBytes buf a b := by
  unfold readBytes
  rw [List.range_add, List.map_append, List.map_map]
  simp only [Nat.zero_add]
  rfl

/-- The first `j` chunks of the specification joined are the first bytes of the payload. -/
theorem specChunks_take_join (buf : Nat → Nat) (L : Nat) : ∀ j : Nat, j ≤ (L + 31) / 32 →
    ((specChunks buf L).take j).flatten = readBytes buf 0 (min (32 * j) L) := by
  intro j
  induction j with
  | zero =>
    intro _
    have e0 : min (32 * 0) L = 0 := by omega
    rw [e0]
    rfl
  | succ j ih =>
    intro hj
    rw [specChunks_take_succ buf L j (by omega), List.flatten_append, ih (by omega)]
    have e1 : min (32 * j) L = 32 * j := by omega
    have e2 : min (32 * (j + 1)) L = 32 * j + min 32 (L - 32 * j) := by omega
    rw [e1, e2, readBytes_append]
    simp

/-- The number of chunks of the specification. -/
theorem specChunks_length (buf : Nat → Nat) (L : Nat) :
    (specChunks buf L).length = (L + 31) / 32 := by
  unfold specChunks
  rw [List.length_map, List.length_range]

set_option maxRecDepth 100000 in
/-- Exhaustive check over all bytes and modes. -/
theorem opmode_high_bits_all :
    ∀ x, x < 256 → ∀ mode, mode < 8 → ((x &&& 0xf8 ||| mode) % 256) / 8 = x / 8 := by
  decide

/-- `SX127xFSKSetOpMode` writes one byte to 0x01: the mode in the low three bits, the other
bits as read from the register. -/
theorem busy_SX127xFSKSetOpMode (mode : RFMode_SET) (c : Chip) :
    ∃ v, (SX127xFSKSetOpMode mode c).bus = c.bus ++ [.write 0x01 v] ∧ v % 8 = mode.val ∧
      v / 8 = SX127xReadBuffer 0x01 c / 8 :=
  ⟨_, rfl, opmode_low_bits _ _ (SX127xReadBuffer_lt _ _) (by cases mode <;> decide),
    opmode_high_bits_all _ (SX127xReadBuffer_lt _ _) _ (by cases mode <;> decide)⟩

set_option maxRecDepth 100000 in
/-- Exhaustive check over all bytes and three-bit fields. -/
theorem payload_msb_all : ∀ r, r < 256 → ∀ t, t < 8 →
    ((r &&& compl8 RFFS_PACKETCONFIG2_PAYLOAD_LENGTH_MASK) ||| t % 256) % 256 = (r &&& 0xF8) ||| t ∧
    ((r &&& 0xF8) ||| t) &&& 0xF8 = r &&& 0xF8 ∧ ((r &&& 0xF8) ||| t) &&& 0x07 = t := by
  decide

/-- The three-bit field that `SX127xFSKSetPayloadLength` takes from the length. -/
theorem payload_msb_lt (L : Nat) : (L >>> 8) &&& 0x07 < 8 :=
  Nat.lt_of_le_of_lt Nat.and_le_right (by decide)

/-- Bus operations of `SX127xFSKSetPayloadLength`, with the bytes written. -/
theorem busy_SX127xFSKSetPayloadLength (L : Nat) (c : Chip) :
    ∃ v1, (SX127xFSKSetPayloadLength L c).bus = c.bus ++ [.write 0x01 v1,
        .write 0x31 ((SX127xReadBuffer 0x31 c &&& 0xF8) ||| ((L >>> 8) &&& 0x07)),
        .write 0x32 (L &&& 0xFF)] ∧ v1 % 8 = 1 := by
  obtain ⟨v1, h1, k1⟩ := busx_SX127xFSKSetOpMode .Stdby_mode c
  have hread : SX127xReadBuffer REG_FS_PACKETCONFIG2 (SX127xFSKSetOpMode .Stdby_mode c) =
      SX127xReadBuffer 0x31 c := by
    unfold SX127xReadBuffer
    show (SX127xFSKSetOpMode .Stdby_mode c).regs 0x31 % 256 = c.regs 0x31 % 256
    rw [regs_SX127xFSKSetOpMode _ _ _ (by decide)]
  have hv := (payload_msb_all _ (SX127xReadBuffer_lt 0x31 c) _ (payload_msb_lt L)).1
  have hl : L &&& 0xFF = L % 256 := Nat.and_pow_two_sub_one_eq_mod L 8
  refine ⟨v1, ?_, k1⟩
  unfold SX127xFSKSetPayloadLength
  simp only [bus_SX127xWriteBuffer, h1, hread, List.append_assoc, List.cons_append,
    List.nil_append, Nat.shiftRight_zero]
  have hv' : ((SX127xReadBuffer 0x31 c &&& compl8 RFFS_PACKETCONFIG2_PAYLOAD_LENGTH_MASK) |||
      ((L >>> 8) &&& RFFS_PACKETCONFIG2_PAYLOAD_LENGTH_MASK) % 256) % 256 =
      (SX127xReadBuffer 0x31 c &&& 0xF8) ||| ((L >>> 8) &&& 0x07) := hv
  rw [hv', hl]
  simp [REG_FS_PACKETCONFIG2, REG_FS_PALOADLENGTHLSB]

/-- Transmission management with bytes left to write: one chunk of at most 32 bytes goes to
`FUN_RF_SENDPACKET`, after the payload length when the cursor is 0. -/
theorem transmission_write (s : MainState) (hlt : s.TxBufferPointer < s.TxDataSize)
    (hL : s.TxDataSize ≤ 1024) :
    transmission s = some { s with
      chip := FUN_RF_SENDPACKET
        (readBytes s.TxBuffer s.TxBufferPointer (min 32 (s.TxDataSize - s.TxBufferPointer)))
        (if s.TxBufferPointer = 0 ∧ s.TxDataSize > 0 then
          SX127xFSKSetPayloadLength s.TxDataSize s.chip else s.chip)
      TxBufferPointer := min (s.TxBufferPointer + 32) s.TxDataSize } := by
  have key : ∀ c0 : Chip,
      (if s.TxBufferPointer < s.TxDataSize then
          if s.TxDataSize - s.TxBufferPointer > FIFO_DATA_CHUNKS then
            if BufferSize < s.TxBufferPointer + FIFO_DATA_CHUNKS then none
            else some { s with
              chip := FUN_RF_SENDPACKET (readBytes s.TxBuffer s.TxBufferPointer FIFO_DATA_CHUNKS) c0
              TxBufferPointer := (s.TxBufferPointer + FIFO_DATA_CHUNKS) % 4294967296 }
          else
            if BufferSize < s.TxBufferPointer + ((s.TxDataSize - s.TxBufferPointer) >>> 0) % 256 then none
            else some { s with
              chip := FUN_RF_SENDPACKET (readBytes s.TxBuffer s.TxBufferPointer
                (((s.TxDataSize - s.TxBufferPointer) >>> 0) % 256)) c0
              TxBufferPointer := s.TxDataSize }
        else some { s with chip := c0 }) =
        some { s with
          chip := FUN_RF_SENDPACKET
            (readBytes s.TxBuffer s.TxBufferPointer (min 32 (s.TxDataSize - s.TxBufferPointer))) c0
          TxBufferPointer := min (s.TxBufferPointer + 32) s.TxDataSize } := by
    intro c0
    rw [if_pos hlt]
    simp only [FIFO_DATA_CHUNKS, BufferSize, Nat.shiftRight_zero]
    by_cases hbig : s.TxDataSize - s.TxBufferPointer > 32
    · rw [if_pos hbig, if_neg (by omega)]
      have e1 : (s.TxBufferPointer + 32) % 4294967296 = min (s.TxBufferPointer + 32) s.TxDataSize := by
        omega
      have e2 : min 32 (s.TxDataSize - s.TxBufferPointer) = 32 := by omega
      rw [e1, e2]
    · rw [if_neg hbig]
      have e3 : (s.TxDataSize - s.TxBufferPointer) % 256 =
          min 32 (s.TxDataSize - s.TxBufferPointer) := by omega
      have e1 : min (s.TxBufferPointer + 32) s.TxDataSize = s.TxDataSize := by omega
      rw [e3, if_neg (by omega), e1]
  unfold transmission
  by_cases h0 : s.TxBufferPointer = 0 ∧ s.TxDataSize > 0
  · simp only [if_pos h0]
    exact key _
  · simp only [if_neg h0]
    exact key _

/-- Lines 126-136 send nothing to the PC. -/
theorem updateInitialization_usbOut (s s' : MainState) (h : updateInitialization s = some s') :
    s'.usbOut = s.usbOut ∧ s'.USBBufferPointer = s.USBBufferPointer := by
  rcases updateInitialization_cases s s' h with ⟨_, rfl⟩ | ⟨_, c, _, rfl⟩
  · exact ⟨rfl, rfl⟩
  · exact ⟨rfl, rfl⟩

/-- Whenever lines 101-124 return, they have sent the byte count and the success message and
have emptied the receive buffer. -/
theorem messageReceived_usbOut (s s' : MainState) (h : messageReceived s = some s') :
    s'.usbOut = s.usbOut ++ [.count s.USBBufferPointer, .receptionOK] ∧
      s'.USBBufferPointer = 0 := by
  unfold messageReceived at h
  simp only [] at h
  split at h
  · cases h
  · injection h with h
    subst h
    exact ⟨rfl, rfl⟩

/-- What a tick of the reception code can do to the messages sent and to the byte count: the
progress acknowledgement of lines 94-98, the completion, the failure, or nothing. -/
theorem usbReception_cases (now : Nat) (s s' : MainState) (h : usbReception now s = some s') :
    (s.USBBufferPointer % 64 = 0 ∧ s.AckNumber ≠ (s.USBBufferPointer : Int) ∧
      0 < s.USBBufferPointer ∧
      s' = { s with usbOut := s.usbOut ++ [.count s.USBBufferPointer]
                    AckNumber := (s.USBBufferPointer : Int) }) ∨
    (s'.usbOut = s.usbOut ++ [.count s.USBBufferPointer, .receptionOK] ∧
      s'.USBBufferPointer = 0) ∨
    (s'.usbOut = s.usbOut ++ [.receptionFailed] ∧ s'.USBBufferPointer = 0) ∨
    (s'.usbOut = s.usbOut ∧ s'.USBBufferPointer = s.USBBufferPointer ∧
      s'.AckNumber = s.AckNumber) := by
  unfold usbReception at h
  split at h
  · rename_i hpos
    split at h
    · cases h; exact Or.inr (Or.inr (Or.inr ⟨rfl, rfl, rfl⟩))
    · split at h
      · cases h; exact Or.inr (Or.inr (Or.inr ⟨rfl, rfl, rfl⟩))
      · split at h
        · rename_i hack
          cases h
          exact Or.inl ⟨hack.1, hack.2, hpos, rfl⟩
        · split at h
          · cases hm : messageReceived s with
            | none => rw [hm] at h; cases h
            | some s1 =>
              rw [hm] at h
              have h1 := messageReceived_usbOut s s1 hm
              have h2 := updateInitialization_usbOut s1 s' h
              exact Or.inr (Or.inl ⟨by rw [h2.1, h1.1], by rw [h2.2, h1.2]⟩)
          · split at h
            · cases h; exact Or.inr (Or.inr (Or.inl ⟨rfl, rfl⟩))
            · cases h; exact Or.inr (Or.inr (Or.inr ⟨rfl, rfl, rfl⟩))
  · cases h; exact Or.inr (Or.inr (Or.inr ⟨rfl, rfl, rfl⟩))

/-- The tick of lines 94-98: a progress acknowledgement. -/
theorem usbReception_ack (now : Nat) (s : MainState) (hpos : 0 < s.USBBufferPointer)
    (hstart : s.StartTime ≠ 0) (hread : ¬ (s.NumOfBytes = 1023 ∧ s.USBBufferPointer ≥ 2))
    (h64 : s.USBBufferPointer % 64 = 0) (hack : s.AckNumber ≠ (s.USBBufferPointer : Int)) :
    usbReception now s = some { s with
      usbOut := s.usbOut ++ [.count s.USBBufferPointer]
      AckNumber := (s.USBBufferPointer : Int) } := by
  unfold usbReception
  rw [if_pos hpos, if_neg hstart, if_neg hread, if_pos ⟨h64, hack⟩]

/-- The declared length read from the bytes 0x03, 0xFF is the marker for an unknown length. -/
theorem readU16_sentinel (buf : Nat → Nat) (h0 : buf 0 % 256 = 0x03) (h1 : buf 1 % 256 = 0xFF) :
    readU16 buf = 1023 := by
  unfold readU16
  rw [h0, h1]
  rfl

/-! ## Auxiliary facts: buffer bounds and the bit-rate division -/

/-- The indices read and written by the copy of line 113 are inside the two buffers exactly
when at most 1008 bytes are copied. -/
theorem copyIndices_inside (N : Nat) :
    ((∀ i ∈ copyReadIndices N, i < BufferSize) ∧ (∀ i ∈ copyWriteIndices N, i < BufferSize)) ↔
      N ≤ 1008 := by
  unfold copyReadIndices copyWriteIndices BufferSize PcReceptionStructSize
  constructor
  · rintro ⟨hr, -⟩
    by_contra hN
    have := hr (16 + 1008) (List.mem_map.mpr ⟨1008, List.mem_range.mpr (by omega), rfl⟩)
    omega
  · intro hN
    constructor
    · intro i hi
      obtain ⟨k, hk, rfl⟩ := List.mem_map.mp hi
      have := List.mem_range.mp hk
      omega
    · intro i hi
      have := List.mem_range.mp hi
      omega

/-- Lines 101-124 return exactly when the copy stays inside the buffers. -/
theorem messageReceived_isSome (s : MainState) :
    (messageReceived s).isSome ↔ toUInt32 s.NumOfBytes ≤ 1008 := by
  constructor
  · intro h
    by_contra hn
    unfold messageReceived at h
    simp only [] at h
    rw [if_pos (by unfold BufferSize PcReceptionStructSize; omega)] at h
    exact absurd h (by simp)
  · intro h
    rw [messageReceived_eq s h]
    rfl

/-- A chunk is the transmit buffer read at the chunk's indices. -/
theorem readBytes_eq_map (buf : Nat → Nat) (start len : Nat) :
    readBytes buf start len = (chunkReadIndices start len).map buf := by
  unfold readBytes chunkReadIndices
  rw [List.map_map]
  rfl

/-- The indices of a chunk start at the cursor and end before cursor plus length. -/
theorem chunkReadIndices_lt (start len i : Nat) (h : i ∈ chunkReadIndices start len) :
    start ≤ i ∧ i < start + len := by
  unfold chunkReadIndices at h
  obtain ⟨k, hk, rfl⟩ := List.mem_map.mp h
  have := List.mem_range.mp hk
  omega

/-- With a payload length of at most 1024, transmission management reads no byte outside
`TxBuffer`. -/
theorem transmission_isSome (s : MainState) (h : s.TxDataSize ≤ 1024) :
    (transmission s).isSome := by
  by_cases hlt : s.TxBufferPointer < s.TxDataSize
  · rw [transmission_write s hlt h]
    rfl
  · unfold transmission
    have h0 : ¬ (s.TxBufferPointer = 0 ∧ s.TxDataSize > 0) := by omega
    simp only [if_neg h0]
    rw [if_neg hlt]
    rfl

/-- The division of `SX127xFSKSetBitRate` is defined exactly for a bit rate of at least 1. -/
theorem SX127xFSKSetBitRate_isSome (BitRate frac : Nat) (c : Chip) :
    (SX127xFSKSetBitRate BitRate frac c).isSome ↔ 1 ≤ BitRate := by
  unfold SX127xFSKSetBitRate
  by_cases h : BitRate = 0
  · rw [if_pos h]
    simp [h]
  · rw [if_neg h]
    simp only [Option.isSome_some, true_iff]
    omega

/-- `SX127xFSK_INT` returns exactly for a data rate of at least 1. -/
theorem SX127xFSK_INT_isSome (m : MetaDataStruct) (c : Chip) :
    (SX127xFSK_INT m c).isSome ↔ 1 ≤ m.DataRate := by
  constructor
  · intro h
    by_contra h0
    have h0' : m.DataRate = 0 := by omega
    unfold SX127xFSK_INT SX127xFSKSetBitRate at h
    simp [h0'] at h
  · intro h
    obtain ⟨c', ws, hc, -⟩ := configuration_order_aux m c (by omega)
    rw [hc]
    rfl

/-- Lines 101-124 leave the active configuration alone and store the data-rate field of the
header in `PcReceptionData`. -/
theorem messageReceived_setup (s s' : MainState) (h : messageReceived s = some s') :
    s'.SetupData = s.SetupData ∧ s'.PcReceptionData.DataRate = readU32 s.USBBuffer 6 := by
  unfold messageReceived at h
  simp only [] at h
  split at h
  · cases h
  · injection h with h
    subst h
    exact ⟨rfl, rfl⟩

/-- Lines 126-136 never make the active data rate 0. -/
theorem updateInitialization_rate (s s' : MainState) (h : updateInitialization s = some s')
    (hs : s.SetupData.DataRate ≠ 0) : s'.SetupData.DataRate ≠ 0 := by
  rcases updateInitialization_cases s s' h with ⟨_, rfl⟩ | ⟨_, c, hc, rfl⟩
  · exact hs
  · have := (SX127xFSK_INT_isSome s.PcReceptionData (SX127xReset s.chip)).mp (by rw [hc]; rfl)
    show s.PcReceptionData.DataRate ≠ 0
    omega

/-- The reception code never makes the active data rate 0. -/
theorem usbReception_rate (now : Nat) (s s' : MainState) (h : usbReception now s = some s')
    (hs : s.SetupData.DataRate ≠ 0) : s'.SetupData.DataRate ≠ 0 := by
  unfold usbReception at h
  split at h
  · split at h
    · cases h; exact hs
    · split at h
      · cases h; exact hs
      · split at h
        · cases h; exact hs
        · split at h
          · cases hm : messageReceived s with
            | none => rw [hm] at h; cases h
            | some s1 =>
              rw [hm] at h
              exact updateInitialization_rate s1 s' h (by
                rw [(messageReceived_setup s s1 hm).1]; exact hs)
          · split at h
            · cases h; exact hs
            · cases h; exact hs
  · cases h; exact hs

/-- Transmission management leaves the active configuration alone. -/
theorem transmission_setup (s s' : MainState) (h : transmission s = some s') :
    s'.SetupData = s.SetupData := by
  have key : ∀ s0 : MainState,
      (if s0.TxBufferPointer < s0.TxDataSize then
        if s0.TxDataSize - s0.TxBufferPointer > FIFO_DATA_CHUNKS then
          if BufferSize < s0.TxBufferPointer + FIFO_DATA_CHUNKS then none
          else some { s0 with
            chip := FUN_RF_SENDPACKET (readBytes s0.TxBuffer s0.TxBufferPointer FIFO_DATA_CHUNKS)
              s0.chip
            TxBufferPointer := (s0.TxBufferPointer + FIFO_DATA_CHUNKS) % 4294967296 }
        else
          if BufferSize < s0.TxBufferPointer + ((s0.TxDataSize - s0.TxBufferPointer) >>> 0) % 256
          then none
          else some { s0 with
            chip := FUN_RF_SENDPACKET (readBytes s0.TxBuffer s0.TxBufferPointer
              (((s0.TxDataSize - s0.TxBufferPointer) >>> 0) % 256)) s0.chip
            TxBufferPointer := s0.TxDataSize }
      else some s0) = some s' → s'.SetupData = s0.SetupData := by
    intro s0 h0
    split at h0
    · split at h0
      · split at h0
        · cases h0
        · injection h0 with h0
          subst h0
          rfl
      · split at h0
        · cases h0
        · injection h0 with h0
          subst h0
          rfl
    · injection h0 with h0
      subst h0
      rfl
  unfold transmission at h
  by_cases h0 : s.TxBufferPointer = 0 ∧ s.TxDataSize > 0
  · simp only [if_pos h0] at h
    exact key { s with chip := SX127xFSKSetPayloadLength s.TxDataSize s.chip } h
  · simp only [if_neg h0] at h
    exact key s h

/-- The inner loop leaves the active configuration alone. -/
theorem waitStep_setup (irq : Nat) (s : MainState) :
    (waitStep irq s).SetupData = s.SetupData := by
  unfold waitStep
  split
  · simp only []
    split
    · rfl
    · split <;> rfl
  · rfl

/-- A step of the main loop never makes the active data rate 0. -/
theorem mainStep_rate (now irq : Nat) (s s' : MainState) (h : mainStep now irq s = some s')
    (hs : s.SetupData.DataRate ≠ 0) : s'.SetupData.DataRate ≠ 0 := by
  unfold mainStep at h
  split at h
  · cases hu : usbReception now s with
    | none => rw [hu] at h; cases h
    | some s1 =>
      rw [hu] at h
      simp only [Option.some_bind] at h
      cases ht : transmission s1 with
      | none => rw [ht] at h; cases h
      | some s2 =>
        rw [ht] at h
        cases h
        show s2.SetupData.DataRate ≠ 0
        rw [transmission_setup s1 s2 ht]
        exact usbReception_rate now s s1 hu hs
  · cases h
    rw [waitStep_setup]
    exact hs

/-- No sequence of events makes the active data rate 0. -/
theorem run_rate : ∀ (evs : List Event) (s s' : MainState), run evs s = some s' →
    s.SetupData.DataRate ≠ 0 → s'.SetupData.DataRate ≠ 0 := by
  intro evs
  induction evs with
  | nil =>
    intro s s' h hs
    cases h
    exact hs
  | cons e es ih =>
    intro s s' h hs
    cases e with
    | arrival bytes => exact ih (usbArrival bytes s) s' h hs
    | step now irq =>
      have h' : (mainStep now irq s).bind (run es) = some s' := h
      cases hm : mainStep now irq s with
      | none => rw [hm] at h'; cases h'
      | some s1 =>
        rw [hm] at h'
        exact ih s1 s' h' (mainStep_rate now irq s s1 hm hs)

/-! ## The claims -/

/-- C1 (header round-trip). Let the receive buffer hold the 16-byte big-endian header of the
message format (declared length `N = 16 + |p|`, frequency, data rate, deviation as 32-bit
unsigned values, shaping mode as a byte, power as a signed 8-bit value) followed by the payload
`p`, with `N ≤ 1008`, and let the local `NumOfBytes` hold the declared length `N` (the value
that line 91 reads from bytes 0 and 1 of this buffer). Then
lines 101-124 of the completion branch return a state that stores exactly these five
parameters in `PcReceptionData` (the power with its sign), has `TxDataSize = |p|` and
`TxBuffer[0..|p|) = p`; the rest of the branch (lines 126-136) keeps all of this, and returns
whenever the data rate is not 0; and on a tick with byte count `≥ N`, the start time recorded
and no 64-byte acknowledgement pending, the main loop executes exactly this branch. -/
theorem header_round_trip (s : MainState) (frequency dataRate deviation mode : Nat)
    (power : Int) (p : List Nat)
    (hf : frequency < 4294967296) (hr : dataRate < 4294967296) (hd : deviation < 4294967296)
    (hm : mode < 256) (hp : -128 ≤ power ∧ power ≤ 127)
    (hN : 16 + p.length ≤ 1008)
    (hbuf : bufferHolds s.USBBuffer (encodeMessage frequency dataRate deviation mode power p))
    (hlen : s.NumOfBytes = ((16 + p.length : Nat) : Int)) :
    readU16 s.USBBuffer = 16 + p.length ∧
    ∃ s1, messageReceived s = some s1 ∧
      holdsCommand s1 frequency dataRate deviation mode power p ∧
      (∀ s2, updateInitialization s1 = some s2 →
        holdsCommand s2 frequency dataRate deviation mode power p) ∧
      (dataRate ≠ 0 → ∃ s2, updateInitialization s1 = some s2) ∧
      (∀ now, 16 + p.length ≤ s.USBBufferPointer → s.StartTime ≠ 0 →
        ¬ (s.USBBufferPointer % 64 = 0 ∧ s.AckNumber ≠ (s.USBBufferPointer : Int)) →
        usbReception now s = updateInitialization s1) := by
  have hb := bufferHolds_header s.USBBuffer frequency dataRate deviation mode power p hbuf
  have h16 : readU16 s.USBBuffer = 16 + p.length := by
    have h0 : s.USBBuffer 0 = (16 + p.length) / 256 % 256 := hb 0 (by norm_num)
    have h1 : s.USBBuffer 1 = (16 + p.length) % 256 := hb 1 (by norm_num)
    unfold readU16
    rw [be16_eq _ _ (Nat.mod_lt _ (by norm_num)), h0, h1]
    omega
  refine ⟨h16, ?_⟩
  obtain ⟨s1, h1, hc, -, -⟩ := messageReceived_holdsCommand s frequency dataRate deviation mode
    power p hf hr hd hm hp hN hbuf hlen
  refine ⟨s1, h1, hc, fun s2 h2 => updateInitialization_holdsCommand s1 s2 _ _ _ _ _ _ h2 hc,
    fun hne => updateInitialization_isSome s1 (fun _ => by rw [hc.2.1]; exact hne), ?_⟩
  intro now hcount hstart hack
  rw [usbReception_complete now s (by rw [hlen]; exact_mod_cast hcount) (by omega) hstart
    (by rw [hlen]; omega) hack, h1]
  rfl

/-- Witness for C1: the scenario message (20 bytes, payload 1 2 3 4) fully received. -/
theorem header_round_trip_witness :
    bufferHolds (receivingState scenarioMessage 20 5 20).USBBuffer
      (encodeMessage 404000000 4800 2400 2 19 [0x01, 0x02, 0x03, 0x04]) ∧
    ∃ s1, messageReceived (receivingState scenarioMessage 20 5 20) = some s1 ∧
      holdsCommand s1 404000000 4800 2400 2 19 [0x01, 0x02, 0x03, 0x04] :=
  ⟨fun _ _ => rfl,
    let ⟨_, s1, h1, h2, _⟩ := header_round_trip (receivingState scenarioMessage 20 5 20)
      404000000 4800 2400 2 19 [0x01, 0x02, 0x03, 0x04] (by decide) (by decide) (by decide)
      (by decide) (by decide) (by decide) (fun _ _ => rfl) rfl
    ⟨s1, h1, h2⟩⟩

/-- C2 (malformed declared length), evaluated on the code. A complete 16-byte header whose
declared total length is 5 arrives after startup (registers all 0 at power-up). On the third
pass of the main loop the frame is completed as a success: the messages sent to the PC are the
byte count 16 and "Message reception OK", no failure message; `TxDataSize` becomes
`5 - 16` converted to `unsigned int`, that is 4294967285, and a first chunk of 32 bytes is
written to the FIFO. In general, for every declared length `N < 16` lines 101-124 send the
success message and set `TxDataSize` to `2^32 - 16 + N`. -/
theorem short_length_completes_as_success :
    ((startup blankChip.regs).bind (run shortLengthEvents)).map
      (fun s => (s.usbOut, s.TxDataSize, s.TxBufferPointer, s.chip.bus.drop 24)) =
    some ([.count 16, .receptionOK], 4294967285, 32,
      [.write 0x01 0x01, .write 0x31 0x07, .write 0x32 0xF5,
        .fifo [0, 0, 0, 0, 0, 0, 0, 0, 0, 0, 0, 0, 0, 0, 0, 0, 0, 0, 0, 0, 0, 0, 0, 0, 0, 0, 0,
          0, 0, 0, 0, 0],
        .write 0x40 0x40, .write 0x41 0x00, .write 0x01 0x03]) ∧
    ∀ (s : MainState) (N : Nat), N < 16 → s.NumOfBytes = (N : Int) →
      ∃ s', messageReceived s = some s' ∧
        s'.usbOut = s.usbOut ++ [.count s.USBBufferPointer, .receptionOK] ∧
        s'.TxDataSize = 4294967280 + N := by
  refine ⟨by decide, fun s N hN hs => ⟨_, messageReceived_eq s (by rw [hs]; unfold toUInt32; omega),
    rfl, ?_⟩⟩
  show toUInt32 (s.NumOfBytes - PcReceptionStructSize) = _
  rw [hs]
  unfold toUInt32 PcReceptionStructSize
  omega

/-- C3 (timeout boundary). For an in-progress frame (byte count > 0, start time recorded,
declared length read, byte count below the declared length, no 64-byte acknowledgement
pending) a tick at time `now` makes `usbReception` return the failure state if
`now - StartTime`, computed in 32-bit unsigned arithmetic, exceeds 1000, and the unchanged
state otherwise (in particular at exactly 1000); the failure message is sent if and only if
the difference exceeds 1000; the failure state has byte count, acknowledgement marker and
start time 0 and declared length 1023 (unknown), which are the values every successful
completion leaves. -/
theorem timeout_boundary (s : MainState) (now : Nat)
    (hcount : 0 < s.USBBufferPointer) (hstart : s.StartTime ≠ 0) (hread : s.NumOfBytes ≠ 1023)
    (hlt : (s.USBBufferPointer : Int) < s.NumOfBytes)
    (hack : ¬ (s.USBBufferPointer % 64 = 0 ∧ s.AckNumber ≠ (s.USBBufferPointer : Int))) :
    (1000 < (now % 4294967296 + 4294967296 - s.StartTime % 4294967296) % 4294967296 →
      usbReception now s = some (receptionFailed s)) ∧
    ((now % 4294967296 + 4294967296 - s.StartTime % 4294967296) % 4294967296 ≤ 1000 →
      usbReception now s = some s) ∧
    ((∃ s', usbReception now s = some s' ∧ s'.usbOut = s.usbOut ++ [.receptionFailed]) ↔
      1000 < (now % 4294967296 + 4294967296 - s.StartTime % 4294967296) % 4294967296) ∧
    ((receptionFailed s).usbOut = s.usbOut ++ [.receptionFailed] ∧
      (receptionFailed s).USBBufferPointer = 0 ∧ (receptionFailed s).AckNumber = 0 ∧
      (receptionFailed s).StartTime = 0 ∧ (receptionFailed s).NumOfBytes = 1023) ∧
    (∀ t t', messageReceived t = some t' →
      t'.USBBufferPointer = 0 ∧ t'.AckNumber = 0 ∧ t'.StartTime = 0 ∧ t'.NumOfBytes = 1023) := by
  have hel : toUInt32 ((now % 4294967296 : Nat) - (s.StartTime : Int)) =
      (now % 4294967296 + 4294967296 - s.StartTime % 4294967296) % 4294967296 := by
    unfold toUInt32; omega
  have hstep : usbReception now s =
      if 1000 < (now % 4294967296 + 4294967296 - s.StartTime % 4294967296) % 4294967296 then
        some (receptionFailed s) else some s := by
    unfold usbReception
    rw [if_pos hcount, if_neg hstart, if_neg (fun h => hread h.1), if_neg hack,
      if_neg (not_le.mpr hlt), hel]
    rfl
  refine ⟨fun h => by rw [hstep, if_pos h], fun h => by rw [hstep, if_neg (not_lt.mpr h)], ?_,
    ⟨rfl, rfl, rfl, rfl, rfl⟩, ?_⟩
  · constructor
    · rintro ⟨s', hs', hout⟩
      by_contra hn
      rw [hstep, if_neg hn] at hs'
      cases hs'
      have := congrArg List.length hout
      simp at this
    · intro h
      exact ⟨_, by rw [hstep, if_pos h], rfl⟩
  · intro t t' ht
    unfold messageReceived at ht
    simp only [] at ht
    split at ht
    · cases ht
    · cases ht
      exact ⟨rfl, rfl, rfl, rfl⟩

/-- Witness for C3: 10 of 20 bytes received, reception started at tick 5; the tick at 1005
changes nothing, the tick at 1006 fails the reception. -/
theorem timeout_boundary_witness :
    usbReception 1005 (receivingState scenarioMessage 10 5 20) =
      some (receivingState scenarioMessage 10 5 20) ∧
    usbReception 1006 (receivingState scenarioMessage 10 5 20) =
      some (receptionFailed (receivingState scenarioMessage 10 5 20)) :=
  ⟨(timeout_boundary (receivingState scenarioMessage 10 5 20) 1005 (by decide) (by decide)
      (by decide) (by decide) (by decide)).2.1 (by decide),
    (timeout_boundary (receivingState scenarioMessage 10 5 20) 1006 (by decide) (by decide)
      (by decide) (by decide) (by decide)).1 (by decide)⟩

/-- C4 (reconfiguration only on change). When a frame has completed (state `s` after
lines 101-124): if none of the five received fields differs from `SetupData`, lines 126-136
change nothing; if one differs and the data rate is not 0, they return a state whose bus
history is extended by the reset followed by the configuration writes of `SX127xFSK_INT`, and
whose `SetupData` is the received metadata. For every state they return, the bus history has
changed if and only if a field differed, and when a field differed `SetupData` equals the
received metadata; and a later completed frame `t` that carries the same parameter set, with
`SetupData` as this frame left it, is returned unchanged: no register write, `SetupData`
unchanged. "A field differs" is the comparison of lines 127-131, which holds exactly when the
received metadata and `SetupData` are not the same parameter set, that is when the frequency,
the data rate, the deviation, the shaping mode or the power differs: with the same parameter
set nothing changes, and with any one of the five fields different and a data rate other than
0 the reset and the configuration writes run and `SetupData` becomes the received metadata. -/
theorem reconfiguration_only_on_change (s : MainState) :
    (¬ updateRequired s → updateInitialization s = some s) ∧
    (updateRequired s → s.PcReceptionData.DataRate ≠ 0 →
      ∃ s' cfg, updateInitialization s = some s' ∧ s'.SetupData = s.PcReceptionData ∧
        s'.chip.bus = s.chip.bus ++ BusOp.reset :: cfg ∧
        writtenAddrs cfg = configurationAddrs) ∧
    (∀ s', updateInitialization s = some s' →
      (updateRequired s ↔ s'.chip.bus ≠ s.chip.bus) ∧
      (updateRequired s → s'.SetupData = s.PcReceptionData ∧
        ∃ cfg, s'.chip.bus = s.chip.bus ++ BusOp.reset :: cfg ∧
          writtenAddrs cfg = configurationAddrs) ∧
      ∀ t, t.SetupData = s'.SetupData → sameParameters t.PcReceptionData s.PcReceptionData →
        updateInitialization t = some t) ∧
    (updateRequired s ↔ ¬ sameParameters s.SetupData s.PcReceptionData) ∧
    (sameParameters s.SetupData s.PcReceptionData → updateInitialization s = some s) ∧
    (¬ sameParameters s.SetupData s.PcReceptionData → s.PcReceptionData.DataRate ≠ 0 →
      ∃ s' cfg, updateInitialization s = some s' ∧ s'.SetupData = s.PcReceptionData ∧
        s'.chip.bus = s.chip.bus ++ BusOp.reset :: cfg ∧
        writtenAddrs cfg = configurationAddrs) ∧
    (s.SetupData.FrequencyStart ≠ s.PcReceptionData.FrequencyStart ∨
      s.SetupData.DataRate ≠ s.PcReceptionData.DataRate ∨
      s.SetupData.FrequencyDeviation ≠ s.PcReceptionData.FrequencyDeviation ∨
      s.SetupData.GaussianMode ≠ s.PcReceptionData.GaussianMode ∨
      s.SetupData.Power ≠ s.PcReceptionData.Power →
      ∀ s', updateInitialization s = some s' → s'.chip.bus ≠ s.chip.bus ∧
        s'.SetupData = s.PcReceptionData) := by
  have hiff : updateRequired s ↔ ¬ sameParameters s.SetupData s.PcReceptionData := by
    unfold updateRequired sameParameters
    constructor
    · rintro (h | h | h | h | h) ⟨p1, p2, p3, p4, p5⟩
      · exact h p1
      · exact h p2
      · exact h p3
      · exact h p4
      · exact h p5
    · intro h
      by_contra hn
      simp only [not_or, ne_eq, not_not] at hn
      exact h hn
  have hnoop : ∀ t : MainState, ¬ updateRequired t → updateInitialization t = some t := by
    intro t ht
    unfold updateInitialization
    rw [if_neg ht]
  have hrun : ∀ s', updateInitialization s = some s' → updateRequired s →
      s'.SetupData = s.PcReceptionData ∧
        ∃ cfg, s'.chip.bus = s.chip.bus ++ BusOp.reset :: cfg ∧
          writtenAddrs cfg = configurationAddrs := by
    intro s' h hreq
    rcases updateInitialization_cases s s' h with ⟨hn, -⟩ | ⟨-, c, hc, rfl⟩
    · exact absurd hreq hn
    · obtain ⟨ws, hb, ha⟩ := SX127xFSK_INT_bus _ _ _ hc
      refine ⟨rfl, ws.map (fun w => BusOp.write w.1 w.2), ?_, ?_⟩
      · show c.bus = _
        rw [hb]
        simp [SX127xReset]
      · rw [writtenAddrs_map_write, ha]
  have hdo : updateRequired s → s.PcReceptionData.DataRate ≠ 0 →
      ∃ s' cfg, updateInitialization s = some s' ∧ s'.SetupData = s.PcReceptionData ∧
        s'.chip.bus = s.chip.bus ++ BusOp.reset :: cfg ∧
        writtenAddrs cfg = configurationAddrs := by
    intro hreq hne
    obtain ⟨s', hs'⟩ := updateInitialization_isSome s (fun _ => hne)
    obtain ⟨h1, cfg, h2, h3⟩ := hrun s' hs' hreq
    exact ⟨s', cfg, hs', h1, h2, h3⟩
  refine ⟨hnoop s, hdo, ?_, hiff, fun hsame => hnoop s (fun hreq => hiff.mp hreq hsame),
    fun hdiff => hdo (hiff.mpr hdiff), ?_⟩
  rotate_left
  · intro hany s' h
    have hreq : updateRequired s := hany
    obtain ⟨h1, cfg, h2, -⟩ := hrun s' h hreq
    refine ⟨?_, h1⟩
    intro heq
    have := congrArg List.length (h2.symm.trans heq)
    simp at this
  · intro s' h
    refine ⟨⟨fun hreq => ?_, fun hbus => ?_⟩, hrun s' h, ?_⟩
    · obtain ⟨-, cfg, h2, -⟩ := hrun s' h hreq
      intro heq
      have := congrArg List.length (h2.symm.trans heq)
      simp at this
    · by_contra hn
      rw [hnoop s hn] at h
      cases h
      exact hbus rfl
    · intro t ht hsame
      apply hnoop
      unfold updateRequired
      unfold sameParameters at hsame
      obtain ⟨p1, p2, p3, p4, p5⟩ := hsame
      by_cases hreq : updateRequired s
      · rw [ht, (hrun s' h hreq).1, p1, p2, p3, p4, p5]
        simp
      · rw [hnoop s hreq] at h
        cases h
        unfold updateRequired at hreq
        rw [ht, p1, p2, p3, p4, p5]
        exact hreq

/-- Witness for C4: a completed frame that changes the frequency to 433 MHz, and one that
changes only the data rate, to 9600 baud. -/
theorem reconfiguration_only_on_change_witness :
    (∃ s' cfg,
      updateInitialization { receivingState [] 0 0 1023 with
        PcReceptionData := ⟨20, 433000000, 4800, 2400, 2, 19⟩ } = some s' ∧
      s'.SetupData = ⟨20, 433000000, 4800, 2400, 2, 19⟩ ∧
      s'.chip.bus = blankChip.bus ++ BusOp.reset :: cfg ∧
      writtenAddrs cfg = configurationAddrs) ∧
    ∃ s' cfg,
      updateInitialization { receivingState [] 0 0 1023 with
        PcReceptionData := ⟨20, 404000000, 9600, 2400, 2, 19⟩ } = some s' ∧
      s'.SetupData = ⟨20, 404000000, 9600, 2400, 2, 19⟩ ∧
      s'.chip.bus = blankChip.bus ++ BusOp.reset :: cfg ∧
      writtenAddrs cfg = configurationAddrs :=
  ⟨(reconfiguration_only_on_change { receivingState [] 0 0 1023 with
      PcReceptionData := ⟨20, 433000000, 4800, 2400, 2, 19⟩ }).2.1 (by decide) (by decide),
    (reconfiguration_only_on_change { receivingState [] 0 0 1023 with
      PcReceptionData := ⟨20, 404000000, 9600, 2400, 2, 19⟩ }).2.2.2.2.2.1
      (fun h => absurd h.2.1 (by decide)) (by decide)⟩

/-- C5, counterexample. The parameter set of the scenario (404000000 Hz, 4800 baud, 2400 Hz,
shaping 2, power 19) is the parameter set that `main` installs at startup, so nothing
differs; and in the run of the scenario from startup (registers all 0 at power-up) the
received metadata and `SetupData` agree in all five parameters and the bus operations after
the 24 operations of the startup configuration are only the payload length, the first chunk
and the transmit command: no reset and no configuration sequence precedes the chunk. -/
theorem scenario_parameters_equal_default :
    sameParameters ⟨20, 404000000, 4800, 2400, 2, 19⟩ startupParameters ∧
    (startup blankChip.regs).map (fun s => s.chip.bus.length) = some 24 ∧
    ((startup blankChip.regs).bind (run (scenarioFirstHalf ++ scenarioSecondHalf))).map
      (fun s => (s.PcReceptionData, s.SetupData, s.chip.bus.drop 24)) =
    some (⟨20, 404000000, 4800, 2400, 2, 19⟩, ⟨0, 404000000, 4800, 2400, 2, 19⟩,
      [.write 0x01 0x01, .write 0x31 0x00, .write 0x32 0x04, .fifo [0x01, 0x02, 0x03, 0x04],
        .write 0x40 0x40, .write 0x41 0x00, .write 0x01 0x03]) := by
  refine ⟨⟨rfl, rfl, rfl, rfl, rfl⟩, ?_, ?_⟩
  · decide
  · decide

/-- C5 (amended: end-to-end scenario). For every content of the transceiver registers at
power-up, startup returns a state `s0` whose active configuration is the startup parameter
set and whose bus history is the reset followed by the 23 configuration writes. From `s0`,
the first 10 bytes of the 20-byte scenario message and three passes of the main loop give a
state `s1` in which nothing has been sent to the PC (no acknowledgement at count 10), the
declared length 20 has been read and the transceiver is untouched; the last 10 bytes and one
more pass give a state `s2` in which the byte count 20 and the success message have been
sent, the decoded metadata is (20, 404000000, 4800, 2400, 2, 19), `TxDataSize = 4` and the
transmit buffer starts with the payload 1 2 3 4. The decoded parameter set equals the startup
one, so `SetupData` is unchanged and no reset or configuration write happens on completion:
after the startup sequence the bus sees only the standby command, the payload length
(registers 0x31, 0x32), the FIFO burst with the four payload bytes, the pin routing and the
transmit command. -/
theorem end_to_end_scenario (regs : Nat → Nat) :
    ∃ s0 s1 s2, startup regs = some s0 ∧ run scenarioFirstHalf s0 = some s1 ∧
      run scenarioSecondHalf s1 = some s2 ∧
      s0.SetupData = startupParameters ∧
      (∃ cfg, s0.chip.bus = BusOp.reset :: cfg ∧ writtenAddrs cfg = configurationAddrs ∧
        cfg.length = 23) ∧
      s1.usbOut = [] ∧ s1.USBBufferPointer = 10 ∧ s1.NumOfBytes = 20 ∧ s1.TxDataSize = 0 ∧
      s1.chip = s0.chip ∧
      s2.usbOut = [.count 20, .receptionOK] ∧
      s2.PcReceptionData = ⟨20, 404000000, 4800, 2400, 2, 19⟩ ∧
      s2.TxDataSize = 4 ∧ readBytes s2.TxBuffer 0 4 = [0x01, 0x02, 0x03, 0x04] ∧
      sameParameters s2.PcReceptionData startupParameters ∧
      s2.SetupData = startupParameters ∧
      ∃ v1 v2 v3, v1 % 8 = 1 ∧ v3 % 8 = 3 ∧ s2.chip.bus = s0.chip.bus ++
        [.write 0x01 v1, .write 0x31 v2, .write 0x32 0x04, .fifo [0x01, 0x02, 0x03, 0x04],
          .write 0x40 0x40, .write 0x41 0x00, .write 0x01 v3] := by
  obtain ⟨s0, cfg, hstart, p1, p2, p3, p4, p5, p6, p7, p8, p9, hcfg⟩ := startup_eq regs
  have h1 := scenario_first_half s0 p1 p2 p3 p4 p5 p7
  have hptr : (usbArrival (scenarioMessage.take 10) s0).USBBufferPointer = 10 := by
    simp [usbArrival, p1, scenarioMessage, encodeMessage, encodeHeader]
  obtain ⟨sE, h2, e1, e2, e3, e4, e5, e6⟩ := scenario_second_half
    { usbArrival (scenarioMessage.take 10) s0 with StartTime := 5, NumOfBytes := 20 }
    hptr
    (fun i hi => by
      show (if _ then _ else _) = _
      rw [if_pos (by rw [p1]; simp [scenarioMessage, encodeMessage, encodeHeader]; omega), p1]
      have hi' : i = 0 ∨ i = 1 ∨ i = 2 ∨ i = 3 ∨ i = 4 ∨ i = 5 ∨ i = 6 ∨ i = 7 ∨ i = 8 ∨
          i = 9 := by omega
      rcases hi' with h | h | h | h | h | h | h | h | h | h <;> subst h <;> decide)
    rfl rfl p4 p6 p7 p8
  obtain ⟨v1, v2, hpl, k1⟩ := busx_SX127xFSKSetPayloadLength 4 s0.chip
  obtain ⟨v3, hsend, k3⟩ := busx_FUN_RF_SENDPACKET [0x01, 0x02, 0x03, 0x04]
    (SX127xFSKSetPayloadLength 4 s0.chip)
  refine ⟨s0, _, sE, hstart, h1, h2, p8, ⟨cfg, hcfg⟩, p9, hptr, rfl, p5, rfl, ?_, e2,
    e3, e4, ?_, e5, v1, v2, v3, k1, k3, ?_⟩
  · rw [e1]
    show s0.usbOut ++ _ = _
    rw [p9]
    rfl
  · rw [e2]
    exact ⟨rfl, rfl, rfl, rfl, rfl⟩
  · rw [e6]
    show (FUN_RF_SENDPACKET [0x01, 0x02, 0x03, 0x04] (SX127xFSKSetPayloadLength 4 s0.chip)).bus
      = _
    rw [hsend, hpl]
    simp

/-- C6 (power encoding). For every signed 8-bit power `p` and every transceiver state,
`SX127xFSKSetRFPower` writes 0x3F to the overload protection register 0x0B, then, when
`p > 11`, 0x87 to the boost register 0x4D and the code `(min(p,17) - 2) | 0x80` to the
PA-config register 0x09, and when `p ≤ 11`, 0x84 to 0x4D and the code `(max(p,-3) + 3) | 0x20`
to 0x09 (below -3 the code forces the offset to 0, which is the offset of -3); the low four
bits of the code equal the offset in both cases. The codes written for 11, 12, 25 and -10 are
0x2E, 0x8A, 0x8F and 0x20. -/
theorem power_encoding (power : Int) (hlo : -128 ≤ power) (hhi : power ≤ 127) (c : Chip) :
    (power > 11 →
      (SX127xFSKSetRFPower power c).bus = c.bus ++
        [.write 0x0B 0x3F, .write 0x4D 0x87, .write 0x09 ((min power 17 - 2).toNat ||| 0x80)] ∧
      ((min power 17 - 2).toNat ||| 0x80) % 16 = (min power 17 - 2).toNat) ∧
    (power ≤ 11 →
      (SX127xFSKSetRFPower power c).bus = c.bus ++
        [.write 0x0B 0x3F, .write 0x4D 0x84, .write 0x09 ((max power (-3) + 3).toNat ||| 0x20)] ∧
      ((max power (-3) + 3).toNat ||| 0x20) % 16 = (max power (-3) + 3).toNat) ∧
    (SX127xFSKSetRFPower 11 c).bus =
      c.bus ++ [.write 0x0B 0x3F, .write 0x4D 0x84, .write 0x09 0x2E] ∧
    (SX127xFSKSetRFPower 12 c).bus =
      c.bus ++ [.write 0x0B 0x3F, .write 0x4D 0x87, .write 0x09 0x8A] ∧
    (SX127xFSKSetRFPower 25 c).bus =
      c.bus ++ [.write 0x0B 0x3F, .write 0x4D 0x87, .write 0x09 0x8F] ∧
    (SX127xFSKSetRFPower (-10) c).bus =
      c.bus ++ [.write 0x0B 0x3F, .write 0x4D 0x84, .write 0x09 0x20] := by
  have hn : (power + 128).toNat < 256 := by omega
  have hcast : (((power + 128).toNat : Nat) : Int) - 128 = power := by omega
  refine ⟨fun h => ⟨bus_SX127xFSKSetRFPower_high power hlo hhi h c, ?_⟩,
    fun h => ⟨bus_SX127xFSKSetRFPower_low power hlo hhi h c, ?_⟩,
    bus_SX127xFSKSetRFPower_low 11 (by decide) (by decide) (by decide) c,
    bus_SX127xFSKSetRFPower_high 12 (by decide) (by decide) (by decide) c,
    bus_SX127xFSKSetRFPower_high 25 (by decide) (by decide) (by decide) c,
    bus_SX127xFSKSetRFPower_low (-10) (by decide) (by decide) (by decide) c⟩
  · have := (paConfig_high_all _ hn (by rw [hcast]; exact h)).2
    rwa [hcast] at this
  · have := (paConfig_low_all _ hn (by rw [hcast]; exact h)).2
    rwa [hcast] at this

/-- Witness for C6: power 19 dBm, the startup value. -/
theorem power_encoding_witness :
    (SX127xFSKSetRFPower 19 blankChip).bus =
      [.write 0x0B 0x3F, .write 0x4D 0x87, .write 0x09 0x8F] :=
  ((power_encoding 19 (by decide) (by decide) blankChip).1 (by decide)).1

/-- C7, counterexample. With data rate 0 the configuration sequence is not produced:
`SX127xFSKSetBitRate` divides by zero and `SX127xFSK_INT` has no defined result. -/
theorem configuration_undefined_at_zero_rate :
    (SX127xFSK_INT ⟨20, 404000000, 0, 2400, 2, 19⟩ blankChip).isNone = true := by
  rfl

/-- C7 (amended: configuration order). For every parameter set whose data rate is at least 1
and every transceiver state, `SX127xFSK_INT` returns, and what it adds to the bus history is
a sequence of register writes `ws` whose addresses are, in order, 0x01 three times (sleep: low
three bits 0; FSK family: bit 7 clear; standby: low three bits 1), 0x40 and 0x41 (both 0),
0x06, 0x07, 0x08, then 0x02, 0x03, 0x5D, then 0x04, 0x05, then 0x0A, then the overload
protection 0x0B (value 0x3F), the boost register 0x4D and the PA config 0x09, then 0x27 (bit
0x10 clear), 0x30 twice (bit 0x80 clear, then bit 0x10 clear), 0x25 and 0x26 (both 0), and
0x35. -/
theorem configuration_order (m : MetaDataStruct) (c : Chip) (h : 1 ≤ m.DataRate) :
    ∃ (c' : Chip) (ws : List (Nat × Nat)), SX127xFSK_INT m c = some c' ∧
      c'.bus = c.bus ++ ws.map (fun w => BusOp.write w.1 w.2) ∧
      ws.map Prod.fst =
        [0x01, 0x01, 0x01, 0x40, 0x41, 0x06, 0x07, 0x08, 0x02, 0x03, 0x5D, 0x04, 0x05, 0x0A,
          0x0B, 0x4D, 0x09, 0x27, 0x30, 0x30, 0x25, 0x26, 0x35] ∧
      (ws.getD 0 (0, 0)).2 % 8 = 0 ∧
      (ws.getD 1 (0, 0)).2 < 128 ∧
      (ws.getD 2 (0, 0)).2 % 8 = 1 ∧
      (ws.getD 3 (0, 0)).2 = 0 ∧
      (ws.getD 4 (0, 0)).2 = 0 ∧
      (ws.getD 14 (0, 0)).2 = 0x3F ∧
      (ws.getD 17 (0, 0)).2 &&& 0x10 = 0 ∧
      (ws.getD 18 (0, 0)).2 &&& 0x80 = 0 ∧
      (ws.getD 19 (0, 0)).2 &&& 0x10 = 0 ∧
      (ws.getD 20 (0, 0)).2 = 0 ∧
      (ws.getD 21 (0, 0)).2 = 0 :=
  configuration_order_aux m c (by omega)

/-- Witness for C7: the startup parameter set on a transceiver with all registers 0. -/
theorem configuration_order_witness :
    1 ≤ startupParameters.DataRate ∧
    ∃ (c' : Chip) (ws : List (Nat × Nat)), SX127xFSK_INT startupParameters blankChip = some c' ∧
      c'.bus = blankChip.bus ++ ws.map (fun w => BusOp.write w.1 w.2) ∧
      ws.map Prod.fst =
        [0x01, 0x01, 0x01, 0x40, 0x41, 0x06, 0x07, 0x08, 0x02, 0x03, 0x5D, 0x04, 0x05, 0x0A,
          0x0B, 0x4D, 0x09, 0x27, 0x30, 0x30, 0x25, 0x26, 0x35] :=
  ⟨by decide,
    let ⟨c', ws, h1, h2, h3, _⟩ := configuration_order startupParameters blankChip (by decide)
    ⟨c', ws, h1, h2, h3⟩⟩

/-- C8, counterexample. For 404000000 Hz the bytes written to 0x06, 0x07, 0x08 are 0x65,
0x00, 0x10, the value 6619152, while `round(404000000 * 2^19 / 32000000)` is 6619136. -/
theorem frequency_encoding_counterexample :
    (SX127xFSKSetRFFrequency 404000000 blankChip).bus =
      [.write 0x06 0x65, .write 0x07 0x00, .write 0x08 0x10] ∧
    0x65 * 65536 + 0x00 * 256 + 0x10 = 6619152 ∧ specStepValue 404000000 = 6619136 := by
  decide

/-- C8 (amended: frequency encoding). For every 32-bit `frequencyHz`, the three bytes that
`SX127xFSKSetRFFrequency` writes, most significant first, to registers 0x06, 0x07, 0x08 form
the low 24 bits of `floor(frequencyHz / 61.035)`: the code divides in double precision by the
literal 61.035 and truncates, and for every 32-bit input the result is exactly
`floor(frequencyHz * 1000 / 61035)`. -/
theorem frequency_encoding (TxFrequency : Nat) (h : TxFrequency < 4294967296) (c : Chip) :
    ∃ b0 b1 b2, (SX127xFSKSetRFFrequency TxFrequency c).bus =
        c.bus ++ [.write 0x06 b0, .write 0x07 b1, .write 0x08 b2] ∧
      b0 < 256 ∧ b1 < 256 ∧ b2 < 256 ∧
      b0 * 65536 + b1 * 256 + b2 = TxFrequency * 1000 / 61035 % 16777216 := by
  refine ⟨(frequencyRegValue TxFrequency >>> 16) % 256, (frequencyRegValue TxFrequency >>> 8) % 256,
    (frequencyRegValue TxFrequency >>> 0) % 256, ?_, Nat.mod_lt _ (by norm_num),
    Nat.mod_lt _ (by norm_num), Nat.mod_lt _ (by norm_num), ?_⟩
  · rw [bus_SX127xFSKSetRFFrequency]
    simp only [Nat.mod_mod]
  · rw [frequencyRegValue_eq TxFrequency h, Nat.shiftRight_eq_div_pow, Nat.shiftRight_eq_div_pow,
      Nat.shiftRight_eq_div_pow]
    norm_num
    exact bytes24 _

/-- Witness for C8: 404000000 Hz, the startup frequency. -/
theorem frequency_encoding_witness :
    ∃ b0 b1 b2, (SX127xFSKSetRFFrequency 404000000 blankChip).bus =
        blankChip.bus ++ [.write 0x06 b0, .write 0x07 b1, .write 0x08 b2] ∧
      b0 < 256 ∧ b1 < 256 ∧ b2 < 256 ∧
      b0 * 65536 + b1 * 256 + b2 = 404000000 * 1000 / 61035 % 16777216 :=
  frequency_encoding 404000000 (by decide) blankChip

/-- C9, counterexample. For 4800 baud and fractional part 0 the bytes written to 0x02, 0x03
are 0x1A, 0x0A, the value 6666, while `round(32000000 / 4800)` is 6667. -/
theorem data_rate_encoding_counterexample :
    (SX127xFSKSetBitRate 4800 0 blankChip).map (fun c => c.bus) =
      some [.write 0x02 0x1A, .write 0x03 0x0A, .write 0x5D 0x00] ∧
    0x1A * 256 + 0x0A = 6666 ∧ specBitRateValue 4800 = 6667 := by
  decide

/-- C9 (amended: data-rate encoding). For every `dataRateBaud ≥ 1` and every fractional part
`f` (an `unsigned char`), `SX127xFSKSetBitRate` returns, and the two bytes it writes, most
significant first, to registers 0x02, 0x03 form the low 16 bits of
`floor(32000000 / dataRateBaud) - floor(f / 16)` (the quotient is truncated, not rounded);
the value written to the fraction register 0x5D is `f & 0x0F`. -/
theorem data_rate_encoding (BitRate f : Nat) (hr : 1 ≤ BitRate) (hf : f < 256) (c : Chip) :
    ∃ c' b0 b1, SX127xFSKSetBitRate BitRate f c = some c' ∧
      c'.bus = c.bus ++ [.write 0x02 b0, .write 0x03 b1, .write 0x5D (f &&& 0x0F)] ∧
      b0 < 256 ∧ b1 < 256 ∧
      ((b0 * 256 + b1 : Nat) : Int) =
        (((32000000 / BitRate : Nat) : Int) - ((f / 16 : Nat) : Int)) % 65536 := by
  have hne : BitRate ≠ 0 := by omega
  refine ⟨_, toUInt8 (bitRateRegValue BitRate f >>> (8 : Nat)), toUInt8 (bitRateRegValue BitRate f >>> (0 : Nat)),
    by rw [SX127xFSKSetBitRate, if_neg hne], ?_, ?_, ?_, ?_⟩
  · have h1 : toUInt8 (bitRateRegValue BitRate f >>> (8 : Nat)) % 256 =
        toUInt8 (bitRateRegValue BitRate f >>> (8 : Nat)) := by unfold toUInt8; omega
    have h2 : toUInt8 (bitRateRegValue BitRate f >>> (0 : Nat)) % 256 =
        toUInt8 (bitRateRegValue BitRate f >>> (0 : Nat)) := by unfold toUInt8; omega
    have h3 : (f % 256 &&& 0x0F) % 256 = f &&& 0x0F := by
      rw [Nat.mod_eq_of_lt hf]
      exact Nat.mod_eq_of_lt (lt_of_le_of_lt Nat.and_le_right (by norm_num))
    simp only [bus_SX127xWriteBuffer, List.append_assoc, List.cons_append, List.nil_append,
      REG_FS_BRMSB, REG_FS_BRLSB, REG_FS_BITRATEFRAC, h1, h2, h3]
  · unfold toUInt8; omega
  · unfold toUInt8; omega
  · rw [bitRateRegValue_eq BitRate f hf]
    unfold toUInt8
    rw [Int.shiftRight_eq_div_pow, Int.shiftRight_eq_div_pow]
    generalize ((32000000 / BitRate : Nat) : Int) - ((f / 16 : Nat) : Int) = n
    norm_num
    omega

/-- Witness for C9: 4800 baud, the startup data rate, with fractional part 0. -/
theorem data_rate_encoding_witness :
    ∃ c' b0 b1, SX127xFSKSetBitRate 4800 0 blankChip = some c' ∧
      c'.bus = blankChip.bus ++ [.write 0x02 b0, .write 0x03 b1, .write 0x5D (0 &&& 0x0F)] ∧
      b0 < 256 ∧ b1 < 256 ∧
      ((b0 * 256 + b1 : Nat) : Int) =
        (((32000000 / 4800 : Nat) : Int) - ((0 / 16 : Nat) : Int)) % 65536 :=
  data_rate_encoding 4800 0 (by decide) (by decide) blankChip

/-- C10, counterexample. For a deviation of 5000 Hz the bytes written to 0x04, 0x05 are 0 and
81, while `round(5000 * 2^19 / 32000000)` is 82. -/
theorem deviation_encoding_counterexample :
    (SX127xFSKSetFreqDev 5000 blankChip).bus = [.write 0x04 0, .write 0x05 81] ∧
    specStepValue 5000 = 82 := by
  decide

/-- C10 (amended: deviation encoding). For every `deviationHz`, the high byte (masked to its
lower 5 bits) and the low byte that `SX127xFSKSetFreqDev` writes to registers 0x04, 0x05 form
the low 13 bits of `floor(deviationHz / 61)`: the code divides by the integer constant
`FSTEP = 61` in integer arithmetic, not by the 61.035 of the carrier-frequency encoding. -/
theorem deviation_encoding (FreqDev : Nat) (c : Chip) :
    ∃ hi lo, (SX127xFSKSetFreqDev FreqDev c).bus = c.bus ++ [.write 0x04 hi, .write 0x05 lo] ∧
      hi < 32 ∧ lo < 256 ∧ hi * 256 + lo = FreqDev / 61 % 8192 := by
  have hand : ∀ x : Nat, x &&& 0x1F = x % 32 := fun x => Nat.and_pow_two_sub_one_eq_mod x 5
  refine ⟨(FreqDev / 61) >>> 8 % 256 &&& 0x1F, (FreqDev / 61) >>> 0 % 256, ?_, ?_, ?_, ?_⟩
  · have h1 : ((FreqDev / 61) >>> 8 % 256 &&& 0x1F) % 256 = (FreqDev / 61) >>> 8 % 256 &&& 0x1F := by
      rw [hand]; omega
    simp only [SX127xFSKSetFreqDev, bus_SX127xWriteBuffer, List.append_assoc, List.cons_append,
      List.nil_append, REG_FS_FDEVMSB, REG_FS_FDEVLSB, FSTEP, h1]
    simp
  · rw [hand]; omega
  · omega
  · rw [hand, Nat.shiftRight_eq_div_pow, Nat.shiftRight_eq_div_pow]
    norm_num
    omega

/-- C11 (refill threshold), evaluated on the code. For every parameter set with a data rate
other than 0 and every transceiver state, `SX127xFSK_INT` returns; its last register write,
the only one to the FIFO-threshold register 0x35, has the value `r & 0xE0`, where `r` is the
content of 0x35 before the configuration, and the register then holds that value. The bits
outside the threshold mask 0x1F keep their prior value, but the threshold field selected by the
mask is 0 and not the chunk size 32: `FIFO_THRESHOLD & RFFS_FIFO_THRESHOLD_MASK` is
`32 & 0x1F = 0`. -/
theorem fifo_threshold_field_is_zero (m : MetaDataStruct) (c : Chip) (h : m.DataRate ≠ 0) :
    ∃ (c' : Chip) (ws : List (Nat × Nat)), SX127xFSK_INT m c = some c' ∧
      c'.bus = c.bus ++ ws.map (fun w => BusOp.write w.1 w.2) ∧
      ws.map Prod.fst = configurationAddrs ∧
      ws.getD 22 (0, 0) = (0x35, SX127xReadBuffer 0x35 c &&& 0xE0) ∧
      c'.regs 0x35 = SX127xReadBuffer 0x35 c &&& 0xE0 ∧
      (SX127xReadBuffer 0x35 c &&& 0xE0) &&& RFFS_FIFO_THRESHOLD_MASK = 0 ∧
      (SX127xReadBuffer 0x35 c &&& 0xE0) &&& RFFS_FIFO_THRESHOLD_MASK ≠ FIFO_DATA_CHUNKS ∧
      (SX127xReadBuffer 0x35 c &&& 0xE0) &&& compl8 RFFS_FIFO_THRESHOLD_MASK =
        SX127xReadBuffer 0x35 c &&& compl8 RFFS_FIFO_THRESHOLD_MASK := by
  obtain ⟨c', ws, hc, hb, ha, -⟩ := configuration_order_aux m c h
  obtain ⟨c1, h1, hr⟩ := SX127xFSK_INT_threshold m c c' hc
  have hlt : SX127xReadBuffer 0x35 c < 256 := SX127xReadBuffer_lt _ _
  have hread : SX127xReadBuffer REG_FS_FIFOTHRESH c1 = SX127xReadBuffer 0x35 c := by
    unfold SX127xReadBuffer
    show c1.regs 0x35 % 256 = c.regs 0x35 % 256
    rw [hr]
  have hbus : c'.bus = c1.bus ++ [.write 0x35 (SX127xReadBuffer 0x35 c &&& 0xE0)] := by
    rw [h1]
    unfold SX127xFSKSetFIFOThreshold
    simp only [hread]
    rw [bus_SX127xWriteBuffer, threshold_value_all _ hlt]
    rfl
  have hreg : c'.regs 0x35 = SX127xReadBuffer 0x35 c &&& 0xE0 := by
    rw [h1]
    unfold SX127xFSKSetFIFOThreshold
    simp only [hread]
    unfold SX127xWriteBuffer
    rw [threshold_value_all _ hlt]
    rfl
  have hlen : ws.length = 23 := by
    have := congrArg List.length ha
    rw [List.length_map] at this
    exact this
  have hlast : ws.getD 22 (0, 0) = (0x35, SX127xReadBuffer 0x35 c &&& 0xE0) := by
    have e := hb
    rw [hbus] at e
    have e2 := congrArg List.getLast? e
    rw [List.getLast?_append, List.getLast?_append, List.getLast?_map,
      List.getLast?_eq_getElem? ws, hlen] at e2
    rw [List.getD_eq_getElem?_getD]
    cases hw : ws[22]? with
    | none =>
      have := List.getElem?_eq_none_iff.mp hw
      omega
    | some w =>
      rw [hw] at e2
      simp only [List.getLast?_singleton, Option.map_some', Option.or_some, Option.some.injEq,
        Option.or] at e2
      cases w with
      | mk a v =>
        injection e2 with ea ev
        simp only [Option.getD_some, Prod.mk.injEq]
        exact ⟨ea.symm, ev.symm⟩
  have hbits := threshold_bits_all _ hlt
  refine ⟨c', ws, hc, hb, ha, hlast, hreg, hbits.1, ?_, hbits.2⟩
  rw [hbits.1]
  decide

/-- Witness for C11: configuration with the startup parameters of a transceiver whose registers
all hold 0xFF; the byte written to 0x35 is 0xE0, threshold field 0. -/
theorem fifo_threshold_field_is_zero_witness :
    ∃ (c' : Chip) (ws : List (Nat × Nat)), SX127xFSK_INT startupParameters onesChip = some c' ∧
      c'.bus = ws.map (fun w => BusOp.write w.1 w.2) ∧
      ws.getD 22 (0, 0) = (0x35, 0xE0) ∧ c'.regs 0x35 = 0xE0 :=
  let ⟨c', ws, h1, h2, _, h4, h5, _⟩ :=
    fifo_threshold_field_is_zero startupParameters onesChip (by decide)
  ⟨c', ws, h1, h2, h4, h5⟩

/-- C12 (chunking correctness). Let the payload length `L` satisfy `1 ≤ L ≤ 1024` and let `s`
be a state at the top of the main loop with `TxDataSize = L`, cursor 0 and the frame assembler
at rest (no byte received). The chunk list `specChunks` of the specification has `⌈L/32⌉`
entries, the entry with index `k` (from 0) being the `min 32 (L - 32 k)` bytes of `TxBuffer`
from offset `32 k` on; the lengths sum to `L` and the chunks joined in order are the `L` payload
bytes. For every sequence of steps of the main loop in which the device never reports TX-done
and no byte arrives, the run returns, the FIFO bursts written since `s` are the first `j`
chunks of that list for some `j ≤ ⌈L/32⌉`, the cursor is `min (32 j) L`, never above `L`, and
`TxDataSize` is still `L`. When the device asks for a refill at once each time (status byte
0), the `⌈L/32⌉` passes write exactly the whole chunk list and leave the cursor at `L`. -/
theorem chunking_correctness (L : Nat) (h1 : 1 ≤ L) (h2 : L ≤ 1024) (s : MainState)
    (hu : s.USBBufferPointer = 0) (hsz : s.TxDataSize = L) (hp : s.TxBufferPointer = 0)
    (hloc : s.loc = .loopTop) :
    (specChunks s.TxBuffer L).length = (L + 31) / 32 ∧
    (∀ k, k < (L + 31) / 32 → ∃ chunk, (specChunks s.TxBuffer L)[k]? = some chunk ∧
      chunk = readBytes s.TxBuffer (32 * k) (min 32 (L - 32 * k)) ∧
      chunk.length = min 32 (L - 32 * k)) ∧
    ((specChunks s.TxBuffer L).map List.length).sum = L ∧
    (specChunks s.TxBuffer L).flatten = readBytes s.TxBuffer 0 L ∧
    (∀ evs : List Event, evs.all isQuietStep = true →
      ∃ s' j, run evs s = some s' ∧ j ≤ (L + 31) / 32 ∧
        fifoBursts s'.chip.bus = fifoBursts s.chip.bus ++ (specChunks s.TxBuffer L).take j ∧
        s'.TxBufferPointer = min (32 * j) L ∧ s'.TxBufferPointer ≤ L ∧ s'.TxDataSize = L) ∧
    (∃ s', run (List.replicate (2 * ((L + 31) / 32)) (.step 0 0)) s = some s' ∧
      fifoBursts s'.chip.bus = fifoBursts s.chip.bus ++ specChunks s.TxBuffer L ∧
      s'.TxBufferPointer = L ∧ s'.TxDataSize = L) := by
  have hs0 : sessionAfter s.TxBuffer L (fifoBursts s.chip.bus) 0 s :=
    ⟨hu, rfl, hsz, by rw [hp]; omega, by omega, by simp⟩
  have hfull : (specChunks s.TxBuffer L).take ((L + 31) / 32) = specChunks s.TxBuffer L :=
    List.take_of_length_le (by rw [specChunks_length])
  have hjoin : (specChunks s.TxBuffer L).flatten = readBytes s.TxBuffer 0 L := by
    have := specChunks_take_join s.TxBuffer L ((L + 31) / 32) (le_refl _)
    rw [hfull, show min (32 * ((L + 31) / 32)) L = L by omega] at this
    exact this
  refine ⟨specChunks_length _ _, ?_, ?_, hjoin, ?_, ?_⟩
  · intro k hk
    refine ⟨_, ?_, rfl, ?_⟩
    · unfold specChunks
      rw [List.getElem?_map, List.getElem?_range hk]
      rfl
    · unfold readBytes
      rw [List.length_map, List.length_range]
  · rw [← List.length_flatten, hjoin]
    unfold readBytes
    rw [List.length_map, List.length_range]
  · intro evs hq
    obtain ⟨s', j, hr, -, hu', hb', hsz', hp', hj', hf'⟩ :=
      session_run s.TxBuffer L (fifoBursts s.chip.bus) h1 h2 evs 0 s hq hs0
    exact ⟨s', j, hr, hj', hf', hp', by omega, hsz'⟩
  · obtain ⟨s', hr, hu', hb', hsz', hp', hj', hf'⟩ :=
      session_complete s.TxBuffer L (fifoBursts s.chip.bus) h1 h2 ((L + 31) / 32) 0 s
        (by omega) hs0 (fun _ => hloc)
    rw [hfull] at hf'
    exact ⟨s', hr, hf', by omega, hsz'⟩

/-- Witness for C12: a payload of 70 bytes, 0 to 69, is written in three chunks of 32, 32 and
6 bytes. -/
theorem chunking_correctness_witness :
    ∃ s', run (List.replicate 6 (.step 0 0)) (sendingState (List.range 70) 0 .loopTop) = some s' ∧
      fifoBursts s'.chip.bus =
        [List.range 32, (List.range 32).map (· + 32), [64, 65, 66, 67, 68, 69]] ∧
      s'.TxBufferPointer = 70 :=
  let ⟨s', h, hf, hp, _⟩ := (chunking_correctness 70 (by decide) (by decide)
    (sendingState (List.range 70) 0 .loopTop) rfl rfl rfl rfl).2.2.2.2.2
  ⟨s', h, hf.trans (by decide), hp⟩

/-- C13 (TX-done ends the session). Let `s` be a state inside the inner loop of an active
session (`TxDataSize > 0`) and `irq` the byte read from register 0x3F. If bit 0x08 is set then,
whatever bit 0x20 and the cursor are, the pass writes the op-mode register 0x01 with the low
three bits 1 (standby) and the other bits as read, writes 0 to 0x40 and to 0x41, sets cursor
and length to 0 and leaves the loop. If bit 0x08 is clear, the pass leaves the loop when bit
0x20 is clear and the cursor is below the length, changing nothing else, and otherwise stays
in the loop with the state unchanged. So the loop is left exactly on TX-done or on
TX-done clear, FIFO-level clear and cursor below length. -/
theorem tx_done_ends_session (s : MainState) (irq : Nat) (hact : 0 < s.TxDataSize)
    (hloc : s.loc = .txWait) :
    (irq % 256 &&& 0x08 = 0x08 →
      ∃ c' v, waitStep irq s =
          { s with chip := c', TxBufferPointer := 0, TxDataSize := 0, loc := .loopTop } ∧
        c'.bus = s.chip.bus ++ [.write 0x01 v, .write 0x40 0, .write 0x41 0] ∧
        v % 8 = 1 ∧ v / 8 = SX127xReadBuffer 0x01 s.chip / 8) ∧
    (irq % 256 &&& 0x08 ≠ 0x08 → irq % 256 &&& 0x20 = 0 → s.TxBufferPointer < s.TxDataSize →
      waitStep irq s = { s with loc := .loopTop }) ∧
    (irq % 256 &&& 0x08 ≠ 0x08 → ¬ (irq % 256 &&& 0x20 = 0 ∧ s.TxBufferPointer < s.TxDataSize) →
      waitStep irq s = s) ∧
    ((waitStep irq s).loc = .loopTop ↔
      irq % 256 &&& 0x08 = 0x08 ∨
        (irq % 256 &&& 0x08 ≠ 0x08 ∧ irq % 256 &&& 0x20 = 0 ∧
          s.TxBufferPointer < s.TxDataSize)) := by
  have hA : irq % 256 &&& 0x08 = 0x08 →
      waitStep irq s = { s with
        chip := SX127xWriteBuffer REG_FS_DIOMAPPING2 0x00
          (SX127xWriteBuffer REG_FS_DIOMAPPING1 0x00 (SX127xFSKSetOpMode .Stdby_mode s.chip))
        TxBufferPointer := 0, TxDataSize := 0, loc := .loopTop } := by
    intro h
    unfold waitStep
    rw [if_pos hact]
    simp only [FS_IRQN_TXD_Value]
    rw [if_pos h]
  have hB : irq % 256 &&& 0x08 ≠ 0x08 → irq % 256 &&& 0x20 = 0 →
      s.TxBufferPointer < s.TxDataSize → waitStep irq s = { s with loc := .loopTop } :=
    fun h hf hlt => waitStep_refill irq s hlt h hf
  have hC : irq % 256 &&& 0x08 ≠ 0x08 →
      ¬ (irq % 256 &&& 0x20 = 0 ∧ s.TxBufferPointer < s.TxDataSize) → waitStep irq s = s := by
    intro h hn
    unfold waitStep
    rw [if_pos hact]
    simp only [FS_IRQN_TXD_Value, FS_IRQN_FIFO_LEVEL_Value]
    rw [if_neg h, if_neg hn]
  refine ⟨?_, hB, hC, ?_⟩
  · intro h
    obtain ⟨v, hb, k1, k2⟩ := busy_SX127xFSKSetOpMode .Stdby_mode s.chip
    refine ⟨_, v, hA h, ?_, k1, k2⟩
    rw [bus_SX127xWriteBuffer, bus_SX127xWriteBuffer, hb]
    simp [REG_FS_DIOMAPPING1, REG_FS_DIOMAPPING2]
  · by_cases h : irq % 256 &&& 0x08 = 0x08
    · rw [hA h]
      exact ⟨fun _ => Or.inl h, fun _ => rfl⟩
    · by_cases hn : irq % 256 &&& 0x20 = 0 ∧ s.TxBufferPointer < s.TxDataSize
      · rw [hB h hn.1 hn.2]
        exact ⟨fun _ => Or.inr ⟨h, hn⟩, fun _ => rfl⟩
      · rw [hC h hn, hloc]
        constructor
        · intro hc; cases hc
        · intro hc
          rcases hc with hc | hc
          · exact absurd hc h
          · exact absurd hc.2 hn

/-- Witness for C13: 70-byte session with 32 bytes written; the status byte 0x28 has TX-done
and FIFO-level set. -/
theorem tx_done_ends_session_witness :
    ∃ c' v, waitStep 0x28 (sendingState (List.range 70) 32 .txWait) =
        { sendingState (List.range 70) 32 .txWait with
          chip := c', TxBufferPointer := 0, TxDataSize := 0, loc := .loopTop } ∧
      c'.bus = [.write 0x01 v, .write 0x40 0, .write 0x41 0] ∧ v % 8 = 1 ∧ v / 8 = 0 :=
  (tx_done_ends_session (sendingState (List.range 70) 32 .txWait) 0x28 (by decide) rfl).1
    (by decide)

set_option maxRecDepth 1000000 in
/-- C14 (transmit-session invariant), evaluated on the code. After startup (registers all 0
at power-up) the 144-byte message with a 128-byte payload arrives and is completed; the first
chunk is written. One byte of a next message arrives; the pass at tick 8 records its start
time and writes the second chunk, so that at the top of the loop the session is active with
cursor 64 and length 128. The device never reports TX-done (every status byte is 0). The pass
at tick 1009 finds the reception timed out and runs lines 141-147, which set `TxDataSize` to 0
and leave `TxBufferPointer` alone: at the top of the next iteration the cursor is 64 and the
length 0. In general the failure branch sets the length to 0 and keeps the cursor, whatever
they are. -/
theorem session_invariant_broken_by_timeout :
    ((startup blankChip.regs).bind (run (timeoutInSessionEvents.take 10))).map
        (fun s => (s.loc, s.TxBufferPointer, s.TxDataSize)) = some (.loopTop, 64, 128) ∧
    ((startup blankChip.regs).bind (run timeoutInSessionEvents)).map
        (fun s => (s.loc, s.TxBufferPointer, s.TxDataSize, s.usbOut)) =
      some (.loopTop, 64, 0, [.count 144, .receptionOK, .receptionFailed]) ∧
    ∀ s : MainState, (receptionFailed s).TxDataSize = 0 ∧
      (receptionFailed s).TxBufferPointer = s.TxBufferPointer := by
  refine ⟨by decide, by decide, fun s => ⟨rfl, rfl⟩⟩

set_option maxRecDepth 1000000 in
/-- C15 (sessions do not overlap), evaluated on the code. After startup (registers all 0 at
power-up) the 144-byte message with a 128-byte payload arrives and is completed; the first
chunk is written. Then the 20-byte scenario message arrives; the passes at ticks 8 and 9
record its start time and read its declared length, writing the second and third chunk.
Immediately before the pass at tick 10 the session is active: cursor 96, length 128, the
transmit buffer starts with 0, 1, 2, 3. That pass runs the completion branch all the same: the
transmit buffer now starts with the new payload 1, 2, 3, 4, the length is 4, the cursor still
96, and the success message is sent. In general lines 101-124 install the new length and keep
the cursor for every state they are run in, whatever `TxDataSize` and `TxBufferPointer` are. -/
theorem session_overlap_on_completion :
    ((startup blankChip.regs).bind (run (overlapEvents.take 12))).map
        (fun s => (s.loc, s.TxBufferPointer, s.TxDataSize, readBytes s.TxBuffer 0 4,
          s.USBBufferPointer, s.NumOfBytes)) =
      some (.loopTop, 96, 128, [0, 1, 2, 3], 20, 20) ∧
    ((startup blankChip.regs).bind (run overlapEvents)).map
        (fun s => (s.TxBufferPointer, s.TxDataSize, readBytes s.TxBuffer 0 4, s.usbOut)) =
      some (96, 4, [1, 2, 3, 4], [.count 144, .receptionOK, .count 20, .receptionOK]) ∧
    ∀ s : MainState, toUInt32 s.NumOfBytes ≤ 1008 →
      ∃ s', messageReceived s = some s' ∧
        s'.TxDataSize = toUInt32 (s.NumOfBytes - PcReceptionStructSize) ∧
        s'.TxBufferPointer = s.TxBufferPointer := by
  refine ⟨by decide, by decide, fun s h => ⟨_, messageReceived_eq s h, rfl, rfl⟩⟩

set_option maxRecDepth 1000000 in
/-- Counterexample for C16: a session of 70 bytes, 0 to 69, from cursor 0. After the second
pass of the loop body the bus history shows the second FIFO burst followed, like the first, by
the writes 0x40 to register 0x40 and 0 to register 0x41 and by the TX-mode command (op-mode
low bits 3). -/
theorem first_chunk_only_signalling_counterexample :
    (run [.step 0 0, .step 0 0, .step 0 0] (sendingState (List.range 70) 0 .loopTop)).map
      (fun s => (s.TxBufferPointer, s.chip.bus)) =
    some (64, [.write 0x01 0x01, .write 0x31 0x00, .write 0x32 70,
      .fifo (List.range 32), .write 0x40 0x40, .write 0x41 0x00, .write 0x01 0x03,
      .fifo ((List.range 32).map (· + 32)), .write 0x40 0x40, .write 0x41 0x00,
      .write 0x01 0x03]) := by
  decide

/-- C16 as amended (signalling with every chunk). For every state with bytes left to write
(cursor below `TxDataSize ≤ 1024`), first chunk or later one, transmission management returns
and appends to the bus history the FIFO burst of the next `min 32 (TxDataSize - cursor)` bytes
followed by the writes 0x40 to register 0x40 and 0x00 to register 0x41 and by the TX-mode
command (a write to 0x01 with low three bits 3). Only the payload-length programming that
precedes the burst (standby, 0x31, 0x32) is tied to the first chunk: it is present when the
cursor is 0 and absent otherwise. -/
theorem signalling_on_every_chunk (s : MainState) (hlt : s.TxBufferPointer < s.TxDataSize)
    (hL : s.TxDataSize ≤ 1024) :
    ∃ s' pre v, transmission s = some s' ∧
      s'.chip.bus = s.chip.bus ++ pre ++
        [.fifo (readBytes s.TxBuffer s.TxBufferPointer
            (min 32 (s.TxDataSize - s.TxBufferPointer))),
          .write 0x40 0x40, .write 0x41 0x00, .write 0x01 v] ∧
      v % 8 = 3 ∧
      (s.TxBufferPointer ≠ 0 → pre = []) ∧
      (s.TxBufferPointer = 0 → ∃ v1 v2, pre =
        [.write 0x01 v1, .write 0x31 v2, .write 0x32 (s.TxDataSize % 256)] ∧ v1 % 8 = 1) := by
  have ht := transmission_write s hlt hL
  by_cases h0 : s.TxBufferPointer = 0 ∧ s.TxDataSize > 0
  · rw [if_pos h0] at ht
    obtain ⟨v1, v2, hb1, k1⟩ := busx_SX127xFSKSetPayloadLength s.TxDataSize s.chip
    obtain ⟨v, hb, k⟩ := busx_FUN_RF_SENDPACKET
      (readBytes s.TxBuffer s.TxBufferPointer (min 32 (s.TxDataSize - s.TxBufferPointer)))
      (SX127xFSKSetPayloadLength s.TxDataSize s.chip)
    refine ⟨_, [.write 0x01 v1, .write 0x31 v2, .write 0x32 (s.TxDataSize % 256)], v, ht, ?_, k,
      fun hne => absurd h0.1 hne, fun _ => ⟨v1, v2, rfl, k1⟩⟩
    show (FUN_RF_SENDPACKET _ _).bus = _
    rw [hb, hb1]
  · rw [if_neg h0] at ht
    obtain ⟨v, hb, k⟩ := busx_FUN_RF_SENDPACKET
      (readBytes s.TxBuffer s.TxBufferPointer (min 32 (s.TxDataSize - s.TxBufferPointer))) s.chip
    refine ⟨_, [], v, ht, ?_, k, fun _ => rfl, fun h => absurd ⟨h, by omega⟩ h0⟩
    show (FUN_RF_SENDPACKET _ _).bus = _
    rw [hb, List.append_nil]

/-- Witness for C16: the second chunk of a 70-byte session. -/
theorem signalling_on_every_chunk_witness :
    ∃ s' v, transmission (sendingState (List.range 70) 32 .loopTop) = some s' ∧
      s'.chip.bus = [.fifo ((List.range 32).map (· + 32)), .write 0x40 0x40, .write 0x41 0x00,
        .write 0x01 v] ∧ v % 8 = 3 :=
  let ⟨s', pre, v, h1, h2, h3, h4, _⟩ :=
    signalling_on_every_chunk (sendingState (List.range 70) 32 .loopTop) (by decide) (by decide)
  ⟨s', v, h1, by rw [h2, h4 (by decide)]; rfl, h3⟩

/-- C17 (payload-length programming). For every length `L` and transceiver state `c`, with
`r` the content of register 0x31, `SX127xFSKSetPayloadLength L` writes the op-mode register
with low bits 1 (standby), then `(r & 0xF8) | ((L >> 8) & 0x07)` to 0x31, then `L & 0xFF` to
0x32. Bits 7..3 of the byte written to 0x31 are those of `r`, and for `L < 2048` 256 times its
low three bits plus the byte written to 0x32 is `L`. In the main loop, when the cursor is 0 and
`TxDataSize > 0`, every state that transmission management returns has these writes, for
`TxDataSize`, right before the first FIFO burst (and it returns when `TxDataSize ≤ 1024`);
in every other state it appends at most a FIFO burst with its three follow-up writes, so no
payload length is programmed. -/
theorem payload_length_programming (L : Nat) (c : Chip) (s : MainState) :
    (∃ v1, (SX127xFSKSetPayloadLength L c).bus = c.bus ++ [.write 0x01 v1,
        .write 0x31 ((SX127xReadBuffer 0x31 c &&& 0xF8) ||| ((L >>> 8) &&& 0x07)),
        .write 0x32 (L &&& 0xFF)] ∧ v1 % 8 = 1) ∧
    ((SX127xReadBuffer 0x31 c &&& 0xF8) ||| ((L >>> 8) &&& 0x07)) &&& 0xF8 =
      SX127xReadBuffer 0x31 c &&& 0xF8 ∧
    (L < 2048 →
      256 * (((SX127xReadBuffer 0x31 c &&& 0xF8) ||| ((L >>> 8) &&& 0x07)) &&& 0x07) +
        (L &&& 0xFF) = L) ∧
    (s.TxBufferPointer = 0 ∧ 0 < s.TxDataSize →
      (s.TxDataSize ≤ 1024 → (transmission s).isSome) ∧
      ∀ s', transmission s = some s' → ∃ bytes v,
        s'.chip.bus = (SX127xFSKSetPayloadLength s.TxDataSize s.chip).bus ++
          [.fifo bytes, .write 0x40 0x40, .write 0x41 0x00, .write 0x01 v]) ∧
    (¬ (s.TxBufferPointer = 0 ∧ 0 < s.TxDataSize) →
      ∀ s', transmission s = some s' → s'.chip.bus = s.chip.bus ∨ ∃ bytes v,
        s'.chip.bus = s.chip.bus ++
          [.fifo bytes, .write 0x40 0x40, .write 0x41 0x00, .write 0x01 v]) := by
  have hm := payload_msb_all _ (SX127xReadBuffer_lt 0x31 c) _ (payload_msb_lt L)
  have key : ∀ (s0 : MainState) (s' : MainState),
      (if s0.TxBufferPointer < s0.TxDataSize then
        if s0.TxDataSize - s0.TxBufferPointer > FIFO_DATA_CHUNKS then
          if BufferSize < s0.TxBufferPointer + FIFO_DATA_CHUNKS then none
          else some { s0 with
            chip := FUN_RF_SENDPACKET (readBytes s0.TxBuffer s0.TxBufferPointer FIFO_DATA_CHUNKS)
              s0.chip
            TxBufferPointer := (s0.TxBufferPointer + FIFO_DATA_CHUNKS) % 4294967296 }
        else
          if BufferSize < s0.TxBufferPointer + ((s0.TxDataSize - s0.TxBufferPointer) >>> 0) % 256
          then none
          else some { s0 with
            chip := FUN_RF_SENDPACKET (readBytes s0.TxBuffer s0.TxBufferPointer
              (((s0.TxDataSize - s0.TxBufferPointer) >>> 0) % 256)) s0.chip
            TxBufferPointer := s0.TxDataSize }
      else some s0) = some s' →
      (s0.TxBufferPointer < s0.TxDataSize → ∃ bytes v, s'.chip.bus = s0.chip.bus ++
          [.fifo bytes, .write 0x40 0x40, .write 0x41 0x00, .write 0x01 v]) ∧
      (¬ s0.TxBufferPointer < s0.TxDataSize → s'.chip.bus = s0.chip.bus) := by
    intro s0 s' h
    split at h
    · rename_i hlt
      refine ⟨fun _ => ?_, fun hn => absurd hlt hn⟩
      split at h
      · split at h
        · cases h
        · injection h with h
          subst h
          obtain ⟨v, hb, -⟩ := busx_FUN_RF_SENDPACKET
            (readBytes s0.TxBuffer s0.TxBufferPointer FIFO_DATA_CHUNKS) s0.chip
          exact ⟨_, v, hb⟩
      · split at h
        · cases h
        · injection h with h
          subst h
          obtain ⟨v, hb, -⟩ := busx_FUN_RF_SENDPACKET (readBytes s0.TxBuffer s0.TxBufferPointer
            (((s0.TxDataSize - s0.TxBufferPointer) >>> 0) % 256)) s0.chip
          exact ⟨_, v, hb⟩
    · rename_i hlt
      injection h with h
      subst h
      exact ⟨fun h => absurd h hlt, fun _ => rfl⟩
  refine ⟨busy_SX127xFSKSetPayloadLength L c, hm.2.1, ?_, ?_, ?_⟩
  · intro hL
    rw [hm.2.2, Nat.and_pow_two_sub_one_eq_mod L 8, Nat.shiftRight_eq_div_pow,
      Nat.and_pow_two_sub_one_eq_mod (L / 2 ^ 8) 3]
    omega
  · intro h0
    constructor
    · intro hle
      obtain ⟨c', ht, -⟩ := transmission_chunk s 0 (by omega) (by omega) hle
      rw [ht]
      rfl
    · intro s' ht
      unfold transmission at ht
      simp only [if_pos (show s.TxBufferPointer = 0 ∧ s.TxDataSize > 0 from h0)] at ht
      exact (key { s with chip := SX127xFSKSetPayloadLength s.TxDataSize s.chip } s' ht).1
        (by show s.TxBufferPointer < s.TxDataSize; omega)
  · intro h0 s' ht
    unfold transmission at ht
    simp only [if_neg (show ¬ (s.TxBufferPointer = 0 ∧ s.TxDataSize > 0) from h0)] at ht
    by_cases hlt : s.TxBufferPointer < s.TxDataSize
    · exact Or.inr ((key s s' ht).1 hlt)
    · exact Or.inl ((key s s' ht).2 hlt)

/-- Witness for C17: length 300 on a transceiver whose registers all hold 0xFF: 0xF9 goes to
0x31 and 0x2C to 0x32; `256 * 1 + 44 = 300`. -/
theorem payload_length_programming_witness :
    (∃ v1, (SX127xFSKSetPayloadLength 300 onesChip).bus =
        [.write 0x01 v1, .write 0x31 0xF9, .write 0x32 0x2C] ∧ v1 % 8 = 1) ∧
    256 * (0xF9 &&& 0x07) + 0x2C = 300 :=
  ⟨(payload_length_programming 300 onesChip (sendingState [] 0 .loopTop)).1,
    (payload_length_programming 300 onesChip (sendingState [] 0 .loopTop)).2.2.1 (by decide)⟩

/-- C18 (progress acknowledgement). For an in-progress frame (byte count above 0, start time
recorded, declared length read) a tick whose byte count is a multiple of 64 other than the
last acknowledged count sends exactly one message, that count, and records it in `AckNumber`;
a further tick on the resulting state does not send a count alone. For every state, a tick
that sends a count alone (a progress acknowledgement) does so only at a byte count that is
positive, a multiple of 64 and different from `AckNumber`, and it sends that byte count. Hence
a boundary `c` is acknowledged at most once per frame: once `c ≤ AckNumber ≤ byte count`
holds, no tick acknowledges `c`, and the condition is kept by every tick that does not end the
frame and by every arrival of bytes (the 16-bit byte count not wrapping). -/
theorem progress_acknowledgement (s : MainState) (now : Nat) :
    (0 < s.USBBufferPointer → s.StartTime ≠ 0 → s.NumOfBytes ≠ 1023 →
      s.USBBufferPointer % 64 = 0 → s.AckNumber ≠ (s.USBBufferPointer : Int) →
      usbReception now s = some { s with
          usbOut := s.usbOut ++ [.count s.USBBufferPointer]
          AckNumber := (s.USBBufferPointer : Int) } ∧
        ∀ now' s'' n, usbReception now' { s with
            usbOut := s.usbOut ++ [.count s.USBBufferPointer]
            AckNumber := (s.USBBufferPointer : Int) } = some s'' →
          s''.usbOut ≠ s.usbOut ++ [.count s.USBBufferPointer] ++ [.count n]) ∧
    (∀ s' n, usbReception now s = some s' → s'.usbOut = s.usbOut ++ [.count n] →
      n = s.USBBufferPointer ∧ 0 < n ∧ n % 64 = 0 ∧ s.AckNumber ≠ (n : Int) ∧
        s'.AckNumber = (n : Int)) ∧
    (∀ c : Nat, (c : Int) ≤ s.AckNumber → s.AckNumber ≤ (s.USBBufferPointer : Int) →
      (∀ s', usbReception now s = some s' → s'.USBBufferPointer ≠ 0 →
        s'.usbOut ≠ s.usbOut ++ [.count c] ∧
        (c : Int) ≤ s'.AckNumber ∧ s'.AckNumber ≤ (s'.USBBufferPointer : Int)) ∧
      (∀ bytes : List Nat, s.USBBufferPointer + bytes.length < 65536 →
        (c : Int) ≤ (usbArrival bytes s).AckNumber ∧
        (usbArrival bytes s).AckNumber ≤ ((usbArrival bytes s).USBBufferPointer : Int))) := by
  have only : ∀ (t : MainState) (now' : Nat) (s' : MainState) (n : Nat),
      usbReception now' t = some s' → s'.usbOut = t.usbOut ++ [.count n] →
      n = t.USBBufferPointer ∧ 0 < n ∧ n % 64 = 0 ∧ t.AckNumber ≠ (n : Int) ∧
        s'.AckNumber = (n : Int) := by
    intro t now' s' n h ho
    rcases usbReception_cases now' t s' h with ⟨h64, hack, hpos, rfl⟩ | ⟨h1, -⟩ | ⟨h1, -⟩ | ⟨h1, -⟩
    · have e : [UsbMessage.count t.USBBufferPointer] = [UsbMessage.count n] :=
        List.append_cancel_left ho
      injection e with e _
      injection e with e
      subst e
      exact ⟨rfl, hpos, h64, hack, rfl⟩
    · rw [h1] at ho
      have := congrArg List.length (List.append_cancel_left ho)
      simp at this
    · rw [h1] at ho
      have e := List.append_cancel_left ho
      injection e with e _
      cases e
    · rw [h1] at ho
      have := congrArg List.length ho
      simp at this
  refine ⟨?_, fun s' n h ho => only s now s' n h ho, ?_⟩
  · intro hpos hstart hread h64 hack
    refine ⟨usbReception_ack now s hpos hstart (fun h => hread h.1) h64 hack, ?_⟩
    intro now' s'' n h ho
    exact (only _ now' s'' n h ho).2.2.2.1 (by rw [(only _ now' s'' n h ho).1])
  · intro c hc1 hc2
    constructor
    · intro s' h hne
      constructor
      · intro ho
        have := only s now s' c h ho
        omega
      · rcases usbReception_cases now s s' h with ⟨h64, hack, hpos, rfl⟩ | ⟨-, h0⟩ | ⟨-, h0⟩ |
          ⟨-, hp, ha⟩
        · exact ⟨by show (c : Int) ≤ (s.USBBufferPointer : Int); omega, le_refl _⟩
        · exact absurd h0 hne
        · exact absurd h0 hne
        · rw [hp, ha]; exact ⟨hc1, hc2⟩
    · intro bytes hb
      show (c : Int) ≤ s.AckNumber ∧
        s.AckNumber ≤ (((s.USBBufferPointer + bytes.length) % 65536 : Nat) : Int)
      rw [Nat.mod_eq_of_lt hb]
      exact ⟨hc1, by omega⟩

/-- Witness for C18: 64 of 144 bytes received, nothing acknowledged yet. -/
theorem progress_acknowledgement_witness :
    usbReception 6 (receivingState sessionMessage 64 5 144) =
      some { receivingState sessionMessage 64 5 144 with
        usbOut := [.count 64], AckNumber := 64 } :=
  ((progress_acknowledgement (receivingState sessionMessage 64 5 144) 6).1 (by decide) (by decide)
    (by decide) (by decide) (by decide)).1

set_option maxRecDepth 1000000 in
/-- Counterexample for C19: a complete 64-byte frame arrives after startup. The third pass of
the loop body, the first tick after the declared length 64 is read, finds byte count 64 at
or above the declared length and not yet acknowledged; it sends the progress acknowledgement
64 and no success message: the frame is still in the buffer, `TxDataSize` is 0. -/
theorem completion_before_acknowledgement_counterexample :
    ((startup blankChip.regs).bind (run boundaryEvents)).map
      (fun s => (s.usbOut, s.TxDataSize, s.USBBufferPointer, s.NumOfBytes, s.AckNumber)) =
    some ([.count 64], 0, 64, 64, 64) := by
  decide

/-- C19 as amended (acknowledgement before completion). On a tick of an in-progress frame at
which the byte count has reached or exceeded the declared length and is also a
not-yet-acknowledged multiple of 64, the code performs the modulo-64 check (line 94) before
the length check (line 99): the tick sends the progress acknowledgement and records it, and
nothing else changes. The next tick runs the completion branch; every state it returns has
sent the byte count and the success message after the acknowledgement, and it returns when
the declared length is not negative, the byte count is at most 1008 and the received data
rate is not 0. -/
theorem acknowledgement_before_completion (s : MainState) (now now' : Nat)
    (hpos : 0 < s.USBBufferPointer) (hstart : s.StartTime ≠ 0) (hread : s.NumOfBytes ≠ 1023)
    (hge : (s.USBBufferPointer : Int) ≥ s.NumOfBytes)
    (h64 : s.USBBufferPointer % 64 = 0) (hack : s.AckNumber ≠ (s.USBBufferPointer : Int)) :
    usbReception now s = some { s with
        usbOut := s.usbOut ++ [.count s.USBBufferPointer]
        AckNumber := (s.USBBufferPointer : Int) } ∧
    usbReception now' { s with
        usbOut := s.usbOut ++ [.count s.USBBufferPointer]
        AckNumber := (s.USBBufferPointer : Int) } =
      (messageReceived { s with
        usbOut := s.usbOut ++ [.count s.USBBufferPointer]
        AckNumber := (s.USBBufferPointer : Int) }).bind updateInitialization ∧
    (∀ s'', usbReception now' { s with
        usbOut := s.usbOut ++ [.count s.USBBufferPointer]
        AckNumber := (s.USBBufferPointer : Int) } = some s'' →
      s''.usbOut = s.usbOut ++
        [.count s.USBBufferPointer, .count s.USBBufferPointer, .receptionOK]) ∧
    (0 ≤ s.NumOfBytes → s.USBBufferPointer ≤ 1008 →
      readU32 s.USBBuffer 6 ≠ 0 →
      (usbReception now' { s with
        usbOut := s.usbOut ++ [.count s.USBBufferPointer]
        AckNumber := (s.USBBufferPointer : Int) }).isSome) := by
  have h1 := usbReception_ack now s hpos hstart (fun h => hread h.1) h64 hack
  have h2 : usbReception now' { s with
        usbOut := s.usbOut ++ [.count s.USBBufferPointer]
        AckNumber := (s.USBBufferPointer : Int) } =
      (messageReceived { s with
        usbOut := s.usbOut ++ [.count s.USBBufferPointer]
        AckNumber := (s.USBBufferPointer : Int) }).bind updateInitialization :=
    usbReception_complete now' _ hge hpos hstart (fun h => hread h.1) (fun h => h.2 rfl)
  refine ⟨h1, h2, ?_, ?_⟩
  · intro s'' h
    rw [h2] at h
    cases hm : messageReceived { s with
        usbOut := s.usbOut ++ [.count s.USBBufferPointer]
        AckNumber := (s.USBBufferPointer : Int) } with
    | none => rw [hm] at h; cases h
    | some s1 =>
      rw [hm] at h
      rw [(updateInitialization_usbOut s1 s'' h).1, (messageReceived_usbOut _ s1 hm).1]
      simp
  · intro h0 hle hrate
    rw [h2, messageReceived_eq _ (by
      show toUInt32 s.NumOfBytes ≤ 1008
      unfold toUInt32; omega), Option.some_bind]
    apply Option.isSome_iff_exists.mpr
    apply updateInitialization_isSome
    intro _
    exact hrate

/-- Witness for C19: the 64-byte frame, fully received, length read, nothing acknowledged. -/
theorem acknowledgement_before_completion_witness :
    usbReception 7 (receivingState boundaryMessage 64 5 64) =
      some { receivingState boundaryMessage 64 5 64 with
        usbOut := [.count 64], AckNumber := 64 } ∧
    ∀ s'', usbReception 8 { receivingState boundaryMessage 64 5 64 with
        usbOut := [.count 64], AckNumber := 64 } = some s'' →
      s''.usbOut = [.count 64, .count 64, .receptionOK] :=
  ⟨(acknowledgement_before_completion (receivingState boundaryMessage 64 5 64) 7 8 (by decide)
      (by decide) (by decide) (by decide) (by decide) (by decide)).1,
    (acknowledgement_before_completion (receivingState boundaryMessage 64 5 64) 7 8 (by decide)
      (by decide) (by decide) (by decide) (by decide) (by decide)).2.2.1⟩

/-- C20 (sentinel collision). Let the first two bytes of the receive buffer be 0x03, 0xFF
(declared length 1023), the byte count at least 2, the start time recorded, and let the local
`NumOfBytes` hold 1023, as it does both while the length is unknown and after it has been read
from these bytes. Then every tick, whatever the tick counter, takes the length-reading branch:
it stores the declared length 1023 again and returns the state unchanged (byte count, start
time, acknowledgement marker, declared length, messages sent); and so does every sequence of
ticks. -/
theorem sentinel_collision (s : MainState) (h0 : s.USBBuffer 0 % 256 = 0x03)
    (h1 : s.USBBuffer 1 % 256 = 0xFF) (hcount : 2 ≤ s.USBBufferPointer)
    (hstart : s.StartTime ≠ 0) (hnum : s.NumOfBytes = 1023) :
    (∀ now : Nat, usbReception now s =
      some { s with NumOfBytes := (readU16 s.USBBuffer : Nat) }) ∧
    (∀ now : Nat, usbReception now s = some s) ∧
    ∀ nows : List Nat, nows.foldlM (fun st now => usbReception now st) s = some s := by
  have hl : ∀ now : Nat, usbReception now s =
      some { s with NumOfBytes := (readU16 s.USBBuffer : Nat) } :=
    fun now => usbReception_length now s hstart hnum hcount
  have hs : ∀ now : Nat, usbReception now s = some s := by
    intro now
    rw [hl now, readU16_sentinel _ h0 h1]
    cases s
    simp only at hnum
    subst hnum
    rfl
  refine ⟨hl, hs, ?_⟩
  intro nows
  induction nows with
  | nil => rfl
  | cons t ts ih =>
    rw [List.foldlM_cons, hs t]
    exact ih

/-- Witness for C20: four bytes of such a frame received at tick 5; the tick at 100000 changes
nothing. -/
theorem sentinel_collision_witness :
    usbReception 100000 (receivingState [0x03, 0xFF, 0x18, 0x14] 4 5 1023) =
      some (receivingState [0x03, 0xFF, 0x18, 0x14] 4 5 1023) :=
  (sentinel_collision (receivingState [0x03, 0xFF, 0x18, 0x14] 4 5 1023) (by decide) (by decide)
    (by decide) (by decide) (by decide)).2.1 100000

/-- C21 (copy bounds). Let a frame complete with declared length `N` (a 16-bit value held in
the local `NumOfBytes`). The copy of line 113 reads the `USBBuffer` indices `16 + i` and
writes the `TxBuffer` indices `i` for `i < N`: `N` bytes, not `N - 16`. All these indices are
inside the two 1024-byte buffers if and only if `N ≤ 1008`, and lines 101-124 return exactly
then. Whenever they return, `TxBuffer[i]` holds `USBBuffer[16 + i]` for every `i < N`, the
other elements of `TxBuffer` are unchanged, and for `N ≥ 16` `TxDataSize` is `N - 16`. For
`16 ≤ N ≤ 1008` every later pass of transmission management over a payload of `N - 16` bytes
returns, whatever the cursor, and a pass with the cursor below the length hands
`FUN_RF_SENDPACKET` the transmit buffer read at indices that all lie below `N - 16` and inside
the buffer. -/
theorem copy_bounds (N : Nat) (hN : N < 65536) (s : MainState) (hs : s.NumOfBytes = (N : Int)) :
    (((∀ i ∈ copyReadIndices N, i < BufferSize) ∧ (∀ i ∈ copyWriteIndices N, i < BufferSize)) ↔
      N ≤ 1008) ∧
    ((messageReceived s).isSome ↔ N ≤ 1008) ∧
    (∀ s', messageReceived s = some s' →
      (∀ i ∈ copyWriteIndices N, s'.TxBuffer i = s.USBBuffer (PcReceptionStructSize + i)) ∧
      (∀ i, i ∉ copyWriteIndices N → s'.TxBuffer i = s.TxBuffer i) ∧
      (16 ≤ N → s'.TxDataSize = N - 16)) ∧
    (16 ≤ N → N ≤ 1008 → ∀ t : MainState, t.TxDataSize = N - 16 →
      (transmission t).isSome ∧
      (t.TxBufferPointer < t.TxDataSize →
        (∃ t' c0, transmission t = some t' ∧ t'.chip = FUN_RF_SENDPACKET
          ((chunkReadIndices t.TxBufferPointer
            (min 32 (t.TxDataSize - t.TxBufferPointer))).map t.TxBuffer) c0) ∧
        ∀ i ∈ chunkReadIndices t.TxBufferPointer (min 32 (t.TxDataSize - t.TxBufferPointer)),
          i < N - 16 ∧ i < BufferSize)) := by
  have hu : toUInt32 s.NumOfBytes = N := by
    rw [hs]; unfold toUInt32; omega
  refine ⟨copyIndices_inside N, ?_, ?_, ?_⟩
  · rw [messageReceived_isSome, hu]
  · intro s' h
    have hle : toUInt32 s.NumOfBytes ≤ 1008 :=
      (messageReceived_isSome s).mp (by rw [h]; rfl)
    rw [messageReceived_eq s hle] at h
    injection h with h
    subst h
    refine ⟨?_, ?_, ?_⟩
    · intro i hi
      have hi' : i < N := List.mem_range.mp hi
      show (if i < toUInt32 s.NumOfBytes then s.USBBuffer (PcReceptionStructSize + i)
        else s.TxBuffer i) = _
      rw [hu, if_pos hi']
    · intro i hi
      have hi' : ¬ i < N := fun h => hi (List.mem_range.mpr h)
      show (if i < toUInt32 s.NumOfBytes then s.USBBuffer (PcReceptionStructSize + i)
        else s.TxBuffer i) = _
      rw [hu, if_neg hi']
    · intro h16
      show toUInt32 (s.NumOfBytes - PcReceptionStructSize) = N - 16
      rw [hs]
      unfold toUInt32 PcReceptionStructSize
      omega
  · intro h16 hle t ht
    refine ⟨transmission_isSome t (by omega), ?_⟩
    intro hlt
    have hw := transmission_write t hlt (by omega)
    rw [readBytes_eq_map] at hw
    refine ⟨⟨_, if t.TxBufferPointer = 0 ∧ t.TxDataSize > 0 then
      SX127xFSKSetPayloadLength t.TxDataSize t.chip else t.chip, hw, rfl⟩, ?_⟩
    · intro i hi
      have := chunkReadIndices_lt _ _ _ hi
      unfold BufferSize
      omega

/-- Witness for C21: the 20-byte scenario frame is copied and leaves a payload length of 4; a
declared length of 1009 makes the copy leave the buffers. -/
theorem copy_bounds_witness :
    (messageReceived (receivingState scenarioMessage 20 5 20)).isSome ∧
    (∀ s', messageReceived (receivingState scenarioMessage 20 5 20) = some s' →
      s'.TxDataSize = 4) ∧
    ¬ (messageReceived (receivingState [] 1009 5 1009)).isSome :=
  ⟨(copy_bounds 20 (by decide) (receivingState scenarioMessage 20 5 20) rfl).2.1.mpr (by decide),
    fun s' h => ((copy_bounds 20 (by decide) (receivingState scenarioMessage 20 5 20) rfl).2.2.1
      s' h).2.2 (by decide),
    fun h => absurd ((copy_bounds 1009 (by decide) (receivingState [] 1009 5 1009) rfl).2.1.mp h)
      (by decide)⟩

set_option maxRecDepth 1000000 in
/-- C22 (unguarded division). `SX127xFSKSetBitRate` has a defined result exactly for a bit rate
of at least 1, and `SX127xFSK_INT`, which passes the data-rate field to it, exactly for a data
rate of at least 1: the division `FXOSC/BitRate` is its only undefined step. In every state
that the main loop reaches from startup the active data rate is not 0. When a frame completes
(the tick runs lines 101-136, the copy is in bounds) whose data-rate field is 0, in a state
whose active data rate is not 0, then lines 101-124 return with the received data rate 0, the
comparison of lines 127-131 finds a difference, and `SX127xFSK_INT` is called with data rate
0: the configuration, the re-initialisation and the whole tick have no defined result.
Evaluated after startup: the 20-byte message with data rate 0 is received without fault up to
the completing pass, and that pass divides by zero. -/
theorem unguarded_division :
    (∀ (BitRate frac : Nat) (c : Chip),
      (SX127xFSKSetBitRate BitRate frac c).isSome ↔ 1 ≤ BitRate) ∧
    (∀ (m : MetaDataStruct) (c : Chip), (SX127xFSK_INT m c).isSome ↔ 1 ≤ m.DataRate) ∧
    (∀ (regs : Nat → Nat) (evs : List Event) (s : MainState),
      (startup regs).bind (run evs) = some s → s.SetupData.DataRate ≠ 0) ∧
    (∀ (now : Nat) (s : MainState), 0 < s.USBBufferPointer → s.StartTime ≠ 0 →
      s.NumOfBytes ≠ 1023 →
      ¬ (s.USBBufferPointer % 64 = 0 ∧ s.AckNumber ≠ (s.USBBufferPointer : Int)) →
      (s.USBBufferPointer : Int) ≥ s.NumOfBytes → toUInt32 s.NumOfBytes ≤ 1008 →
      readU32 s.USBBuffer 6 = 0 → s.SetupData.DataRate ≠ 0 →
      ∃ s1, messageReceived s = some s1 ∧ s1.PcReceptionData.DataRate = 0 ∧
        updateRequired s1 ∧
        SX127xFSK_INT s1.PcReceptionData (SX127xReset s1.chip) = none ∧
        updateInitialization s1 = none ∧ usbReception now s = none) ∧
    ((startup blankChip.regs).bind (run zeroRateEvents.dropLast)).isSome = true ∧
    ((startup blankChip.regs).bind (run zeroRateEvents)).isNone = true := by
  refine ⟨SX127xFSKSetBitRate_isSome, SX127xFSK_INT_isSome, ?_, ?_, by decide, by decide⟩
  · intro regs evs s h
    obtain ⟨s0, cfg, h0, -, -, -, -, -, -, -, hsetup, -⟩ := startup_eq regs
    rw [h0] at h
    exact run_rate evs s0 s h (by rw [hsetup]; decide)
  · intro now s hpos hstart hread hack hge hle hrate hsetup
    have hm := messageReceived_eq s hle
    obtain ⟨hs1, hr1⟩ := messageReceived_setup s _ hm
    have hr0 := hr1.trans hrate
    have hint : ∀ c : Chip, SX127xFSK_INT
        { NumOfBytes := readU16 s.USBBuffer % 65536
          FrequencyStart := readU32 s.USBBuffer 2
          DataRate := readU32 s.USBBuffer 6
          FrequencyDeviation := readU32 s.USBBuffer 10
          GaussianMode := s.USBBuffer 14 % 256
          Power := toInt8 (s.USBBuffer 15) } c = none := by
      intro c
      cases hc : SX127xFSK_INT
        { NumOfBytes := readU16 s.USBBuffer % 65536
          FrequencyStart := readU32 s.USBBuffer 2
          DataRate := readU32 s.USBBuffer 6
          FrequencyDeviation := readU32 s.USBBuffer 10
          GaussianMode := s.USBBuffer 14 % 256
          Power := toInt8 (s.USBBuffer 15) } c with
      | none => rfl
      | some c' =>
        have := (SX127xFSK_INT_isSome _ c).mp (by rw [hc]; rfl)
        have h6 : readU32 s.USBBuffer 6 = 0 := hrate
        simp only [h6] at this
        omega
    refine ⟨_, hm, hr0, ?_, hint _, ?_, ?_⟩
    · right; left
      intro he
      exact hsetup (he.trans hrate)
    · unfold updateInitialization
      rw [if_pos (by
        right; left
        intro he
        exact hsetup (he.trans hrate))]
      show (match SX127xFSK_INT _ _ with | none => none | some c => _) = none
      rw [hint]
    · rw [usbReception_complete now s hge hpos hstart (fun h => hread h.1) hack, hm,
        Option.some_bind]
      unfold updateInitialization
      rw [if_pos (by
        right; left
        intro he
        exact hsetup (he.trans hrate))]
      show (match SX127xFSK_INT _ _ with | none => none | some c => _) = none
      rw [hint]

/-- Witness for C22: the 20 bytes of the message with data rate 0 received, length read; the
tick at 7 has no defined result. -/
theorem unguarded_division_witness :
    usbReception 7 (receivingState zeroRateMessage 20 5 20) = none :=
  let ⟨_, _, _, _, _, _, h⟩ := unguarded_division.2.2.2.1 7
    (receivingState zeroRateMessage 20 5 20) (by decide) (by decide) (by decide) (by decide)
    (by decide) (by decide) (by decide) (by decide)
  h

end RS41SimTx
